import Mathlib

/-!
# ElevenLabs UniMRCP synthesizer plugin: audio buffer, mu-law decoder, cache key

A shallow embedding of the leaf components of the plugin:

* the growable byte accumulator `audio_buffer_t`
  (`src/elevenlabs_synth_channel.c`),
* the mu-law lookup-table decoder (`src/ulaw_decode.c`),
* the cache fingerprint `elevenlabs_cache_compute_key`
  (`src/elevenlabs_http.c`).

Conventions of the embedding.

* A byte (`uint8_t`) is a `Fin 256`.  A C buffer `(ptr, len)` is the list of
  its bytes.  A C string is the list of its characters before the terminating
  NUL.
* `apr_size_t` values are natural numbers; every `apr_size_t` operation of the
  source is reduced modulo `APR_SIZE_MODULUS = 2 ^ 64` (LP64 target), and the
  cast `(unsigned int)strlen(s)` modulo `2 ^ 32`.  Theorems that need the
  arithmetic not to wrap say so in a hypothesis.
* Writing past the end of a block is undefined in C; `memcpy` below is total
  (the list grows), and every theorem is stated where the write is in bounds.
* The mutex of the buffer is not modelled: each operation runs entirely inside
  its critical section, so it is one atomic state transition.
* `apr_palloc` is an oracle: the caller of a model function supplies the
  outcome of each allocation (`none` for `NULL`, `some junk` for a block whose
  uninitialised bytes are given by `junk`).
-/

namespace ElevenLabs

/-- A byte, the C type `uint8_t`. -/
abbrev uint8_t := Fin 256

/-- Modulus of `apr_size_t` arithmetic (`size_t` of an LP64 target). -/
def APR_SIZE_MODULUS : Nat := 2 ^ 64

/-! ## Raw memory helpers -/

/-- The call `apr_palloc(pool, n)`: `NULL` (`none`) or a block of `n` bytes
whose uninitialised content is whatever the oracle `mem` says. -/
def apr_palloc (n : Nat) (mem : Option (Nat → uint8_t)) : Option (List uint8_t) :=
  mem.map (fun junk => (List.range n).map junk)

/-- The call `memcpy(dst + off, src, n)` on the block `dst`: the `n` bytes at
offset `off` are replaced by the first `n` bytes of `src`, all other bytes of
`dst` are kept. -/
def memcpy (dst : List uint8_t) (off : Nat) (src : List uint8_t) (n : Nat) : List uint8_t :=
  dst.take off ++ src.take n ++ dst.drop (off + n)

/-- The call `memmove(dst, dst + off, n)` inside one block: the `n` bytes
starting at offset `off` are moved to offset 0. -/
def memmove_front (dst : List uint8_t) (off : Nat) (n : Nat) : List uint8_t :=
  (dst.drop off).take n ++ dst.drop n

/-! ## The audio buffer (`audio_buffer_t`) -/

/-- The struct `audio_buffer_t`: `buffer` is the storage block the pointer
refers to, `size` the number of valid bytes at its front, `capacity` the
recorded size of the block.  (The mutex and the pool are not data.) -/
structure audio_buffer_t where
  buffer : List uint8_t
  size : Nat
  capacity : Nat

/-- The bytes currently held by the buffer: the first `size` bytes of the
storage block. -/
def audio_buffer_t.contents (b : audio_buffer_t) : List uint8_t :=
  b.buffer.take b.size

/-- A buffer value that describes real memory: the block has `capacity` bytes,
`capacity` is an `apr_size_t`, and the valid bytes lie inside the block. -/
def audio_buffer_t.wf (b : audio_buffer_t) : Prop :=
  b.buffer.length = b.capacity ∧ b.capacity < APR_SIZE_MODULUS ∧ b.size ≤ b.capacity

instance (b : audio_buffer_t) : Decidable b.wf := by
  unfold audio_buffer_t.wf; infer_instance

/-- The function `audio_buffer_create`.  `struct_mem` is the outcome of the
allocation of the struct itself (`true` when it is not `NULL`), `mem` the
outcome of the allocation of the storage block. -/
def audio_buffer_create (struct_mem : Bool) (mem : Option (Nat → uint8_t))
    (initial_capacity : Nat) : Option audio_buffer_t :=
  let initial_capacity :=
    if initial_capacity > 1024 * 1024 then initial_capacity else 1024 * 1024
  if !struct_mem then none
  else
    match apr_palloc initial_capacity mem with
    | none => none
    | some block => some { buffer := block, size := 0, capacity := initial_capacity }

/-- The function `audio_buffer_write(buffer, data, size)` with `buffer` and
`data` not `NULL`; the pair `(data, size)` is the list `data`.  `mem` is the
outcome of the `apr_palloc` made when the buffer has to grow.  Returns the new
buffer state and the `apt_bool_t` result. -/
def audio_buffer_write (b : audio_buffer_t) (data : List uint8_t)
    (mem : Option (Nat → uint8_t)) : audio_buffer_t × Bool :=
  let size := data.length
  if size = 0 then (b, false)
  else if (b.size + size) % APR_SIZE_MODULUS > b.capacity then
    let min_needed := (b.size + size) % APR_SIZE_MODULUS
    let new_capacity := (b.capacity * 2) % APR_SIZE_MODULUS
    let new_capacity :=
      if new_capacity < min_needed then (min_needed * 2) % APR_SIZE_MODULUS else new_capacity
    match apr_palloc new_capacity mem with
    | none => (b, false)
    | some new_buffer =>
      let new_buffer := if b.size > 0 then memcpy new_buffer 0 b.buffer b.size else new_buffer
      ({ buffer := memcpy new_buffer b.size data size,
         size := (b.size + size) % APR_SIZE_MODULUS,
         capacity := new_capacity }, true)
  else
    ({ b with buffer := memcpy b.buffer b.size data size,
              size := (b.size + size) % APR_SIZE_MODULUS }, true)

/-- Result of `audio_buffer_read_frame`: the new buffer state, the caller's
frame block after the call, and the returned byte count. -/
structure read_result where
  buffer : audio_buffer_t
  frame : List uint8_t
  bytes_read : Nat

/-- The bytes a read hands to its caller: the first `bytes_read` bytes of the
frame block. -/
def read_result.bytes (r : read_result) : List uint8_t :=
  r.frame.take r.bytes_read

/-- The function `audio_buffer_read_frame(buffer, frame, frame_size)` with
`buffer` and `frame` not `NULL`.  `frame` is the caller's destination block. -/
def audio_buffer_read_frame (b : audio_buffer_t) (frame : List uint8_t)
    (frame_size : Nat) : read_result :=
  if frame_size = 0 then { buffer := b, frame := frame, bytes_read := 0 }
  else
    let bytes_to_read := if b.size ≥ frame_size then frame_size else b.size
    if bytes_to_read > 0 then
      let frame1 := memcpy frame 0 b.buffer bytes_to_read
      let storage :=
        if bytes_to_read < b.size then memmove_front b.buffer bytes_to_read (b.size - bytes_to_read)
        else b.buffer
      { buffer := { b with buffer := storage, size := b.size - bytes_to_read },
        frame := frame1, bytes_read := bytes_to_read }
    else { buffer := b, frame := frame, bytes_read := bytes_to_read }

/-- The function `audio_buffer_clear` with `buffer` not `NULL`. -/
def audio_buffer_clear (b : audio_buffer_t) : audio_buffer_t :=
  { b with size := 0 }

/-- One call made on a buffer by its producer or its consumer. -/
inductive buffer_call where
  | write (data : List uint8_t) (mem : Option (Nat → uint8_t))
  | read (frame : List uint8_t) (frame_size : Nat)

/-- What a sequence of calls did: the final buffer, the bytes passed to the
writes and the bytes handed out by the reads (both in call order), the sum of
the byte counts the reads returned, and whether every write returned `TRUE`. -/
structure call_log where
  buffer : audio_buffer_t
  written : List uint8_t
  read : List uint8_t
  read_count : Nat
  writes_ok : Bool

/-- Perform one call and extend the log. -/
def call_log.step (l : call_log) : buffer_call → call_log
  | .write data mem =>
    let r := audio_buffer_write l.buffer data mem
    { l with buffer := r.1, written := l.written ++ data, writes_ok := l.writes_ok && r.2 }
  | .read frame frame_size =>
    let r := audio_buffer_read_frame l.buffer frame frame_size
    { l with buffer := r.buffer, read := l.read ++ r.bytes,
             read_count := l.read_count + r.bytes_read }

/-- Perform a sequence of calls, first call first, on buffer `b`. -/
def run_calls (b : audio_buffer_t) (calls : List buffer_call) : call_log :=
  calls.foldl call_log.step
    { buffer := b, written := [], read := [], read_count := 0, writes_ok := true }

/-- The relation between a log and its buffer that every call keeps: the
buffer describes real memory, the bytes read followed by the bytes still
buffered are the bytes written, and the byte counts add up. -/
def call_log.inv (l : call_log) : Prop :=
  l.buffer.wf ∧ l.read ++ l.buffer.contents = l.written ∧ l.read.length = l.read_count

/-! ## The mu-law decoder (`ulaw_decode.c`) -/

/-- Conversion of an `int` to `int8_t` (two's complement, low 8 bits kept). -/
def to_int8 (x : Int) : Int := (x + 128) % 256 - 128

/-- Conversion of an `int` to `int16_t` (two's complement, low 16 bits kept). -/
def to_int16 (x : Int) : Int := (x + 32768) % 65536 - 32768

/-- The C expression `x & mask` for an `int` `x` and a constant `mask` below
`0x100`: in two's complement only the low 8 bits of `x` take part, and these
are `x mod 256`. -/
def int_and (x : Int) (mask : Nat) : Int := (((x % 256).toNat &&& mask : Nat) : Int)

/-- The macro `ULAW_BIAS`. -/
def ULAW_BIAS : Int := 0x84

/-- The macro `ULAW_CLIP`. -/
def ULAW_CLIP : Int := 32635

/-- The body of the loop of `ulaw_decode_init`: the value stored in
`ulaw_table[i]`. -/
def ulaw_decode_entry (i : Nat) : Int :=
  let ulaw_val : Int := to_int8 (i : Int)
  let ulaw_val : Int := to_int8 (~~~ulaw_val)
  let sign : Int := if int_and ulaw_val 0x80 ≠ 0 then -1 else 1
  let exponent : Int := int_and (ulaw_val >>> (4 : Nat)) 0x07
  let mantissa : Int := int_and ulaw_val 0x0F
  let mantissa : Int := (mantissa <<< (3 : Int)) + ULAW_BIAS
  let mantissa : Int :=
    if exponent ≠ 0 then mantissa + ((1 : Int) <<< (exponent + 3)) else mantissa
  let pcm_val : Int := to_int16 (sign * mantissa)
  if pcm_val > ULAW_CLIP then ULAW_CLIP
  else if pcm_val < -ULAW_CLIP then -ULAW_CLIP
  else pcm_val

/-- The two file-scope statics of `ulaw_decode.c`. -/
structure ulaw_state where
  ulaw_table : List Int
  ulaw_table_initialized : Bool

/-- The statics at program start: zero-initialised. -/
def ulaw_static : ulaw_state :=
  { ulaw_table := List.replicate 256 0, ulaw_table_initialized := false }

/-- The function `ulaw_decode_init`. -/
def ulaw_decode_init (s : ulaw_state) : ulaw_state :=
  if s.ulaw_table_initialized then s
  else
    { ulaw_table :=
        (List.range 256).foldl (fun table i => table.set i (ulaw_decode_entry i)) s.ulaw_table,
      ulaw_table_initialized := true }

/-- The function `ulaw_byte_to_s16`: the statics after the call and the
returned sample. -/
def ulaw_byte_to_s16 (s : ulaw_state) (ulaw_byte : uint8_t) : ulaw_state × Int :=
  let s := if !s.ulaw_table_initialized then ulaw_decode_init s else s
  (s, s.ulaw_table.getD ulaw_byte.val 0)

/-- The function `ulaw_to_s16(in, n, out)`; the pair `(in, n)` is the list
`inp`, `out` is the caller's block of `int16_t`.  Returns the statics and the
block after the call. -/
def ulaw_to_s16 (s : ulaw_state) (inp : List uint8_t) (out : List Int) :
    ulaw_state × List Int :=
  let n := inp.length
  let s := if !s.ulaw_table_initialized then ulaw_decode_init s else s
  (s, (List.range n).foldl
        (fun out i => out.set i (s.ulaw_table.getD (inp.getD i 0).val 0)) out)

/-- The statics once the table has been built. -/
def ulaw_ready : ulaw_state :=
  { ulaw_table := (List.range 256).map ulaw_decode_entry, ulaw_table_initialized := true }

/-- One call into the decoder. -/
inductive ulaw_call where
  | init
  | byte_to_s16 (ulaw_byte : uint8_t)
  | to_s16 (inp : List uint8_t) (out : List Int)

/-- The statics after one call. -/
def ulaw_state.step (s : ulaw_state) : ulaw_call → ulaw_state
  | .init => ulaw_decode_init s
  | .byte_to_s16 b => (ulaw_byte_to_s16 s b).1
  | .to_s16 inp out => (ulaw_to_s16 s inp out).1

/-- The statics after a sequence of calls, first call first, made from
program start. -/
def ulaw_after (calls : List ulaw_call) : ulaw_state :=
  calls.foldl ulaw_state.step ulaw_static

/-- The two bytes an `int16_t` occupies in memory on a little-endian host, low
byte first. -/
def s16_bytes (x : Int) : List uint8_t :=
  [Fin.ofNat ((x % 65536).toNat % 256), Fin.ofNat ((x % 65536).toNat / 256)]

/-- The bytes seen through the cast `(const uint8_t*)pcm_buffer`. -/
def pcm_bytes (samples : List Int) : List uint8_t :=
  samples.flatMap s16_bytes

/-- The decoding algorithm as the specification words it: `c` is the bitwise
complement of the byte, `s` is -1 when bit 7 of `c` is set and +1 otherwise,
`e` is bits 6..4 of `c`, `m = ((bits 3..0 of c) << 3) + 0x84`, increased by
`1 << (e + 3)` when `e` is not 0; the sample is `s * m` clamped to
`[-32635, 32635]`. -/
def ulaw_spec_sample (b : uint8_t) : Int :=
  let c : Nat := b.val ^^^ 0xFF
  let s : Int := if c.testBit 7 then -1 else 1
  let e : Nat := (c >>> 4) &&& 0x7
  let m : Nat := ((c &&& 0xF) <<< 3) + 0x84
  let m : Nat := if e ≠ 0 then m + (1 <<< (e + 3)) else m
  max (-32635) (min 32635 (s * (m : Int)))

/-- The reference G.711 mu-law expansion: with `c` the complement of the
byte, `e` its bits 6..4 and `m` its bits 3..0, the sample is the sign given by
bit 7 of `c` applied to `(((m << 3) + 0x84) << e) - 0x84`. -/
def g711_ulaw_reference (b : uint8_t) : Int :=
  let c : Nat := b.val ^^^ 0xFF
  let e : Nat := (c >>> 4) &&& 0x7
  let m : Nat := c &&& 0xF
  let magnitude : Int := (((((m <<< 3) + 0x84) <<< e : Nat)) : Int) - 0x84
  if c.testBit 7 then -magnitude else magnitude

/-! ## The cache fingerprint (`elevenlabs_cache_compute_key`) -/

/-- A C string: the characters before the terminating NUL (so a list that
contains NUL does not arise as the value of a C string). -/
abbrev c_string := List Char

/-- The macro `APR_SHA1_DIGESTSIZE`. -/
def APR_SHA1_DIGESTSIZE : Nat := 20

/-- An array `unsigned char digest[APR_SHA1_DIGESTSIZE]`. -/
abbrev sha1_digest := Fin APR_SHA1_DIGESTSIZE → uint8_t

/-- The hashing context `apr_sha1_ctx_t` of the APR library, described by what
determines the digest: the bytes fed to it so far. -/
structure apr_sha1_ctx_t where
  message : c_string

/-- The call `apr_sha1_init(&ctx)`. -/
def apr_sha1_init : apr_sha1_ctx_t := { message := [] }

/-- The call `apr_sha1_update(&ctx, input, inputLen)`: the first `inputLen`
characters of `input` are fed to the hash. -/
def apr_sha1_update (ctx : apr_sha1_ctx_t) (input : c_string) (inputLen : Nat) :
    apr_sha1_ctx_t :=
  { message := ctx.message ++ input.take inputLen }

/-- The call `apr_sha1_final(digest, &ctx)`; `sha1` is the SHA-1 function of
the APR library, from messages to 20-byte digests. -/
def apr_sha1_final (sha1 : c_string → sha1_digest) (ctx : apr_sha1_ctx_t) : sha1_digest :=
  sha1 ctx.message

/-- The cast `(unsigned int)strlen(s)`. -/
def strlen_uint (s : c_string) : Nat := s.length % 2 ^ 32

/-- The NUL character that terminates a C string. -/
def NUL : Char := Char.ofNat 0

/-- The static string `hex` indexed: `hex[i]` (the terminator at index 16). -/
def hex (i : Nat) : Char := "0123456789abcdef".toList.getD i NUL

/-- The C string held in a character block: the characters before the first
NUL. -/
def c_string_of (block : List Char) : c_string :=
  block.takeWhile (fun c => c != NUL)

/-- Lines 459-463 of `elevenlabs_http.c`: the hashing context after the four
`apr_sha1_update` calls, just before `apr_sha1_final`. -/
def elevenlabs_cache_key_ctx (voice_id model_id output_format text : c_string) :
    apr_sha1_ctx_t :=
  let ctx := apr_sha1_init
  let ctx := apr_sha1_update ctx voice_id (strlen_uint voice_id)
  let ctx := apr_sha1_update ctx model_id (strlen_uint model_id)
  let ctx := apr_sha1_update ctx output_format (strlen_uint output_format)
  apr_sha1_update ctx text (strlen_uint text)

/-- Lines 467-469: the block `hexstr` after the rendering loop and the store
of the terminator; `hexstr` is the block as allocated. -/
def hexstr_fill (digest : sha1_digest) (hexstr : List Char) : List Char :=
  let hexstr := (List.range APR_SHA1_DIGESTSIZE).foldl
    (fun hexstr i =>
      (hexstr.set (i * 2) (hex (((digest (Fin.ofNat i)).val >>> 4) &&& 0xF))).set (i * 2 + 1)
        (hex ((digest (Fin.ofNat i)).val &&& 0xF)))
    hexstr
  hexstr.set (APR_SHA1_DIGESTSIZE * 2) NUL

/-- The function `elevenlabs_cache_compute_key`.  A pointer argument is `none`
when it is `NULL`; the result is `none` for `FALSE` and `some key` for `TRUE`
with `key` the string stored through `out_key_hex`.  `hexstr_mem` gives the
uninitialised content of the 41-character block that `apr_palloc` returns (the
source does not check this allocation; it is taken to succeed). -/
def elevenlabs_cache_compute_key (sha1 : c_string → sha1_digest) (hexstr_mem : Nat → Char)
    (pool : Option Unit) (voice_id model_id output_format text : Option c_string)
    (out_key_hex : Option Unit) : Option c_string :=
  match pool, voice_id, model_id, output_format, text, out_key_hex with
  | some _, some voice_id, some model_id, some output_format, some text, some _ =>
    let ctx := elevenlabs_cache_key_ctx voice_id model_id output_format text
    let digest := apr_sha1_final sha1 ctx
    let hexstr := (List.range (APR_SHA1_DIGESTSIZE * 2 + 1)).map hexstr_mem
    some (c_string_of (hexstr_fill digest hexstr))
  | _, _, _, _, _, _ => none

/-- The rendering the specification describes: for each digest byte in order,
two lowercase hexadecimal digits, high nibble first. -/
def hex_render (digest : sha1_digest) : c_string :=
  (List.finRange APR_SHA1_DIGESTSIZE).flatMap
    (fun i => ["0123456789abcdef".toList.getD ((digest i).val / 16) NUL,
               "0123456789abcdef".toList.getD ((digest i).val % 16) NUL])

/-- The value of a hexadecimal digit character (16 for any other character). -/
def unhex (c : Char) : Nat := "0123456789abcdef".toList.indexOf c

/-- The fingerprint returned when no argument is `NULL`. -/
def cache_fingerprint (sha1 : c_string → sha1_digest) (hexstr_mem : Nat → Char)
    (voice_id model_id output_format text : c_string) : Option c_string :=
  elevenlabs_cache_compute_key sha1 hexstr_mem (some ()) (some voice_id) (some model_id)
    (some output_format) (some text) (some ())

/-- A collision of the hash: two different messages with the same digest. -/
def sha1_collision (sha1 : c_string → sha1_digest) (a b : c_string) : Prop :=
  a ≠ b ∧ sha1 a = sha1 b

/-! ## C library functions on strings -/

/-- The test `strncasecmp(s1, s2, n) == 0`: the first `n` characters (fewer when
a string ends earlier) agree up to ASCII case. -/
def strncasecmp_eq (s1 s2 : c_string) (n : Nat) : Bool :=
  (s1.take n).map Char.toLower == (s2.take n).map Char.toLower

/-- The test `strcasecmp(s1, s2) == 0`. -/
def strcasecmp_eq (s1 s2 : c_string) : Bool :=
  s1.map Char.toLower == s2.map Char.toLower

/-- The test `strstr(haystack, needle) != NULL`: `needle` occurs somewhere in
`haystack`. -/
def strstr_found (haystack needle : c_string) : Bool :=
  haystack.tails.any (fun t => needle.isPrefixOf t)

/-- For `us = strrchr(s, c)`: `none` when `us` is `NULL`, otherwise the string
`us + 1`, the characters after the last occurrence of `c`. -/
def strrchr_tail (s : c_string) (c : Char) : Option c_string :=
  if s.contains c then some (s.reverse.takeWhile (fun x => x != c)).reverse else none

/-- The C predicate `isspace` in the "C" locale. -/
def isspace (c : Char) : Bool :=
  c.toNat == 32 || (9 ≤ c.toNat && c.toNat ≤ 13)

/-- The loop of `atoi` over the digits: the value of a digit string. -/
def atoi_digits (s : c_string) : Nat :=
  (s.takeWhile Char.isDigit).foldl (fun acc d => acc * 10 + (d.toNat - 48)) 0

/-- The C function `atoi`: leading white space, an optional sign, then decimal
digits.  (The result is mathematically exact; C leaves values outside `int`
undefined.) -/
def atoi (s : c_string) : Int :=
  match s.dropWhile isspace with
  | '-' :: rest => -(atoi_digits rest : Int)
  | '+' :: rest => (atoi_digits rest : Int)
  | rest => (atoi_digits rest : Int)

/-- Conversion of an `int` to `unsigned` (32 bits). -/
def to_unsigned (x : Int) : Nat := (x % 4294967296).toNat

/-! ## The container header written at commit (`elevenlabs_http_thread`) -/

/-- The bytes of a `uint32_t` in memory on a little-endian host. -/
def u32_bytes (x : Nat) : List uint8_t :=
  [Fin.ofNat (x % 256), Fin.ofNat (x / 256 % 256), Fin.ofNat (x / 65536 % 256),
   Fin.ofNat (x / 16777216 % 256)]

/-- The bytes of a `uint16_t` in memory on a little-endian host. -/
def u16_bytes (x : Nat) : List uint8_t :=
  [Fin.ofNat (x % 256), Fin.ofNat (x / 256 % 256)]

/-- The bytes of a string literal. -/
def str_bytes (s : String) : List uint8_t :=
  s.toList.map (fun c => Fin.ofNat c.toNat)

/-- The locals `is_pcm`, `is_ulaw`, `is_alaw` and `sr` of the commit code. -/
structure wav_format where
  is_pcm : Bool
  is_ulaw : Bool
  is_alaw : Bool
  sr : Nat

/-- Lines 220-233 of `elevenlabs_http.c`: format family and sample rate taken
from `config->output_format`, then the switch to PCM under
`fallback_ulaw_to_pcm`. -/
def wav_header_format (output_format : Option c_string) (fallback_ulaw_to_pcm : Bool) :
    wav_format :=
  let f0 : wav_format := { is_pcm := false, is_ulaw := false, is_alaw := false, sr := 8000 }
  let f1 : wav_format :=
    match output_format with
    | none => f0
    | some fmt =>
      let f :=
        if strncasecmp_eq fmt "pcm_".toList 4 then { f0 with is_pcm := true }
        else if strncasecmp_eq fmt "ulaw_".toList 5 then { f0 with is_ulaw := true }
        else if strncasecmp_eq fmt "alaw_".toList 5 then { f0 with is_alaw := true }
        else f0
      match strrchr_tail fmt '_' with
      | some (c :: rest) => { f with sr := to_unsigned (atoi (c :: rest)) }
      | _ => f
  if !f1.is_pcm && (f1.is_ulaw || f1.is_alaw) && fallback_ulaw_to_pcm then
    { f1 with is_pcm := true, is_ulaw := false, is_alaw := false }
  else f1

/-- The local `audio_format` (line 245). -/
def wav_audio_format (f : wav_format) : Nat :=
  if f.is_pcm then 1 else if f.is_ulaw then 7 else if f.is_alaw then 6 else 1

/-- The factor `(is_pcm ? 2 : 1)`: bytes per sample. -/
def wav_sample_bytes (f : wav_format) : Nat := if f.is_pcm then 2 else 1

/-- Lines 235-258: the 44-byte block `hdr` as written to the file, for the
payload byte count `cache_data_bytes`. -/
def wav_header (output_format : Option c_string) (fallback_ulaw_to_pcm : Bool)
    (cache_data_bytes : Nat) : List uint8_t :=
  let f := wav_header_format output_format fallback_ulaw_to_pcm
  let hdr : List uint8_t := List.replicate 44 0
  let hdr := memcpy hdr 0 (str_bytes "RIFF") 4
  let riff_size := (36 + cache_data_bytes % 4294967296) % 4294967296
  let hdr := memcpy hdr 4 (u32_bytes riff_size) 4
  let hdr := memcpy hdr 8 (str_bytes "WAVE") 4
  let hdr := memcpy hdr 12 (str_bytes "fmt ") 4
  let fmt_size := 16
  let hdr := memcpy hdr 16 (u32_bytes fmt_size) 4
  let audio_format := wav_audio_format f
  let hdr := memcpy hdr 20 (u16_bytes audio_format) 2
  let num_channels := 1
  let hdr := memcpy hdr 22 (u16_bytes num_channels) 2
  let sample_rate := f.sr
  let hdr := memcpy hdr 24 (u32_bytes sample_rate) 4
  let bits_per_sample := if f.is_pcm then 16 else 8
  let byte_rate := (sample_rate * num_channels * wav_sample_bytes f) % 4294967296
  let block_align := (num_channels * wav_sample_bytes f) % 65536
  let hdr := memcpy hdr 28 (u32_bytes byte_rate) 4
  let hdr := memcpy hdr 32 (u16_bytes block_align) 2
  let hdr := memcpy hdr 34 (u16_bytes bits_per_sample) 2
  let hdr := memcpy hdr 36 (str_bytes "data") 4
  let data_size := cache_data_bytes % 4294967296
  memcpy hdr 40 (u32_bytes data_size) 4

/-- A format name begins with `family`, letter case ignored. -/
def begins_with_ci (family : String) (fmt : c_string) : Prop :=
  ∃ rest : c_string, fmt.map Char.toLower = family.toList.map Char.toLower ++ rest

/-- The decimal digit character of `d`. -/
def digit_char (d : Nat) : Char := Char.ofNat (48 + d)

/-- The header the specification describes, for `n` payload bytes, format tag
`tag`, sample rate `r` and `b` bytes per sample: 'RIFF', `n + 36`, 'WAVE',
'fmt ', 16, the tag, channel count 1, `r`, byte rate `r * b`, block align `b`,
bits per sample `8 * b`, 'data', `n` (numbers little-endian, 32 or 16 bits). -/
def wav_header_layout (n tag r b : Nat) : List uint8_t :=
  str_bytes "RIFF" ++ u32_bytes (n + 36) ++ str_bytes "WAVE" ++ str_bytes "fmt " ++
  u32_bytes 16 ++ u16_bytes tag ++ u16_bytes 1 ++ u32_bytes r ++ u32_bytes (r * b) ++
  u16_bytes b ++ u16_bytes (8 * b) ++ str_bytes "data" ++ u32_bytes n

/-- The number a `uint32_t` field of four little-endian bytes holds. -/
def u32_value (bytes : List uint8_t) : Nat :=
  (bytes.getD 0 0).val + 256 * (bytes.getD 1 0).val + 65536 * (bytes.getD 2 0).val
    + 16777216 * (bytes.getD 3 0).val

/-- The number a `uint16_t` field of two little-endian bytes holds. -/
def u16_value (bytes : List uint8_t) : Nat :=
  (bytes.getD 0 0).val + 256 * (bytes.getD 1 0).val

/-! ## Files (APR file I/O)

The calls whose status the source ignores (`apr_file_write`, `apr_file_seek`,
`apr_file_close`, `apr_file_remove`, `apr_file_rename`,
`apr_dir_make_recursive`) are modelled as succeeding; the outcome of
`apr_file_open`, which the source tests, is supplied by the caller. -/

/-- The files on disk: the content stored under each path name. -/
abbrev file_system := c_string → Option (List uint8_t)

/-- An open file `apr_file_t`: its name and the current offset. -/
structure apr_file_t where
  fname : c_string
  filePtr : Nat

/-- Replace what is stored under one path name. -/
def file_system.set (fs : file_system) (path : c_string) (content : Option (List uint8_t)) :
    file_system :=
  fun p => if p = path then content else fs p

/-- The size reported by a successful `apr_stat(&finfo, path, APR_FINFO_SIZE)`;
`none` when the call fails because there is no such file. -/
def apr_stat_size (fs : file_system) (path : c_string) : Option Nat :=
  (fs path).map List.length

/-- The call `apr_file_open` with `APR_FOPEN_CREATE | APR_FOPEN_WRITE |
APR_FOPEN_TRUNCATE`; `ok` says whether it returns `APR_SUCCESS`. -/
def apr_file_open_write (fs : file_system) (path : c_string) (ok : Bool) :
    file_system × Option apr_file_t :=
  if ok then (fs.set path (some []), some { fname := path, filePtr := 0 }) else (fs, none)

/-- The call `apr_file_open` with `APR_FOPEN_READ`; `ok` says whether the
system lets the file be opened when it exists. -/
def apr_file_open_read (fs : file_system) (path : c_string) (ok : Bool) : Option apr_file_t :=
  if ok && (fs path).isSome then some { fname := path, filePtr := 0 } else none

/-- The call `apr_file_seek(fp, APR_SET, &pos)`. -/
def apr_file_seek (fp : apr_file_t) (pos : Nat) : apr_file_t :=
  { fp with filePtr := pos }

/-- The content of a file after `data` is written at offset `pos`; a gap
between the old end of the file and `pos` reads as zero bytes. -/
def file_write_at (content : List uint8_t) (pos : Nat) (data : List uint8_t) : List uint8_t :=
  (content ++ List.replicate (pos - content.length) 0).take pos ++ data
    ++ content.drop (pos + data.length)

/-- The call `apr_file_write(fp, data, &n)`: the files, the handle and the
byte count stored back into `n`. -/
def apr_file_write (fs : file_system) (fp : apr_file_t) (data : List uint8_t) :
    file_system × apr_file_t × Nat :=
  if data.isEmpty then (fs, fp, 0)
  else
    match fs fp.fname with
    | none => (fs, { fp with filePtr := fp.filePtr + data.length }, data.length)
    | some content =>
      (fs.set fp.fname (some (file_write_at content fp.filePtr data)),
       { fp with filePtr := fp.filePtr + data.length }, data.length)

/-- The call `apr_file_remove(path)`. -/
def apr_file_remove (fs : file_system) (path : c_string) : file_system :=
  fs.set path none

/-- The call `apr_file_rename(from, to)`. -/
def apr_file_rename (fs : file_system) (from_path to_path : c_string) : file_system :=
  match fs from_path with
  | none => fs
  | some content => (fs.set to_path (some content)).set from_path none

/-! ## The HTTP client (`elevenlabs_http.c`) -/

/-- The struct `elevenlabs_config_t`; a `char*` field is `none` when `NULL`. -/
structure elevenlabs_config_t where
  api_key : Option c_string
  voice_id : Option c_string
  model_id : Option c_string
  output_format : Option c_string
  base_url : Option c_string
  chunk_ms : Nat
  connect_timeout_ms : Nat
  read_timeout_ms : Nat
  fallback_ulaw_to_pcm : Bool
  optimize_streaming_latency : Int
  cache_enabled : Bool
  cache_dir : Option c_string

/-- The data fields of the struct `elevenlabs_http_client_t` (the curl handle,
the header list, the mutex and the pool are not data; `audio_buffer` and
`config` point to objects held elsewhere).  `thread` says whether a thread
handle is stored. -/
structure elevenlabs_http_client_t where
  url : Option c_string
  post_data : Option c_string
  stopped : Bool
  request_voice_id : Option c_string
  thread : Bool
  first_chunk_logged : Bool
  cache_playback_mode : Bool
  cache_key : Option c_string
  cache_path_tmp : Option c_string
  cache_path_final : Option c_string
  cache_fp : Option apr_file_t
  cache_data_bytes : Nat

/-- Everything one client works on: the client itself, the audio buffer it
shares with the channel, the files, and the statics of the decoder. -/
structure session where
  client : elevenlabs_http_client_t
  audio_buffer : audio_buffer_t
  files : file_system
  ulaw : ulaw_state

/-- The test at lines 41-43 of `write_callback`: the chunk is converted from
mu-law to PCM. -/
def sink_converts (config : elevenlabs_config_t) : Bool :=
  match config.output_format with
  | some fmt => strcasecmp_eq fmt "ulaw_8000".toList && config.fallback_ulaw_to_pcm
  | none => false

/-- Lines 38-49 of `write_callback`: the bytes `out_ptr[0 .. out_len)` handed
on to the buffer and the cache, and the decoder statics afterwards. -/
def sink_output (config : elevenlabs_config_t) (ulaw : ulaw_state) (contents : List uint8_t) :
    List uint8_t × ulaw_state :=
  if sink_converts config then
    let r := ulaw_to_s16 ulaw contents (List.replicate contents.length 0)
    (pcm_bytes r.2, r.1)
  else (contents, ulaw)

/-- The function `write_callback` (the sink of the transfer): `contents` is the
received chunk (`size * nmemb` bytes), `config` is what `client->config` points
to, `mem` the outcome of the allocation inside `audio_buffer_write`.  Returns
the state afterwards and the `size_t` result. -/
def write_callback (config : elevenlabs_config_t) (s : session) (contents : List uint8_t)
    (mem : Option (Nat → uint8_t)) : session × Nat :=
  let total_size := contents.length
  if s.client.stopped then (s, 0)
  else
    let client := { s.client with first_chunk_logged := true }
    let out := sink_output config s.ulaw contents
    let w := audio_buffer_write s.audio_buffer out.1 mem
    if !w.2 then
      ({ s with client := client, ulaw := out.2, audio_buffer := w.1 }, 0)
    else
      match client.cache_fp with
      | some fp =>
        let r := apr_file_write s.files fp out.1
        ({ client := { client with
                         cache_fp := some r.2.1,
                         cache_data_bytes :=
                           (client.cache_data_bytes + r.2.2) % APR_SIZE_MODULUS },
           audio_buffer := w.1, files := r.1, ulaw := out.2 }, total_size)
      | none =>
        ({ s with client := client, ulaw := out.2, audio_buffer := w.1 }, total_size)

/-- The result code `CURLE_OK`. -/
def CURLE_OK : Nat := 0

/-- The result code `CURLE_WRITE_ERROR`, returned by `curl_easy_perform` when
the write callback returns a count different from the chunk size. -/
def CURLE_WRITE_ERROR : Nat := 23

/-- The result code `CURLE_OPERATION_TIMEDOUT`. -/
def CURLE_OPERATION_TIMEDOUT : Nat := 28

/-- The part of `curl_easy_perform` that hands the received chunks to
`write_callback`, in order, until one call returns a count different from the
chunk size; `mems i` is the allocation outcome for the call on chunk `i`.  The
flag says whether the transfer was aborted that way. -/
def curl_deliver (config : elevenlabs_config_t) (mems : Nat → Option (Nat → uint8_t)) :
    session → List (List uint8_t) → Nat → session × Bool
  | s, [], _ => (s, false)
  | s, chunk :: rest, i =>
    let r := write_callback config s chunk (mems i)
    if r.2 ≠ chunk.length then (r.1, true)
    else curl_deliver config mems r.1 rest (i + 1)

/-- The call `curl_easy_perform`: `chunks` are the body chunks the server
sends and `net_res` the result of the transfer when the callback does not
abort it. -/
def curl_easy_perform (config : elevenlabs_config_t) (mems : Nat → Option (Nat → uint8_t))
    (s : session) (chunks : List (List uint8_t)) (net_res : Nat) : session × Nat :=
  let r := curl_deliver config mems s chunks 0
  (r.1, if r.2 then CURLE_WRITE_ERROR else net_res)

/-- Lines 210-279 of `elevenlabs_http_thread`: finalize or discard the cache
file. -/
def cache_finalize (config : elevenlabs_config_t) (s : session) (res http_code : Nat) :
    session :=
  match s.client.cache_fp with
  | none => s
  | some fp =>
    let ok := res == CURLE_OK && http_code == 200 && decide (s.client.cache_data_bytes > 0)
    if ok then
      let files :=
        match s.client.cache_path_final with
        | some final =>
          if strstr_found final ".wav".toList then
            (apr_file_write s.files (apr_file_seek fp 0)
              (wav_header config.output_format config.fallback_ulaw_to_pcm
                s.client.cache_data_bytes)).1
          else s.files
        | none => s.files
      let files :=
        match s.client.cache_path_tmp, s.client.cache_path_final with
        | some tmp, some final => apr_file_rename (apr_file_remove files final) tmp final
        | _, _ => files
      { s with client := { s.client with cache_fp := none }, files := files }
    else
      let files :=
        match s.client.cache_path_tmp with
        | some tmp => apr_file_remove s.files tmp
        | none => s.files
      { s with client := { s.client with cache_fp := none }, files := files }

/-- The function `elevenlabs_http_thread`, run from start to end: the
transfer, the cache finalization, and the final `stopped = TRUE`.
`http_code` is what `curl_easy_getinfo` reports. -/
def elevenlabs_http_thread (config : elevenlabs_config_t)
    (mems : Nat → Option (Nat → uint8_t)) (s : session) (chunks : List (List uint8_t))
    (net_res http_code : Nat) : session :=
  let r := curl_easy_perform config mems s chunks net_res
  let s := cache_finalize config r.1 r.2 http_code
  { s with client := { s.client with stopped := true } }

/-- The conversion `%s` of `apr_psprintf`; a `NULL` argument prints as
`(null)`. -/
def fmt_s (s : Option c_string) : c_string := s.getD "(null)".toList

/-- The conversion `%d` of `apr_psprintf`. -/
def fmt_d (i : Int) : c_string := (toString i).toList

/-- Lines 318-327 of `elevenlabs_http_client_start_synthesis`: the extension
`ext` of the cache file. -/
def cache_ext (output_format : Option c_string) : c_string :=
  match output_format with
  | some fmt =>
    if strncasecmp_eq fmt "pcm_".toList 4 then ".wav".toList
    else if strncasecmp_eq fmt "mp3".toList 3 then ".mp3".toList
    else if strncasecmp_eq fmt "ulaw_".toList 5 || strncasecmp_eq fmt "alaw_".toList 5 then
      ".wav".toList
    else ".bin".toList
  | none => ".bin".toList

/-- Line 329: `cache_path_final`. -/
def cache_path_final_of (config : elevenlabs_config_t) (key_hex : c_string) : c_string :=
  fmt_s config.cache_dir ++ "/".toList ++ key_hex ++ cache_ext config.output_format

/-- Line 330: `cache_path_tmp`. -/
def cache_path_tmp_of (config : elevenlabs_config_t) (key_hex : c_string) : c_string :=
  fmt_s config.cache_dir ++ "/".toList ++ key_hex ++ cache_ext config.output_format
    ++ ".part".toList

/-- Lines 345-350: the loop that reads the rest of the cache file in chunks of
4096 bytes and writes each chunk to the audio buffer, ignoring the result of
the write.  `rest` is the part of the file not read yet; the first argument
bounds the number of iterations (each one consumes at least one byte). -/
def cache_playback_loop (mems : Nat → Option (Nat → uint8_t)) :
    Nat → audio_buffer_t → List uint8_t → Nat → audio_buffer_t
  | 0, b, _, _ => b
  | fuel + 1, b, rest, i =>
    if rest.isEmpty then b
    else
      cache_playback_loop mems fuel (audio_buffer_write b (rest.take 4096) (mems i)).1
        (rest.drop 4096) (i + 1)

/-- Outcomes of the system calls whose status `start_synthesis` tests. -/
structure start_env where
  open_read_ok : Bool
  open_write_ok : Bool
  thread_ok : Bool
  mems : Nat → Option (Nat → uint8_t)

/-- What `elevenlabs_http_client_start_synthesis` did: the state afterwards,
the `apt_bool_t` result, and whether the background thread was created. -/
structure start_result where
  session : session
  result : Bool
  launched : Bool

/-- Lines 368-380: the request URL. -/
def request_url (config : elevenlabs_config_t) (voice_id : Option c_string) : c_string :=
  fmt_s config.base_url ++ "/".toList ++ fmt_s voice_id ++ "/stream?output_format=".toList
    ++ fmt_s config.output_format ++ "&optimize_streaming_latency=".toList
    ++ fmt_d config.optimize_streaming_latency

/-- Lines 377-380: the POST body. -/
def request_post_data (config : elevenlabs_config_t) (text : c_string) : c_string :=
  "\x7b\"text\":\"".toList ++ text ++ "\",\"model_id\":\"".toList ++ fmt_s config.model_id
    ++ "\"\x7d".toList

/-- Lines 298-311: the fields reset at the start of a request. -/
def start_reset (client : elevenlabs_http_client_t) : elevenlabs_http_client_t :=
  { client with stopped := false, cache_playback_mode := false, cache_fp := none,
                cache_data_bytes := 0, cache_path_tmp := none, cache_path_final := none,
                cache_key := none }

/-- Line 313: the voice of this request, the per-request voice when there is
one and the configured voice otherwise. -/
def start_voice_id (config : elevenlabs_config_t) (client : elevenlabs_http_client_t) :
    Option c_string :=
  match client.request_voice_id with
  | some v => some v
  | none => config.voice_id

/-- Lines 314-317: the cache key, computed when caching is enabled and a cache
directory is configured. -/
def start_cache_key (sha1 : c_string → sha1_digest) (hexstr_mem : Nat → Char)
    (config : elevenlabs_config_t) (client : elevenlabs_http_client_t) (text : c_string) :
    Option c_string :=
  if config.cache_enabled && config.cache_dir.isSome then
    elevenlabs_cache_compute_key sha1 hexstr_mem (some ()) (start_voice_id config client)
      config.model_id config.output_format (some text) (some ())
  else none

/-- Lines 317-330: key and paths stored in the client. -/
def start_cache_paths (config : elevenlabs_config_t) (client : elevenlabs_http_client_t)
    (key : Option c_string) : elevenlabs_http_client_t :=
  match key with
  | some key_hex =>
    { client with cache_key := some key_hex,
                  cache_path_final := some (cache_path_final_of config key_hex),
                  cache_path_tmp := some (cache_path_tmp_of config key_hex) }
  | none => client

/-- Lines 333-338: the cache file found non-empty by `apr_stat` and opened for
reading, if any. -/
def start_playback (env : start_env) (files : file_system)
    (client : elevenlabs_http_client_t) : Option c_string :=
  match client.cache_path_final with
  | some final =>
    match apr_stat_size files final with
    | some size =>
      if size > 0 then (apr_file_open_read files final env.open_read_ok).map (fun _ => final)
      else none
    | none => none
  | none => none

/-- Lines 339-350: the bytes of the cache file that playback hands to the
buffer: all of them, or those after the first 44 when the path contains
`.wav`. -/
def playback_data (files : file_system) (final : c_string) : List uint8_t :=
  ((files final).getD []).drop (if strstr_found final ".wav".toList then 44 else 0)

/-- Lines 419-433: the temporary cache file opened for write-through, with the
offset moved past the header region when the final path contains `.wav`. -/
def start_open_cache (env : start_env) (config : elevenlabs_config_t) (files : file_system)
    (client : elevenlabs_http_client_t) : file_system × Option apr_file_t :=
  match client.cache_path_tmp with
  | some tmp =>
    if config.cache_enabled && !client.stopped then
      match apr_file_open_write files tmp env.open_write_ok with
      | (files1, some fp) =>
        match client.cache_path_final with
        | some final =>
          if strstr_found final ".wav".toList then (files1, some (apr_file_seek fp 44))
          else (files1, some fp)
        | none => (files1, some fp)
      | (files1, none) => (files1, none)
    else (files, none)
  | none => (files, none)

/-- The function `elevenlabs_http_client_start_synthesis` with `client` and
`channel` not `NULL`; `config` is the engine configuration of the channel.
The hash function and `hexstr_mem` are passed on to
`elevenlabs_cache_compute_key`. -/
def elevenlabs_http_client_start_synthesis (sha1 : c_string → sha1_digest)
    (hexstr_mem : Nat → Char) (env : start_env) (config : elevenlabs_config_t) (s : session)
    (text : Option c_string) : start_result :=
  match text with
  | none => { session := s, result := false, launched := false }
  | some text =>
    let client := start_reset s.client
    let client := start_cache_paths config client
      (start_cache_key sha1 hexstr_mem config client text)
    match start_playback env s.files client with
    | some final =>
      let data := playback_data s.files final
      let buffer := cache_playback_loop env.mems data.length s.audio_buffer data 0
      { session := { s with client := { client with stopped := true }, audio_buffer := buffer },
        result := true, launched := false }
    | none =>
      let client :=
        { client with url := some (request_url config (start_voice_id config client)),
                      post_data := some (request_post_data config text) }
      let opened := start_open_cache env config s.files client
      let client := { client with cache_fp := opened.2, first_chunk_logged := false }
      if env.thread_ok then
        { session := { s with client := { client with thread := true }, files := opened.1 },
          result := true, launched := true }
      else
        { session := { s with client := client, files := opened.1 },
          result := false, launched := false }

/-- The sequential effect of `elevenlabs_http_client_stop` when the join at
line 603 returns (no worker is running, or the worker has already left its
final critical section): `stopped` is set and the thread handle is cleared.
The interplay of this function with a running worker is the subject of
`stop_step` below. -/
def elevenlabs_http_client_stop (client : elevenlabs_http_client_t) :
    elevenlabs_http_client_t :=
  { client with stopped := true, thread := false }

/-! ## The channel (`elevenlabs_synth_channel.c`) -/

/-- The enumeration `mrcp_synth_completion_cause_e` of the MRCP library
(Completion-Cause codes 000 to 007). -/
inductive mrcp_synth_completion_cause_e where
  | NORMAL
  | BARGE_IN
  | PARSE_FAILURE
  | URI_FAILURE
  | ERROR
  | LANGUAGE_UNSUPPORTED
  | LEXICON_LOAD_FAILURE
  | CANCELLED
  deriving DecidableEq, Repr

/-- The request states a message can carry. -/
inductive mrcp_request_state_e where
  | COMPLETE
  | INPROGRESS
  | PENDING
  deriving DecidableEq, Repr

/-- A message handed to `mrcp_engine_channel_message_send`: a response to the
request `request` (with its request state, and whether its status code was set
to `MRCP_STATUS_CODE_METHOD_FAILED`), or a SPEAK-COMPLETE event for `request`
with a completion cause. -/
inductive mrcp_message_t where
  | response (request : Nat) (request_state : mrcp_request_state_e) (method_failed : Bool)
  | speak_complete (request : Nat) (cause : mrcp_synth_completion_cause_e)
  deriving DecidableEq, Repr

/-- The data fields of the struct `elevenlabs_synth_channel_t`; a request is
named by a number, `none` is `NULL`. -/
structure elevenlabs_synth_channel_t where
  speak_request : Option Nat
  stop_response : Option Nat
  frame_size : Nat
  synthesizing : Bool
  progress_counter : Int

/-- A channel together with what it points to and the messages it has sent so
far, oldest first. -/
structure channel_state where
  channel : elevenlabs_synth_channel_t
  session : session
  sent : List mrcp_message_t

/-- The frame type flag of the media framework (`0x1`). -/
def MEDIA_FRAME_TYPE_AUDIO : Nat := 1

/-- The frame `mpf_frame_t` handed to `stream_read`: its type flags and the
block and size of its `codec_frame`. -/
structure mpf_frame_t where
  type : Nat
  buffer : List uint8_t
  size : Nat

/-- The function `elevenlabs_send_speak_complete` (the event is created
successfully). -/
def elevenlabs_send_speak_complete (cs : channel_state) (request : Nat)
    (cause : mrcp_synth_completion_cause_e) : channel_state :=
  { cs with sent := cs.sent ++ [mrcp_message_t.speak_complete request cause] }

/-- What one call of `elevenlabs_synth_stream_read` did: the state and the
frame afterwards, and the value of the local `bytes_read` (0 when the call did
not read). -/
structure stream_read_result where
  state : channel_state
  frame : mpf_frame_t
  bytes_read : Nat

/-- The function `elevenlabs_synth_stream_read`. -/
def elevenlabs_synth_stream_read (cs : channel_state) (frame : mpf_frame_t) :
    stream_read_result :=
  match cs.channel.speak_request with
  | some speak_request =>
    if cs.channel.synthesizing then
      let r := audio_buffer_read_frame cs.session.audio_buffer frame.buffer frame.size
      let cs := { cs with session := { cs.session with audio_buffer := r.buffer } }
      let frame := { frame with buffer := r.frame }
      if r.bytes_read > 0 then
        { state := { cs with channel := { cs.channel with progress_counter := 0 } },
          frame := { frame with type := frame.type ||| MEDIA_FRAME_TYPE_AUDIO },
          bytes_read := r.bytes_read }
      else if !cs.session.client.stopped then
        let frame :=
          { frame with buffer := List.replicate frame.size 0 ++ frame.buffer.drop frame.size,
                       type := frame.type ||| MEDIA_FRAME_TYPE_AUDIO }
        let counter := cs.channel.progress_counter + 1
        if counter ≥ 25 then
          { state :=
              { cs with channel := { cs.channel with progress_counter := 0 },
                        sent := cs.sent ++
                          [mrcp_message_t.response speak_request
                            mrcp_request_state_e.INPROGRESS false] },
            frame := frame, bytes_read := r.bytes_read }
        else
          { state := { cs with channel := { cs.channel with progress_counter := counter } },
            frame := frame, bytes_read := r.bytes_read }
      else
        let cs := elevenlabs_send_speak_complete cs speak_request
          mrcp_synth_completion_cause_e.NORMAL
        { state := { cs with channel := { cs.channel with speak_request := none,
                                                          synthesizing := false } },
          frame := frame, bytes_read := r.bytes_read }
    else { state := cs, frame := frame, bytes_read := 0 }
  | none => { state := cs, frame := frame, bytes_read := 0 }

/-- The voice `elevenlabs_channel_speak` stores in the client (lines 261-280):
the Voice-Name of the request when it has one, the configured voice
otherwise. -/
def speak_voice_id (config : elevenlabs_config_t) (voice_name : Option c_string) :
    Option c_string :=
  match voice_name with
  | some v => some v
  | none => config.voice_id

/-- The function `elevenlabs_channel_speak` from the point where the voice and
the text have been taken from the request: `voice_name` is the Voice-Name
header when present, `text` the extracted text (`none` for `NULL`).  The
message returned with `FALSE` is sent by the dispatcher. -/
def elevenlabs_channel_speak (sha1 : c_string → sha1_digest) (hexstr_mem : Nat → Char)
    (env : start_env) (config : elevenlabs_config_t) (cs : channel_state) (request : Nat)
    (voice_name : Option c_string) (text : Option c_string) : channel_state × start_result :=
  let voice_id := speak_voice_id config voice_name
  let cs :=
    { cs with session := { cs.session with
                client := { cs.session.client with request_voice_id := voice_id } } }
  let no_start : start_result := { session := cs.session, result := false, launched := false }
  let no_text :=
    match text with
    | none => true
    | some t => t.length == 0
  if no_text then
    ({ cs with sent := cs.sent ++
        [mrcp_message_t.response request mrcp_request_state_e.COMPLETE true] }, no_start)
  else
    let cs :=
      { cs with session := { cs.session with
                  audio_buffer := audio_buffer_clear cs.session.audio_buffer },
                channel := { cs.channel with speak_request := some request,
                                             stop_response := none,
                                             progress_counter := 0 } }
    let r := elevenlabs_http_client_start_synthesis sha1 hexstr_mem env config cs.session text
    let cs := { cs with session := r.session }
    if !r.result then
      ({ cs with sent := cs.sent ++
          [mrcp_message_t.response request mrcp_request_state_e.COMPLETE true] }, r)
    else
      ({ cs with channel := { cs.channel with synthesizing := true },
                 sent := cs.sent ++
                   [mrcp_message_t.response request mrcp_request_state_e.INPROGRESS false] },
       r)

/-- Whether a call of `elevenlabs_http_client_stop` finds no running worker.
The function takes `client->mutex` at line 585 and keeps it until line 607; in
between, when a thread handle is stored, it waits at line 603 for the worker
to exit.  The worker takes the same mutex once, at line 282, to set `stopped`
at line 283 right before it exits.  With no handle stored the call does not
wait.  With a handle stored and `stopped` set, the worker has passed line 283
and the wait ends.  With a handle stored and `stopped` clear, the worker is
still running: it needs the mutex to exit while the caller holds the mutex
until it has exited. -/
def elevenlabs_http_client_stop_returns (client : elevenlabs_http_client_t) : Bool :=
  !client.thread || client.stopped

/-- The function `elevenlabs_channel_stop` for the STOP request `request`, on
the states in which no worker is running.  The buffer is cleared first.  With
`synthesizing` set the handler calls `elevenlabs_http_client_stop`; when that
call meets a running worker (see `elevenlabs_http_client_stop_returns`) the
result is `none`: unless the worker takes its final lock before the caller
takes the lock of line 585, the call waits for a worker that waits for the
caller (`stop_step` below) and the handler does not reach its sends; this
function describes no state after it.  Otherwise the handler sends the STOP
response, then the completion with cause ERROR for an active SPEAK request,
and returns. -/
def elevenlabs_channel_stop (cs : channel_state) (request : Nat) : Option channel_state :=
  let cs :=
    { cs with session := { cs.session with
                audio_buffer := audio_buffer_clear cs.session.audio_buffer } }
  let stopping :=
    if cs.channel.synthesizing then
      if elevenlabs_http_client_stop_returns cs.session.client then
        some { cs with session := { cs.session with
                         client := elevenlabs_http_client_stop cs.session.client },
                       channel := { cs.channel with synthesizing := false } }
      else none
    else some cs
  match stopping with
  | none => none
  | some cs =>
    let cs :=
      { cs with sent := cs.sent ++
          [mrcp_message_t.response request mrcp_request_state_e.COMPLETE false] }
    let cs :=
      match cs.channel.speak_request with
      | some speak_request =>
        let cs := elevenlabs_send_speak_complete cs speak_request
          mrcp_synth_completion_cause_e.ERROR
        { cs with channel := { cs.channel with speak_request := none } }
      | none => cs
    some { cs with channel := { cs.channel with stop_response := none } }

/-- Repeated frame pulls: `elevenlabs_synth_stream_read` is called once for
each frame of `frames`, in order; the results are returned oldest first. -/
def stream_read_all : channel_state → List mpf_frame_t → List stream_read_result
  | _, [] => []
  | cs, frame :: rest =>
    let r := elevenlabs_synth_stream_read cs frame
    r :: stream_read_all r.state rest

/-- The state after a sequence of frame pulls. -/
def stream_read_state : channel_state → List mpf_frame_t → channel_state
  | cs, [] => cs
  | cs, frame :: rest => stream_read_state (elevenlabs_synth_stream_read cs frame).state rest

/-! ## `elevenlabs_http_client_stop` against a running worker

The caller of `elevenlabs_http_client_stop` and the worker thread
(`elevenlabs_http_thread`) as two processes that share `client->mutex`. -/

/-- Where the caller of `elevenlabs_http_client_stop` is: before the lock of
line 585, inside the critical section at the `apr_thread_join` of line 603,
past the join and before the unlock of line 607, or returned. -/
inductive stop_pc where
  | before_lock
  | at_join
  | after_join
  | returned
  deriving DecidableEq, Repr

/-- Where the worker is: inside `curl_easy_perform` (line 187), before the lock
of line 282, inside its critical section (line 283), or exited. -/
inductive worker_pc where
  | performing
  | before_lock
  | locked
  | exited
  deriving DecidableEq, Repr

/-- The two processes. -/
inductive stop_thread where
  | caller
  | worker
  deriving DecidableEq, Repr

/-- The joint state: the two program points, the owner of `client->mutex`,
the flag `client->stopped`, the chunks the transfer has yet to receive, and
the number of chunks the sink has appended to the audio buffer since the
cancel path cleared it. -/
structure stop_state where
  caller : stop_pc
  worker : worker_pc
  mutex : Option stop_thread
  stopped : Bool
  chunks_left : Nat
  appended : Nat
  deriving DecidableEq, Repr

/-- One step of one process; `none` when that process cannot move (it is
blocked on the mutex or on the join, or it has finished). -/
def stop_step (t : stop_thread) (s : stop_state) : Option stop_state :=
  match t with
  | .caller =>
    match s.caller with
    | .before_lock =>
      if s.mutex.isNone then
        some { s with caller := .at_join, mutex := some .caller, stopped := true }
      else none
    | .at_join => if s.worker = .exited then some { s with caller := .after_join } else none
    | .after_join => some { s with caller := .returned, mutex := none }
    | .returned => none
  | .worker =>
    match s.worker with
    | .performing =>
      if s.chunks_left = 0 then some { s with worker := .before_lock }
      else if s.stopped then some { s with worker := .before_lock }
      else some { s with chunks_left := s.chunks_left - 1, appended := s.appended + 1 }
    | .before_lock =>
      if s.mutex.isNone then some { s with worker := .locked, mutex := some .worker } else none
    | .locked => some { s with worker := .exited, mutex := none, stopped := true }
    | .exited => none

/-- Run a schedule: at each entry the named process moves if it can and the
state is left as it is otherwise. -/
def stop_run (s : stop_state) (schedule : List stop_thread) : stop_state :=
  schedule.foldl (fun s t => (stop_step t s).getD s) s

/-- The state when `elevenlabs_http_client_stop` is called while the worker is
inside `curl_easy_perform` with `chunks` chunks still to come; the cancel path
has just cleared the buffer. -/
def stop_called_in_flight (chunks : Nat) : stop_state :=
  { caller := .before_lock, worker := .performing, mutex := none, stopped := false,
    chunks_left := chunks, appended := 0 }

/-! ## Concrete states used to evaluate the model -/

/-- A configuration without caching: `pcm_16000`, no conversion. -/
def example_config : elevenlabs_config_t :=
  { api_key := some "key".toList, voice_id := some "Rachel".toList,
    model_id := some "eleven_v2".toList, output_format := some "pcm_16000".toList,
    base_url := some "https://api.elevenlabs.io/v1/text-to-speech".toList,
    chunk_ms := 20, connect_timeout_ms := 5000, read_timeout_ms := 15000,
    fallback_ulaw_to_pcm := false, optimize_streaming_latency := 0,
    cache_enabled := false, cache_dir := none }

/-- A client as `elevenlabs_http_client_create` leaves it. -/
def example_client : elevenlabs_http_client_t :=
  { url := none, post_data := none, stopped := false, request_voice_id := none,
    thread := false, first_chunk_logged := false, cache_playback_mode := false,
    cache_key := none, cache_path_tmp := none, cache_path_final := none, cache_fp := none,
    cache_data_bytes := 0 }

/-- A session with an empty buffer of 512 bytes and no files. -/
def example_session : session :=
  { client := example_client, audio_buffer := ⟨List.replicate 512 0, 0, 512⟩,
    files := fun _ => none, ulaw := ulaw_static }

/-- A channel on which the SPEAK request 1 is active and nothing was sent. -/
def example_speaking (s : session) : channel_state :=
  { channel := { speak_request := some 1, stop_response := none, frame_size := 50,
                 synthesizing := true, progress_counter := 0 },
    session := s, sent := [] }

/-- An empty frame of `size` bytes as the media framework hands it in. -/
def example_frame (size : Nat) : mpf_frame_t :=
  { type := 0, buffer := List.replicate size 7, size := size }

/-- The bytes the sink hands on for a sequence of chunks, in order: the output
of lines 38-49 for each chunk, the decoder statics passed along. -/
def deliver_outputs (config : elevenlabs_config_t) :
    ulaw_state → List (List uint8_t) → List uint8_t
  | _, [] => []
  | u, chunk :: rest =>
    (sink_output config u chunk).1 ++ deliver_outputs config (sink_output config u chunk).2 rest

/-- Write-through is under way: the temporary file `tmp` is open, its data
region starts at offset `off`, and `payload` is what has been appended so
far. -/
def cache_writing (s : session) (tmp : c_string) (off : Nat) (payload : List uint8_t) : Prop :=
  s.client.cache_fp = some { fname := tmp, filePtr := off + payload.length } ∧
  s.client.cache_data_bytes = payload.length ∧
  s.files tmp = some (if payload = [] then [] else List.replicate off 0 ++ payload)

/-- A cache file is open under the name `tmp`. -/
def cache_open (s : session) (tmp : c_string) : Prop :=
  ∃ fp : apr_file_t, s.client.cache_fp = some fp ∧ fp.fname = tmp

/-- The session `elevenlabs_channel_speak` hands to
`elevenlabs_http_client_start_synthesis`: the voice of the request stored in
the client, the audio buffer cleared. -/
def speak_session (config : elevenlabs_config_t) (cs : channel_state)
    (voice_name : Option c_string) : session :=
  { cs.session with
      client := { cs.session.client with request_voice_id := speak_voice_id config voice_name },
      audio_buffer := audio_buffer_clear cs.session.audio_buffer }

/-- A stand-in for the digest function, used to evaluate the model. -/
def example_sha1 : c_string → sha1_digest := fun msg _ => Fin.ofNat msg.length

/-- A configuration with caching: `pcm_16000`, cache directory `/var/cache/tts`. -/
def example_cache_config : elevenlabs_config_t :=
  { example_config with cache_enabled := true, cache_dir := some "/var/cache/tts".toList }

/-- The cache key of the text `hello` under `example_cache_config` with the
configured voice. -/
def example_key : c_string :=
  (start_cache_key example_sha1 (fun _ => NUL) example_cache_config
    { example_client with request_voice_id := example_cache_config.voice_id }
    "hello".toList).getD []

/-- A cache file as a commit leaves it for a `.wav` entry: 44 header bytes and
100 payload bytes. -/
def example_cache_file : List uint8_t := List.replicate 44 0 ++ List.replicate 100 5

/-- A channel without active request whose disk holds `example_cache_file`
under the final path of `example_key`. -/
def example_cached_channel : channel_state :=
  { channel := { speak_request := none, stop_response := none, frame_size := 50,
                 synthesizing := false, progress_counter := 0 },
    session := { example_session with
                   files := file_system.set (fun _ => none)
                     (cache_path_final_of example_cache_config example_key)
                     (some example_cache_file) },
    sent := [] }

/-- An environment in which every system call succeeds and every allocation
returns a zeroed block. -/
def example_env : start_env :=
  { open_read_ok := true, open_write_ok := true, thread_ok := true,
    mems := fun _ => some (fun _ => 0) }

/-- The configuration `elevenlabs_config_set_defaults` leaves for the format
and the fallback flag (`ulaw_8000`, `TRUE`), with the other fields of
`example_config`. -/
def example_ulaw_config : elevenlabs_config_t :=
  { example_config with output_format := some "ulaw_8000".toList,
                        fallback_ulaw_to_pcm := true }

/-- A configuration whose cache directory name contains `.wav` and whose
format is of the mp3 family. -/
def example_wav_dir_config : elevenlabs_config_t :=
  { example_config with output_format := some "mp3_44100_128".toList, cache_enabled := true,
                        cache_dir := some "/srv/audio.wav.cache".toList }

/-- A configuration with caching, the format `alaw_8000` and the fallback flag
set (the value `elevenlabs_config_set_defaults` gives it). -/
def example_alaw_config : elevenlabs_config_t :=
  { example_config with output_format := some "alaw_8000".toList, fallback_ulaw_to_pcm := true,
                        cache_enabled := true, cache_dir := some "/var/cache/tts".toList }

/-! ## Reading a JSON object of string members (RFC 8259)

What the specification means by "a JSON object with string members whose
values decode to ...": the reader below accepts an object whose members all
have string values and returns the decoded names and values in order. -/

/-- JSON white space: space, tab, line feed, carriage return. -/
def json_is_ws (c : Char) : Bool :=
  c.toNat == 32 || c.toNat == 9 || c.toNat == 10 || c.toNat == 13

/-- Skip JSON white space. -/
def json_ws (input : c_string) : c_string := input.dropWhile json_is_ws

/-- The character a two-character escape stands for; `none` when the
character may not follow a backslash (`u` is read by `json_hex4`). -/
def json_escape (e : Char) : Option Char :=
  if e = '"' then some '"'
  else if e = '\\' then some '\\'
  else if e = '/' then some '/'
  else if e = 'b' then some (Char.ofNat 8)
  else if e = 'f' then some (Char.ofNat 12)
  else if e = 'n' then some (Char.ofNat 10)
  else if e = 'r' then some (Char.ofNat 13)
  else if e = 't' then some (Char.ofNat 9)
  else none

/-- The value of a hexadecimal digit of either case. -/
def json_hex_digit (c : Char) : Option Nat :=
  if c.isDigit then some (c.toNat - 48)
  else if 97 ≤ c.toNat ∧ c.toNat ≤ 102 then some (c.toNat - 87)
  else if 65 ≤ c.toNat ∧ c.toNat ≤ 70 then some (c.toNat - 55)
  else none

/-- The four hexadecimal digits of a `u` escape: the code unit they stand for
and the rest of the input (surrogate pairs are not combined). -/
def json_hex4 (input : c_string) : Option (Char × c_string) :=
  match input with
  | a :: b :: c :: d :: rest =>
    match json_hex_digit a, json_hex_digit b, json_hex_digit c, json_hex_digit d with
    | some x, some y, some z, some w => some (Char.ofNat (((x * 16 + y) * 16 + z) * 16 + w), rest)
    | _, _, _, _ => none
  | _ => none

/-- Read a JSON string from just behind its opening quote: the decoded
characters and the input behind the closing quote; `none` when the string is
not closed, holds a raw control character or a wrong escape.  The first
argument bounds the number of steps. -/
def json_string_chars : Nat → c_string → Option (c_string × c_string)
  | 0, _ => none
  | _ + 1, [] => none
  | fuel + 1, c :: rest =>
    if c = '"' then some ([], rest)
    else if c = '\\' then
      match rest with
      | [] => none
      | e :: rest2 =>
        if e = 'u' then
          match json_hex4 rest2 with
          | some (ch, rest3) =>
            (json_string_chars fuel rest3).map (fun r => (ch :: r.1, r.2))
          | none => none
        else
          match json_escape e with
          | some ch => (json_string_chars fuel rest2).map (fun r => (ch :: r.1, r.2))
          | none => none
    else if c.toNat < 32 then none
    else (json_string_chars fuel rest).map (fun r => (c :: r.1, r.2))

/-- Read one quoted string, white space before it allowed. -/
def json_quoted (input : c_string) : Option (c_string × c_string) :=
  match json_ws input with
  | c :: rest => if c = '"' then json_string_chars (rest.length + 1) rest else none
  | [] => none

/-- Read the members of an object from just behind `{` or `,` up to the
closing `}`, which must end the input: name, colon, string value, then `,` or
`}`.  The first argument bounds the number of members. -/
def json_members : Nat → c_string → Option (List (c_string × c_string))
  | 0, _ => none
  | fuel + 1, input =>
    match json_quoted input with
    | none => none
    | some (name, r1) =>
      match json_ws r1 with
      | [] => none
      | c :: r2 =>
        if c = ':' then
          match json_quoted r2 with
          | none => none
          | some (value, r3) =>
            match json_ws r3 with
            | [] => none
            | d :: r4 =>
              if d = ',' then (json_members fuel r4).map (fun ms => (name, value) :: ms)
              else if d = '\x7d' then (if json_ws r4 = [] then some [(name, value)] else none)
              else none
        else none

/-- Read a whole text as a JSON object all of whose members have string
values: the decoded members in order, `none` when the text is not such an
object. -/
def json_object_string_members (body : c_string) : Option (List (c_string × c_string)) :=
  match json_ws body with
  | [] => none
  | c :: rest =>
    if c = '\x7b' then
      match json_ws rest with
      | [] => none
      | d :: rest2 =>
        if d = '\x7d' then (if json_ws rest2 = [] then some [] else none)
        else json_members rest.length rest
    else none

/-- A character that stands for itself inside a JSON string: not a quote, not
a backslash, not a control character. -/
def json_plain (c : Char) : Prop := c ≠ '"' ∧ c ≠ '\\' ∧ 32 ≤ c.toNat

/-! ## The engine configuration (`elevenlabs_synth_engine.c`) -/

/-- An element of the parsed document (`apr_xml_elem`): its name, its
attributes (name and value) in order, and its children in order. -/
inductive apr_xml_elem where
  | mk (name : c_string) (attr : List (c_string × c_string)) (children : List apr_xml_elem)

/-- The field `name` of an element. -/
def apr_xml_elem.name : apr_xml_elem → c_string
  | .mk name _ _ => name

/-- The list that starts at the field `attr` of an element. -/
def apr_xml_elem.attr : apr_xml_elem → List (c_string × c_string)
  | .mk _ attr _ => attr

/-- The list that starts at the field `first_child` of an element. -/
def apr_xml_elem.children : apr_xml_elem → List apr_xml_elem
  | .mk _ _ children => children

/-- The function `elevenlabs_config_set_defaults`: every field is assigned, so
the result does not depend on what the struct held before. -/
def elevenlabs_config_set_defaults : elevenlabs_config_t :=
  { api_key := none, voice_id := none,
    model_id := some "eleven_multilingual_v2".toList,
    output_format := some "ulaw_8000".toList,
    chunk_ms := 20,
    base_url := some "https://api.elevenlabs.io/v1/text-to-speech".toList,
    connect_timeout_ms := 5000, read_timeout_ms := 15000,
    fallback_ulaw_to_pcm := true, optimize_streaming_latency := 0,
    cache_enabled := false, cache_dir := some "./data/11labs".toList }

/-- Lines 170-176: the locals `name` and `value` after the loop over the
attributes of a `param` element (a later attribute of the same name wins). -/
def config_param_attrs (attr : List (c_string × c_string)) :
    Option c_string × Option c_string :=
  attr.foldl
    (fun nv a =>
      if a.1 = "name".toList then (some a.2, nv.2)
      else if a.1 = "value".toList then (nv.1, some a.2)
      else nv)
    (none, none)

/-- Lines 179-216: the assignment made for one parameter `name`, `value`. -/
def config_set_param (config : elevenlabs_config_t) (name value : c_string) :
    elevenlabs_config_t :=
  if name = "api_key".toList then { config with api_key := some value }
  else if name = "voice_id".toList then { config with voice_id := some value }
  else if name = "model_id".toList then { config with model_id := some value }
  else if name = "output_format".toList then { config with output_format := some value }
  else if name = "base_url".toList then { config with base_url := some value }
  else if name = "chunk_ms".toList then { config with chunk_ms := to_unsigned (atoi value) }
  else if name = "connect_timeout_ms".toList then
    { config with connect_timeout_ms := to_unsigned (atoi value) }
  else if name = "read_timeout_ms".toList then
    { config with read_timeout_ms := to_unsigned (atoi value) }
  else if name = "fallback_ulaw_to_pcm".toList then
    { config with fallback_ulaw_to_pcm := decide (value = "true".toList) }
  else if name = "optimize_streaming_latency".toList then
    { config with optimize_streaming_latency := atoi value }
  else if name = "cache_enabled".toList ∨ name = "cache-enabled".toList then
    { config with cache_enabled := decide (value = "true".toList ∨ value = "1".toList) }
  else if name = "cache_dir".toList ∨ name = "cache-dir".toList then
    { config with cache_dir := some value }
  else config

/-- Lines 165-218: the body of the loop over the children of the plugin
element, for one child. -/
def config_param (config : elevenlabs_config_t) (param : apr_xml_elem) : elevenlabs_config_t :=
  if param.name = "param".toList then
    match config_param_attrs param.attr with
    | (some name, some value) => config_set_param config name value
    | _ => config
  else config

/-- Lines 153-160: the child is a `plugin` element one of whose attributes is
`id="elevenlabs-synth"`. -/
def config_is_elevenlabs (child : apr_xml_elem) : Bool :=
  decide (child.name = "plugin".toList) &&
    child.attr.any (fun a => decide (a.1 = "id".toList ∧ a.2 = "elevenlabs-synth".toList))

/-- Lines 139-222: the configuration after the walk over the document: the
first `plugins` child of the root, in it the first elevenlabs plugin, and the
parameters of that plugin applied in order. -/
def config_walk (config : elevenlabs_config_t) (root : apr_xml_elem) : elevenlabs_config_t :=
  match root.children.find? (fun child => decide (child.name = "plugins".toList)) with
  | none => config
  | some plugins =>
    match plugins.children.find? config_is_elevenlabs with
    | none => config
    | some plugin => plugin.children.foldl config_param config

/-- What the file system, the pool and the XML library answer to
`elevenlabs_config_parse`: whether `apr_file_open`, `apr_file_info_get`, the
allocation of the content block and `apr_file_read` succeed, and the root of
the parsed document (`none` when `apr_xml_parser_done` fails or yields no
root). -/
structure config_file_env where
  open_ok : Bool
  info_ok : Bool
  alloc_ok : Bool
  read_ok : Bool
  doc_root : Option apr_xml_elem

/-- The function `elevenlabs_config_parse` with `config` and `pool` not
`NULL`: the `apt_bool_t` result and the configuration it leaves. -/
def elevenlabs_config_parse (env : config_file_env) : Bool × elevenlabs_config_t :=
  let config := elevenlabs_config_set_defaults
  if !env.open_ok then (true, config)
  else if !env.info_ok then (false, config)
  else if !env.alloc_ok then (false, config)
  else if !env.read_ok then (false, config)
  else
    match env.doc_root with
    | none => (false, config)
    | some root =>
      let config := config_walk config root
      if config.api_key.isNone then (false, config)
      else if config.voice_id.isNone then (false, config)
      else (true, config)

/-- The function `mrcp_plugin_create` up to the configuration: whether an
engine is created (the later allocations succeed) and with which
configuration. -/
def mrcp_plugin_create (env : config_file_env) : Option elevenlabs_config_t :=
  let r := elevenlabs_config_parse env
  if !r.1 then none else some r.2

/-- A document with the two required parameters. -/
def example_document : apr_xml_elem :=
  .mk "unimrcpserver".toList []
    [.mk "plugins".toList []
      [.mk "plugin".toList [("id".toList, "elevenlabs-synth".toList)]
        [.mk "param".toList [("name".toList, "api_key".toList), ("value".toList, "k1".toList)] [],
         .mk "param".toList [("name".toList, "voice_id".toList), ("value".toList, "Rachel".toList)]
           []]]]

/-- A channel as `elevenlabs_channel_create` leaves it, with frames of 50
bytes: no request is active and nothing was sent. -/
def example_idle_channel : channel_state :=
  { channel := { speak_request := none, stop_response := none, frame_size := 50,
                 synthesizing := false, progress_counter := 0 },
    session := example_session, sent := [] }

/-! ## A session as a run of two threads

After the SPEAK handler has started the worker (`apr_thread_create`, line 440
of `elevenlabs_http.c`), the worker thread (`elevenlabs_http_thread`) and the
media thread (`elevenlabs_synth_stream_read`) run side by side.  They share
the audio buffer, whose functions run inside the buffer's mutex, and the flag
`client->stopped`, which `stream_read` reads without a lock at line 452, after
its read from the buffer at line 440.  A run is a sequence of events, each of
which is one such indivisible piece of one of the two threads. -/

/-- Lines 436-449 of `elevenlabs_synth_stream_read`: the test of the request,
the read from the buffer and, when bytes were read, the audio branch.  The
flag says that the read returned 0, so that the call goes on to the test of
`stopped` at line 452. -/
def stream_read_begin (cs : channel_state) (frame : mpf_frame_t) :
    stream_read_result × Bool :=
  match cs.channel.speak_request with
  | some _ =>
    if cs.channel.synthesizing then
      let r := audio_buffer_read_frame cs.session.audio_buffer frame.buffer frame.size
      let cs := { cs with session := { cs.session with audio_buffer := r.buffer } }
      let frame := { frame with buffer := r.frame }
      if r.bytes_read > 0 then
        ({ state := { cs with channel := { cs.channel with progress_counter := 0 } },
           frame := { frame with type := frame.type ||| MEDIA_FRAME_TYPE_AUDIO },
           bytes_read := r.bytes_read }, false)
      else ({ state := cs, frame := frame, bytes_read := 0 }, true)
    else ({ state := cs, frame := frame, bytes_read := 0 }, false)
  | none => ({ state := cs, frame := frame, bytes_read := 0 }, false)

/-- Lines 450-477 of `elevenlabs_synth_stream_read`: the branch taken when the
read returned 0, from the test of `stopped` on.  `cs` is the state at that
moment, `frame` the frame of the call. -/
def stream_read_end (cs : channel_state) (frame : mpf_frame_t) : stream_read_result :=
  match cs.channel.speak_request with
  | some speak_request =>
    if !cs.session.client.stopped then
      let frame :=
        { frame with buffer := List.replicate frame.size 0 ++ frame.buffer.drop frame.size,
                     type := frame.type ||| MEDIA_FRAME_TYPE_AUDIO }
      let counter := cs.channel.progress_counter + 1
      if counter ≥ 25 then
        { state :=
            { cs with channel := { cs.channel with progress_counter := 0 },
                      sent := cs.sent ++
                        [mrcp_message_t.response speak_request
                          mrcp_request_state_e.INPROGRESS false] },
          frame := frame, bytes_read := 0 }
      else
        { state := { cs with channel := { cs.channel with progress_counter := counter } },
          frame := frame, bytes_read := 0 }
    else
      let cs := elevenlabs_send_speak_complete cs speak_request
        mrcp_synth_completion_cause_e.NORMAL
      { state := { cs with channel := { cs.channel with speak_request := none,
                                                        synthesizing := false } },
        frame := frame, bytes_read := 0 }
  | none => { state := cs, frame := frame, bytes_read := 0 }

/-- Where the worker thread is inside `curl_easy_perform`: the chunks the
server has still to send, the number of the next sink call, and whether a sink
call has returned a count different from the chunk size. -/
structure worker_state where
  chunks : List (List uint8_t)
  index : Nat
  aborted : Bool

/-- One step of the worker thread on the session `s`.  While the transfer runs
and a chunk is left, the step is one call of `write_callback` (a count
different from the chunk size aborts the transfer).  Otherwise the transfer
has ended with result `res` (`CURLE_WRITE_ERROR` after an abort, `net_res` if
not); the step is the rest of `elevenlabs_http_thread`: the cache
finalization and `stopped = TRUE`, after which the thread exits and the
result of the step carries `res`.  (A call of `stream_read` reads the buffer
and `stopped` only, and the finalization touches neither, so these lines are
taken as one step.) -/
def worker_step (config : elevenlabs_config_t) (mems : Nat → Option (Nat → uint8_t))
    (net_res http_code : Nat) (s : session) (w : worker_state) :
    session × Option worker_state × Option Nat :=
  match w.aborted, w.chunks with
  | false, chunk :: rest =>
    let r := write_callback config s chunk (mems w.index)
    (r.1, some { chunks := rest, index := w.index + 1,
                 aborted := decide (r.2 ≠ chunk.length) }, none)
  | aborted, _ =>
    let res := if aborted then CURLE_WRITE_ERROR else net_res
    let s := cache_finalize config s res http_code
    ({ s with client := { s.client with stopped := true } }, none, some res)

/-- The events of a run.  `worker` is the next step of the worker thread.
`pull frame` is a whole call of `elevenlabs_synth_stream_read` during which
the worker does not move.  `pull_read frame` and `pull_check` are the two
halves of such a call, lines 436-449 and lines 450-477, between which the
worker may move. -/
inductive session_event where
  | worker : session_event
  | pull : mpf_frame_t → session_event
  | pull_read : mpf_frame_t → session_event
  | pull_check : session_event

/-- The events during which the other thread does not move inside a call of
`elevenlabs_synth_stream_read`. -/
def session_event.atomic : session_event → Bool
  | session_event.worker => true
  | session_event.pull _ => true
  | session_event.pull_read _ => false
  | session_event.pull_check => false

/-- A run so far: the shared state, the worker (`none` when no worker thread
is running), the result of the transfer once the worker has exited, the frame
of a call of `stream_read` that has read 0 bytes and has not yet tested
`stopped`, and the calls of `stream_read` that have returned, oldest first. -/
structure session_run where
  cs : channel_state
  worker : Option worker_state
  result : Option Nat
  pending : Option mpf_frame_t
  pulls : List stream_read_result

/-- One event of a run.  An event that cannot happen in the state (a worker
step without worker, a new call of `stream_read` inside another, a second half
without first half) leaves the run as it is. -/
def session_step (config : elevenlabs_config_t) (mems : Nat → Option (Nat → uint8_t))
    (net_res http_code : Nat) (run : session_run) : session_event → session_run
  | session_event.worker =>
    match run.worker with
    | some w =>
      let r := worker_step config mems net_res http_code run.cs.session w
      { run with cs := { run.cs with session := r.1 }, worker := r.2.1, result := r.2.2 }
    | none => run
  | session_event.pull frame =>
    match run.pending with
    | some _ => run
    | none =>
      let r := elevenlabs_synth_stream_read run.cs frame
      { run with cs := r.state, pulls := run.pulls ++ [r] }
  | session_event.pull_read frame =>
    match run.pending with
    | some _ => run
    | none =>
      let b := stream_read_begin run.cs frame
      if b.2 then { run with cs := b.1.state, pending := some b.1.frame }
      else { run with cs := b.1.state, pulls := run.pulls ++ [b.1] }
  | session_event.pull_check =>
    match run.pending with
    | some frame =>
      let r := stream_read_end run.cs frame
      { run with cs := r.state, pending := none, pulls := run.pulls ++ [r] }
    | none => run

/-- A sequence of events, in order. -/
def session_run_events (config : elevenlabs_config_t) (mems : Nat → Option (Nat → uint8_t))
    (net_res http_code : Nat) : session_run → List session_event → session_run
  | run, [] => run
  | run, e :: rest =>
    session_run_events config mems net_res http_code
      (session_step config mems net_res http_code run e) rest

/-- The run at the return of `elevenlabs_channel_speak`: the worker, if one
was launched, is about to receive `chunks`; no frame has been pulled.  (The
lines of the handler after the thread creation set `synthesizing` and send
the response; the worker touches neither.) -/
def session_start (sha1 : c_string → sha1_digest) (hexstr_mem : Nat → Char)
    (env : start_env) (config : elevenlabs_config_t) (cs : channel_state) (request : Nat)
    (voice_name : Option c_string) (text : Option c_string) (chunks : List (List uint8_t)) :
    session_run :=
  let r := elevenlabs_channel_speak sha1 hexstr_mem env config cs request voice_name text
  { cs := r.1,
    worker := if r.2.launched then some { chunks := chunks, index := 0, aborted := false }
              else none,
    result := none, pending := none, pulls := [] }

/-- The bytes handed out by a sequence of calls of `stream_read`, in order. -/
def pulled_bytes (pulls : List stream_read_result) : List uint8_t :=
  pulls.flatMap (fun r => r.frame.buffer.take r.bytes_read)

/-- What holds of a run after any number of events of which none falls inside
a call of `stream_read`: `T` are the bytes the sink hands on for all chunks,
`sent0` the messages sent up to the return of the SPEAK handler, `f` the
frame size.  No call of `stream_read` is half done; the buffer is well formed;
no cache file is open; no call has handed out more than `f` bytes; the
utterance either is active, and only keep-alive responses were sent, or has
been completed once, with cause NORMAL, on an empty buffer and a terminal
fetch; while the worker runs without abort, the bytes handed out, the bytes in
the buffer and the bytes still to come make up `T`; once it has exited with
`CURLE_OK`, the bytes handed out and the bytes in the buffer make up `T`. -/
def session_inv (config : elevenlabs_config_t) (T : List uint8_t)
    (sent0 : List mrcp_message_t) (f request : Nat) (run : session_run) : Prop :=
  run.pending = none ∧
  run.cs.session.audio_buffer.wf ∧
  run.cs.session.client.cache_fp = none ∧
  (∀ r ∈ run.pulls, r.bytes_read ≤ f) ∧
  (∃ k : Nat,
    (run.cs.channel.speak_request = some request ∧ run.cs.channel.synthesizing = true ∧
      run.cs.sent = sent0 ++ List.replicate k
        (mrcp_message_t.response request mrcp_request_state_e.INPROGRESS false)) ∨
    (run.cs.channel.speak_request = none ∧ run.cs.channel.synthesizing = false ∧
      run.cs.session.audio_buffer.size = 0 ∧
      run.cs.session.client.stopped = true ∧
      run.cs.sent = sent0 ++ List.replicate k
          (mrcp_message_t.response request mrcp_request_state_e.INPROGRESS false)
        ++ [mrcp_message_t.speak_complete request mrcp_synth_completion_cause_e.NORMAL])) ∧
  (∀ w : worker_state, run.worker = some w →
    run.result = none ∧ run.cs.session.client.stopped = false ∧
    (w.aborted = false →
      pulled_bytes run.pulls ++ run.cs.session.audio_buffer.contents
        ++ deliver_outputs config run.cs.session.ulaw w.chunks = T)) ∧
  (run.worker = none →
    run.cs.session.client.stopped = true ∧
    ∃ res : Nat, run.result = some res ∧
      (res = CURLE_OK →
        pulled_bytes run.pulls ++ run.cs.session.audio_buffer.contents = T))

/-- The run of the SPEAK request 1 for the text `hello` on
`example_idle_channel` (no cache, every allocation succeeds, the transfer
ends with `CURLE_OK` and status 200), for the given chunks and events. -/
def example_run (chunks : List (List uint8_t)) (events : List session_event) : session_run :=
  session_run_events example_config example_env.mems CURLE_OK 200
    (session_start example_sha1 (fun _ => NUL) example_env example_config example_idle_channel
      1 none (some "hello".toList) chunks)
    events

theorem memcpy_length (dst src : List uint8_t) (off n : Nat)
    (hn : n ≤ src.length) (hd : off + n ≤ dst.length) :
    (memcpy dst off src n).length = dst.length := by
  simp only [memcpy, List.length_append, List.length_take, List.length_drop]
  omega

theorem memcpy_take (dst src : List uint8_t) (off n : Nat)
    (hn : n ≤ src.length) (hd : off ≤ dst.length) :
    (memcpy dst off src n).take (off + n) = dst.take off ++ src.take n := by
  have hlen : (dst.take off ++ src.take n).length = off + n := by
    simp only [List.length_append, List.length_take]; omega
  unfold memcpy
  rw [← hlen, List.take_left]

theorem apr_palloc_length (n : Nat) (mem : Option (Nat → uint8_t)) (block : List uint8_t)
    (h : apr_palloc n mem = some block) : block.length = n := by
  cases mem with
  | none => simp [apr_palloc] at h
  | some junk =>
    simp only [apr_palloc, Option.map_some', Option.some.injEq] at h
    subst h
    simp

/-! ## Lemmas on the audio buffer -/

/-- Effect of a write for which the size arithmetic does not wrap and the
allocation, if one is made, succeeds. -/
theorem audio_buffer_write_spec (b : audio_buffer_t) (data : List uint8_t)
    (mem : Option (Nat → uint8_t)) (hwf : b.wf) (hdata : data ≠ [])
    (hfit : 2 * (b.size + data.length) < APR_SIZE_MODULUS)
    (hmem : b.capacity < b.size + data.length → mem.isSome = true) :
    (audio_buffer_write b data mem).2 = true ∧
    (audio_buffer_write b data mem).1.wf ∧
    (audio_buffer_write b data mem).1.contents = b.contents ++ data ∧
    (audio_buffer_write b data mem).1.size = b.size + data.length := by
  obtain ⟨hlen, hcap, hsize⟩ := hwf
  have hpos : data.length ≠ 0 := by
    intro h; exact hdata (List.length_eq_zero.mp h)
  have hmod : (b.size + data.length) % APR_SIZE_MODULUS = b.size + data.length :=
    Nat.mod_eq_of_lt (by omega)
  have hmod2 : ((b.size + data.length) * 2) % APR_SIZE_MODULUS = (b.size + data.length) * 2 :=
    Nat.mod_eq_of_lt (by omega)
  unfold audio_buffer_write
  simp only [hpos, if_false, hmod, hmod2]
  by_cases hgrow : b.size + data.length > b.capacity
  · simp only [hgrow, if_true]
    obtain ⟨junk, rfl⟩ := Option.isSome_iff_exists.mp (hmem hgrow)
    set new_capacity :=
      (if b.capacity * 2 % APR_SIZE_MODULUS < b.size + data.length
        then (b.size + data.length) * 2 else b.capacity * 2 % APR_SIZE_MODULUS) with hnc
    have hnc_lt : new_capacity < APR_SIZE_MODULUS := by
      rw [hnc]; split
      · omega
      · exact Nat.mod_lt _ (by unfold APR_SIZE_MODULUS; positivity)
    have hnc_ge : b.size + data.length ≤ new_capacity := by
      rw [hnc]; split <;> omega
    cases hb : apr_palloc new_capacity (some junk) with
    | none => simp [apr_palloc] at hb
    | some block =>
      have hblock := apr_palloc_length _ _ _ hb
      simp only []
      set nb := (if b.size > 0 then memcpy block 0 b.buffer b.size else block) with hnb
      have hnb_len : nb.length = new_capacity := by
        rw [hnb]; split
        · rw [memcpy_length _ _ _ _ (by omega) (by omega)]; exact hblock
        · exact hblock
      have hnb_take : nb.take b.size = b.buffer.take b.size := by
        rw [hnb]; split
        · have := memcpy_take block b.buffer 0 b.size (by omega) (by omega)
          simpa using this
        · have h0 : b.size = 0 := by omega
          simp [h0]
      refine ⟨trivial, ⟨?_, hnc_lt, hnc_ge⟩, ?_, trivial⟩
      · show (memcpy nb b.size data data.length).length = new_capacity
        rw [memcpy_length _ _ _ _ (le_refl _) (by omega)]; exact hnb_len
      · show (memcpy nb b.size data data.length).take (b.size + data.length) = _
        rw [memcpy_take _ _ _ _ (le_refl _) (by omega), hnb_take, List.take_length]
        rfl
  · simp only [hgrow, if_false]
    have hle : b.size + data.length ≤ b.capacity := by omega
    refine ⟨trivial, ⟨?_, hcap, hle⟩, ?_, trivial⟩
    · show (memcpy b.buffer b.size data data.length).length = b.capacity
      rw [memcpy_length _ _ _ _ (le_refl _) (by omega)]; exact hlen
    · show (memcpy b.buffer b.size data data.length).take (b.size + data.length) = _
      rw [memcpy_take _ _ _ _ (le_refl _) (by omega), List.take_length]
      rfl

/-- A write that returns `TRUE` had data to write and, when it had to grow,
a successful allocation. -/
theorem audio_buffer_write_ok (b : audio_buffer_t) (data : List uint8_t)
    (mem : Option (Nat → uint8_t)) (h : (audio_buffer_write b data mem).2 = true) :
    data ≠ [] ∧ (b.capacity < (b.size + data.length) % APR_SIZE_MODULUS → mem.isSome = true) := by
  unfold audio_buffer_write at h
  constructor
  · intro hnil
    simp [hnil] at h
  · intro hgrow
    cases mem with
    | some junk => rfl
    | none =>
      by_cases hz : data.length = 0
      · simp [hz] at h
      · simp [hz, hgrow, apr_palloc] at h

/-- A write that returns `FALSE` leaves the buffer as it was. -/
theorem audio_buffer_write_failed (b : audio_buffer_t) (data : List uint8_t)
    (mem : Option (Nat → uint8_t)) (h : (audio_buffer_write b data mem).2 = false) :
    (audio_buffer_write b data mem).1 = b := by
  unfold audio_buffer_write at h ⊢
  by_cases hz : data.length = 0
  · simp [hz]
  · by_cases hgrow : (b.size + data.length) % APR_SIZE_MODULUS > b.capacity
    · cases mem with
      | none => simp [hz, hgrow, apr_palloc]
      | some junk => simp [hz, hgrow, apr_palloc] at h
    · simp [hz, hgrow] at h

/-- Effect of a frame read on a well-formed buffer. -/
theorem audio_buffer_read_frame_spec (b : audio_buffer_t) (frame : List uint8_t)
    (frame_size : Nat) (hwf : b.wf) :
    (audio_buffer_read_frame b frame frame_size).bytes_read = min frame_size b.size ∧
    (audio_buffer_read_frame b frame frame_size).bytes
      = b.contents.take (min frame_size b.size) ∧
    (audio_buffer_read_frame b frame frame_size).buffer.contents
      = b.contents.drop (min frame_size b.size) ∧
    (audio_buffer_read_frame b frame frame_size).buffer.size
      = b.size - min frame_size b.size ∧
    (audio_buffer_read_frame b frame frame_size).buffer.capacity = b.capacity ∧
    (audio_buffer_read_frame b frame frame_size).buffer.wf := by
  obtain ⟨hlen, hcap, hsize⟩ := hwf
  unfold audio_buffer_read_frame
  by_cases hz : frame_size = 0
  · subst hz
    simp [read_result.bytes, audio_buffer_t.wf, hlen, hcap, hsize]
  · simp only [hz, if_false]
    by_cases hge : b.size ≥ frame_size
    · have hmin : min frame_size b.size = frame_size := Nat.min_eq_left hge
      have hpos : frame_size > 0 := Nat.pos_of_ne_zero hz
      simp only [hge, if_true, hpos, hmin]
      by_cases hlt : frame_size < b.size
      · simp only [hlt, if_true]
        refine ⟨trivial, ?_, ?_, trivial, trivial, ?_, hcap, ?_⟩
        · simp only [read_result.bytes, memcpy, audio_buffer_t.contents, List.take_zero,
            List.nil_append, zero_add]
          rw [List.take_append_of_le_length (by simp; omega), List.take_take, List.take_take]
          simp [Nat.min_eq_left hge]
        · simp only [audio_buffer_t.contents, memmove_front]
          rw [List.take_append_of_le_length (by simp; omega), List.take_take, Nat.min_self,
            List.drop_take]
        · show (memmove_front b.buffer frame_size (b.size - frame_size)).length = b.capacity
          simp only [memmove_front, List.length_append, List.length_take, List.length_drop]
          omega
        · show b.size - frame_size ≤ b.capacity
          omega
      · have heq : b.size = frame_size := by omega
        simp only [hlt, if_false]
        refine ⟨trivial, ?_, ?_, trivial, trivial, hlen, hcap, ?_⟩
        · simp only [read_result.bytes, memcpy, audio_buffer_t.contents, List.take_zero,
            List.nil_append, zero_add]
          rw [List.take_append_of_le_length (by simp; omega), List.take_take, List.take_take]
          simp [heq]
        · simp [audio_buffer_t.contents, heq]
        · show b.size - frame_size ≤ b.capacity
          omega
    · have hmin : min frame_size b.size = b.size := Nat.min_eq_right (by omega)
      simp only [hge, if_false, hmin, Nat.lt_irrefl, Nat.sub_self]
      by_cases hpos : b.size > 0
      · simp only [hpos, if_true]
        refine ⟨trivial, ?_, ?_, trivial, trivial, hlen, hcap, Nat.zero_le _⟩
        · simp only [read_result.bytes, memcpy, audio_buffer_t.contents, List.take_zero,
            List.nil_append, zero_add]
          rw [List.take_append_of_le_length (by simp; omega), List.take_take]
        · simp [audio_buffer_t.contents]
      · have h0 : b.size = 0 := by omega
        simp only [hpos, if_false]
        refine ⟨trivial, ?_, ?_, ?_, trivial, hlen, hcap, hsize⟩
        · simp [read_result.bytes, h0]
        · simp [audio_buffer_t.contents, h0]
        · simp [h0]

/-! ## Sequences of calls -/

theorem call_log.written_mono (calls : List buffer_call) (l : call_log) :
    l.written.length ≤ (calls.foldl call_log.step l).written.length := by
  induction calls generalizing l with
  | nil => exact le_refl _
  | cons c cs ih =>
    refine le_trans ?_ (ih (l.step c))
    cases c with
    | write data mem => simp [call_log.step]
    | read frame frame_size => simp [call_log.step]

theorem call_log.writes_ok_false (calls : List buffer_call) (l : call_log)
    (h : l.writes_ok = false) : (calls.foldl call_log.step l).writes_ok = false := by
  induction calls generalizing l with
  | nil => exact h
  | cons c cs ih =>
    apply ih
    cases c with
    | write data mem => simp [call_log.step, h]
    | read frame frame_size => simpa [call_log.step] using h

theorem audio_buffer_t.contents_length (b : audio_buffer_t) (h : b.wf) :
    b.contents.length = b.size := by
  obtain ⟨hlen, _, hsize⟩ := h
  simp only [audio_buffer_t.contents, List.length_take]
  omega

theorem call_log.inv_foldl (calls : List buffer_call) (l : call_log) (hinv : l.inv)
    (hok : (calls.foldl call_log.step l).writes_ok = true)
    (hfit : 2 * (calls.foldl call_log.step l).written.length < APR_SIZE_MODULUS) :
    (calls.foldl call_log.step l).inv := by
  induction calls generalizing l with
  | nil => exact hinv
  | cons c cs ih =>
    simp only [List.foldl_cons] at hok hfit ⊢
    apply ih _ _ hok hfit
    obtain ⟨hwf, hcat, hcount⟩ := hinv
    cases c with
    | read frame frame_size =>
      obtain ⟨hn, hbytes, hrest, _, _, hwf1⟩ :=
        audio_buffer_read_frame_spec l.buffer frame frame_size hwf
      refine ⟨hwf1, ?_, ?_⟩
      · show (l.read ++ (audio_buffer_read_frame l.buffer frame frame_size).bytes)
            ++ (audio_buffer_read_frame l.buffer frame frame_size).buffer.contents = l.written
        rw [hbytes, hrest, List.append_assoc, List.take_append_drop]
        exact hcat
      · show (l.read ++ (audio_buffer_read_frame l.buffer frame frame_size).bytes).length
            = l.read_count + (audio_buffer_read_frame l.buffer frame frame_size).bytes_read
        rw [List.length_append, hbytes, hn, List.length_take,
          audio_buffer_t.contents_length _ hwf, hcount]
        omega
    | write data mem =>
      have hstep_ok : (audio_buffer_write l.buffer data mem).2 = true := by
        by_contra hne
        have hfalse : (l.step (.write data mem)).writes_ok = false := by
          simp [call_log.step, hne]
        rw [call_log.writes_ok_false cs _ hfalse] at hok
        exact Bool.false_ne_true hok
      have hmono := call_log.written_mono cs (l.step (.write data mem))
      have hwlen : (l.step (.write data mem)).written.length
          = l.written.length + data.length := by
        simp [call_log.step]
      have hsz : l.buffer.size ≤ l.written.length := by
        rw [← hcat, List.length_append, audio_buffer_t.contents_length _ hwf]
        omega
      have hfit1 : 2 * (l.buffer.size + data.length) < APR_SIZE_MODULUS := by omega
      obtain ⟨hne, hmem⟩ := audio_buffer_write_ok _ _ _ hstep_ok
      rw [Nat.mod_eq_of_lt (by omega)] at hmem
      obtain ⟨_, hwf1, hcont, _⟩ := audio_buffer_write_spec l.buffer data mem hwf hne hfit1 hmem
      refine ⟨hwf1, ?_, hcount⟩
      show l.read ++ (audio_buffer_write l.buffer data mem).1.contents = l.written ++ data
      rw [hcont, ← List.append_assoc, hcat]

/-- A buffer just returned by `audio_buffer_create` is well formed and empty. -/
theorem audio_buffer_create_spec (struct_mem : Bool) (mem : Option (Nat → uint8_t))
    (initial_capacity : Nat) (b : audio_buffer_t)
    (h : audio_buffer_create struct_mem mem initial_capacity = some b) :
    b.buffer.length = b.capacity ∧ b.size = 0 ∧
    b.capacity = max initial_capacity (1024 * 1024) := by
  unfold audio_buffer_create at h
  cases struct_mem with
  | false => simp at h
  | true =>
    cases mem with
    | none => simp [apr_palloc] at h
    | some junk =>
      simp only [apr_palloc, Option.map_some', Bool.not_true, Bool.false_eq_true, if_false,
        Option.some.injEq] at h
      subst h
      refine ⟨by simp, rfl, ?_⟩
      show (if initial_capacity > 1024 * 1024 then initial_capacity else 1024 * 1024) = _
      split <;> omega

/-- A write keeps `size ≤ capacity`, whether it succeeds or fails, as long as
the size arithmetic does not wrap. -/
theorem audio_buffer_write_size_le (b : audio_buffer_t) (data : List uint8_t)
    (mem : Option (Nat → uint8_t)) (hsize : b.size ≤ b.capacity)
    (hfit : 2 * (b.size + data.length) < APR_SIZE_MODULUS) :
    (audio_buffer_write b data mem).1.size ≤ (audio_buffer_write b data mem).1.capacity := by
  have hmod : (b.size + data.length) % APR_SIZE_MODULUS = b.size + data.length :=
    Nat.mod_eq_of_lt (by omega)
  have hmod2 : ((b.size + data.length) * 2) % APR_SIZE_MODULUS = (b.size + data.length) * 2 :=
    Nat.mod_eq_of_lt (by omega)
  unfold audio_buffer_write
  simp only [hmod, hmod2]
  by_cases hz : data.length = 0
  · simpa [hz] using hsize
  · by_cases hgrow : b.size + data.length > b.capacity
    · cases mem with
      | none => simpa [hz, hgrow, apr_palloc] using hsize
      | some junk =>
        simp only [hz, hgrow, if_true, if_false, apr_palloc, Option.map_some']
        show b.size + data.length ≤
          (if b.capacity * 2 % APR_SIZE_MODULUS < b.size + data.length
            then (b.size + data.length) * 2 else b.capacity * 2 % APR_SIZE_MODULUS)
        split <;> omega
    · simp only [hz, hgrow, if_false]
      show b.size + data.length ≤ b.capacity
      omega

/-! ## The audio buffer: the claims -/

/-- C1 (FIFO). On a buffer just returned by `audio_buffer_create`, after any
sequence of `audio_buffer_write` calls that all returned `TRUE`, interleaved in
any way with `audio_buffer_read_frame` calls of any frame sizes, the bytes
handed out by the reads, concatenated in call order, are a leading segment of
the bytes written, concatenated in call order; that segment is as long as the
sum of the returned byte counts, and the buffer holds exactly the remaining
written bytes.  (Byte counts are `apr_size_t`: the total written stays below
`2 ^ 63`.) -/
theorem audio_buffer_fifo (struct_mem : Bool) (mem : Option (Nat → uint8_t))
    (initial_capacity : Nat) (b0 : audio_buffer_t) (calls : List buffer_call)
    (hcreate : audio_buffer_create struct_mem mem initial_capacity = some b0)
    (hcap : initial_capacity < APR_SIZE_MODULUS)
    (hok : (run_calls b0 calls).writes_ok = true)
    (hfit : 2 * (run_calls b0 calls).written.length < APR_SIZE_MODULUS) :
    (run_calls b0 calls).read <+: (run_calls b0 calls).written ∧
    (run_calls b0 calls).read.length = (run_calls b0 calls).read_count ∧
    (run_calls b0 calls).read
      = (run_calls b0 calls).written.take (run_calls b0 calls).read_count ∧
    (run_calls b0 calls).buffer.contents
      = (run_calls b0 calls).written.drop (run_calls b0 calls).read_count := by
  obtain ⟨hlen, hsz, hc⟩ := audio_buffer_create_spec _ _ _ _ hcreate
  have hwf : b0.wf := by
    refine ⟨hlen, ?_, by omega⟩
    rw [hc]
    have : (1024 * 1024 : Nat) < APR_SIZE_MODULUS := by unfold APR_SIZE_MODULUS; norm_num
    exact max_lt hcap this
  have hinv0 : (call_log.mk b0 [] [] 0 true).inv := by
    refine ⟨hwf, ?_, rfl⟩
    simp [audio_buffer_t.contents, hsz]
  obtain ⟨_, hcat, hcount⟩ := call_log.inv_foldl calls _ hinv0 hok hfit
  have hcat1 : (run_calls b0 calls).read ++ (run_calls b0 calls).buffer.contents
      = (run_calls b0 calls).written := hcat
  have hcount1 : (run_calls b0 calls).read.length = (run_calls b0 calls).read_count := hcount
  refine ⟨⟨_, hcat1⟩, hcount1, ?_, ?_⟩
  · rw [← hcat1, ← hcount1, List.take_left]
  · rw [← hcat1, ← hcount1, List.drop_left]

/-- Witness for C1: on a fresh default-capacity buffer, write three bytes,
read a frame of two, write one byte, read a frame of five. -/
theorem audio_buffer_fifo_witness :
    (run_calls ⟨(List.range (1024 * 1024)).map (fun _ => 0), 0, 1024 * 1024⟩
      [.write [1, 2, 3] none, .read [] 2, .write [4] none, .read [] 5]).writes_ok = true ∧
    (run_calls ⟨(List.range (1024 * 1024)).map (fun _ => 0), 0, 1024 * 1024⟩
      [.write [1, 2, 3] none, .read [] 2, .write [4] none, .read [] 5]).written = [1, 2, 3, 4] ∧
    (run_calls ⟨(List.range (1024 * 1024)).map (fun _ => 0), 0, 1024 * 1024⟩
      [.write [1, 2, 3] none, .read [] 2, .write [4] none, .read [] 5]).read
      <+: (run_calls ⟨(List.range (1024 * 1024)).map (fun _ => 0), 0, 1024 * 1024⟩
      [.write [1, 2, 3] none, .read [] 2, .write [4] none, .read [] 5]).written :=
  ⟨by decide, by decide,
   (audio_buffer_fifo true (some (fun _ => 0)) 0
      ⟨(List.range (1024 * 1024)).map (fun _ => 0), 0, 1024 * 1024⟩
      [.write [1, 2, 3] none, .read [] 2, .write [4] none, .read [] 5]
      rfl (by decide) (by decide) (by decide)).1⟩

/-- C2 (write appends). For every well-formed buffer state and every non-empty
data, when the allocation made by a growing write succeeds (and the byte counts
fit `apr_size_t` arithmetic), `audio_buffer_write` returns `TRUE` and the
buffer then holds its old contents followed by `data`, with
`size = old size + len(data)`, whether or not the buffer had to grow. -/
theorem audio_buffer_write_appends (b : audio_buffer_t) (data : List uint8_t)
    (mem : Option (Nat → uint8_t)) (hwf : b.wf) (hdata : data ≠ [])
    (hfit : 2 * (b.size + data.length) < APR_SIZE_MODULUS)
    (hmem : b.capacity < b.size + data.length → mem.isSome = true) :
    (audio_buffer_write b data mem).2 = true ∧
    (audio_buffer_write b data mem).1.contents = b.contents ++ data ∧
    (audio_buffer_write b data mem).1.size = b.size + data.length ∧
    (audio_buffer_write b data mem).1.wf := by
  obtain ⟨h1, h2, h3, h4⟩ := audio_buffer_write_spec b data mem hwf hdata hfit hmem
  exact ⟨h1, h3, h4, h2⟩

/-- Witness for C2: a growing write (one byte held in a two-byte block, three
bytes written) and its result. -/
theorem audio_buffer_write_appends_witness :
    (audio_buffer_write ⟨[9, 8], 1, 2⟩ [1, 2, 3] (some (fun _ => 7))).2 = true ∧
    (audio_buffer_write ⟨[9, 8], 1, 2⟩ [1, 2, 3] (some (fun _ => 7))).1.contents
      = (audio_buffer_t.mk [9, 8] 1 2).contents ++ [1, 2, 3] ∧
    (audio_buffer_write ⟨[9, 8], 1, 2⟩ [1, 2, 3] (some (fun _ => 7))).1.size = 1 + 3 ∧
    (audio_buffer_write ⟨[9, 8], 1, 2⟩ [1, 2, 3] (some (fun _ => 7))).1.wf :=
  audio_buffer_write_appends ⟨[9, 8], 1, 2⟩ [1, 2, 3] (some (fun _ => 7))
    (by decide) (by decide) (by decide) (fun _ => rfl)

/-- C3 (frame read). For every well-formed buffer state and every `frame_size`,
`audio_buffer_read_frame` returns exactly `min(frame_size, size)` bytes, which
are the first bytes of the buffer in order; the remaining
`size - min(frame_size, size)` bytes stay in their order, now at offset 0, and
the capacity is unchanged.  When the buffer is empty or `frame_size` is 0 the
call returns zero bytes and changes neither the buffer nor the frame. -/
theorem audio_buffer_read_frame_front (b : audio_buffer_t) (frame : List uint8_t)
    (frame_size : Nat) (hwf : b.wf) :
    (audio_buffer_read_frame b frame frame_size).bytes_read = min frame_size b.size ∧
    (audio_buffer_read_frame b frame frame_size).bytes.length = min frame_size b.size ∧
    (audio_buffer_read_frame b frame frame_size).bytes
      = b.contents.take (min frame_size b.size) ∧
    (audio_buffer_read_frame b frame frame_size).buffer.contents
      = b.contents.drop (min frame_size b.size) ∧
    (audio_buffer_read_frame b frame frame_size).buffer.size
      = b.size - min frame_size b.size ∧
    (audio_buffer_read_frame b frame frame_size).buffer.capacity = b.capacity ∧
    (b.size = 0 ∨ frame_size = 0 →
      (audio_buffer_read_frame b frame frame_size).bytes_read = 0 ∧
      (audio_buffer_read_frame b frame frame_size).buffer = b ∧
      (audio_buffer_read_frame b frame frame_size).frame = frame) := by
  obtain ⟨h1, h2, h3, h4, h5, _⟩ := audio_buffer_read_frame_spec b frame frame_size hwf
  refine ⟨h1, ?_, h2, h3, h4, h5, ?_⟩
  · rw [h2, List.length_take, audio_buffer_t.contents_length _ hwf]
    omega
  · intro h
    unfold audio_buffer_read_frame
    by_cases hz : frame_size = 0
    · simp [hz]
    · have h0 : b.size = 0 := h.resolve_right hz
      have hlt : ¬ b.size ≥ frame_size := by omega
      simp [hz, h0]

/-- Witness for C3: a frame of two bytes read from three buffered bytes in a
four-byte block. -/
theorem audio_buffer_read_frame_front_witness :
    (audio_buffer_read_frame ⟨[1, 2, 3, 7], 3, 4⟩ [0, 0] 2).bytes = [1, 2] ∧
    (audio_buffer_read_frame ⟨[1, 2, 3, 7], 3, 4⟩ [0, 0] 2).buffer.contents = [3] ∧
    (audio_buffer_read_frame ⟨[1, 2, 3, 7], 3, 4⟩ [0, 0] 2).bytes_read = min 2 3 :=
  ⟨by decide, by decide,
   (audio_buffer_read_frame_front ⟨[1, 2, 3, 7], 3, 4⟩ [0, 0] 2 (by decide)).1⟩

/-- C4 (size never exceeds capacity). `size ≤ capacity` holds for the buffer
returned by `audio_buffer_create`; it is preserved by every
`audio_buffer_write`, successful or failed (byte counts fitting `apr_size_t`
arithmetic), by every `audio_buffer_read_frame` and by every
`audio_buffer_clear`; and `audio_buffer_clear` sets `size` to 0 and leaves
`capacity` unchanged. -/
theorem audio_buffer_size_le_capacity :
    (∀ (struct_mem : Bool) (mem : Option (Nat → uint8_t)) (initial_capacity : Nat)
        (b : audio_buffer_t),
        audio_buffer_create struct_mem mem initial_capacity = some b →
        b.size ≤ b.capacity) ∧
    (∀ (b : audio_buffer_t) (data : List uint8_t) (mem : Option (Nat → uint8_t)),
        b.size ≤ b.capacity → 2 * (b.size + data.length) < APR_SIZE_MODULUS →
        (audio_buffer_write b data mem).1.size ≤ (audio_buffer_write b data mem).1.capacity) ∧
    (∀ (b : audio_buffer_t) (frame : List uint8_t) (frame_size : Nat),
        b.size ≤ b.capacity →
        (audio_buffer_read_frame b frame frame_size).buffer.size
          ≤ (audio_buffer_read_frame b frame frame_size).buffer.capacity) ∧
    (∀ b : audio_buffer_t,
        (audio_buffer_clear b).size = 0 ∧ (audio_buffer_clear b).capacity = b.capacity ∧
        (audio_buffer_clear b).size ≤ (audio_buffer_clear b).capacity) := by
  refine ⟨?_, ?_, ?_, ?_⟩
  · intro struct_mem mem initial_capacity b h
    obtain ⟨_, hsz, _⟩ := audio_buffer_create_spec _ _ _ _ h
    omega
  · intro b data mem hsize hfit
    exact audio_buffer_write_size_le b data mem hsize hfit
  · intro b frame frame_size hsize
    unfold audio_buffer_read_frame
    by_cases hz : frame_size = 0
    · simpa [hz] using hsize
    · simp only [hz, if_false]
      split_ifs
      all_goals first
        | exact hsize
        | exact le_trans (Nat.sub_le _ _) hsize
  · intro b
    exact ⟨rfl, rfl, Nat.zero_le _⟩

/-- Witness for C4: the invariant after a growing write, a failed write, a read
and a clear of concrete buffers. -/
theorem audio_buffer_size_le_capacity_witness :
    (audio_buffer_write ⟨[9, 8], 1, 2⟩ [1, 2, 3] (some (fun _ => 7))).1.size
      ≤ (audio_buffer_write ⟨[9, 8], 1, 2⟩ [1, 2, 3] (some (fun _ => 7))).1.capacity ∧
    (audio_buffer_write ⟨[9, 8], 1, 2⟩ [1, 2, 3] none).1.size
      ≤ (audio_buffer_write ⟨[9, 8], 1, 2⟩ [1, 2, 3] none).1.capacity ∧
    (audio_buffer_read_frame ⟨[1, 2, 3, 7], 3, 4⟩ [0, 0] 2).buffer.size
      ≤ (audio_buffer_read_frame ⟨[1, 2, 3, 7], 3, 4⟩ [0, 0] 2).buffer.capacity :=
  ⟨audio_buffer_size_le_capacity.2.1 ⟨[9, 8], 1, 2⟩ [1, 2, 3] (some (fun _ => 7))
      (by decide) (by decide),
   audio_buffer_size_le_capacity.2.1 ⟨[9, 8], 1, 2⟩ [1, 2, 3] none (by decide) (by decide),
   audio_buffer_size_le_capacity.2.2.1 ⟨[1, 2, 3, 7], 3, 4⟩ [0, 0] 2 (by decide)⟩

/-! ## The mu-law decoder: lemmas -/

/-- A counted loop that stores `f i` at index `i` of a block overwrites its
first `n` entries with `f 0, ..., f (n-1)` and keeps the rest. -/
theorem foldl_set_range {α : Type} (f : Nat → α) (n : Nat) (out : List α)
    (h : n ≤ out.length) :
    (List.range n).foldl (fun o i => o.set i (f i)) out
      = (List.range n).map f ++ out.drop n := by
  induction n with
  | zero => simp
  | succ k ih =>
    rw [List.range_succ, List.foldl_append, ih (by omega)]
    simp only [List.foldl_cons, List.foldl_nil, List.map_append, List.map_cons, List.map_nil,
      List.append_assoc, List.singleton_append]
    rw [List.set_append_right _ _ (by simp)]
    congr 1
    simp only [List.length_map, List.length_range, Nat.sub_self]
    have hd : out.drop k = out[k] :: out.drop (k + 1) := by
      rw [List.drop_eq_getElem_cons (by omega)]
    rw [hd]
    rfl

theorem ulaw_decode_init_static : ulaw_decode_init ulaw_static = ulaw_ready := by
  have hlen : 256 ≤ (List.replicate 256 (0 : Int)).length := by
    rw [List.length_replicate]
  have hdrop : (List.replicate 256 (0 : Int)).drop 256 = [] := by
    apply List.drop_eq_nil_of_le
    rw [List.length_replicate]
  show (if false = true then ulaw_static else
      { ulaw_table :=
          (List.range 256).foldl (fun table i => table.set i (ulaw_decode_entry i))
            (List.replicate 256 0),
        ulaw_table_initialized := true }) = ulaw_ready
  rw [if_neg Bool.false_ne_true, foldl_set_range _ _ _ hlen, hdrop, List.append_nil]
  rfl

theorem ulaw_decode_init_ready : ulaw_decode_init ulaw_ready = ulaw_ready := by
  show (if true = true then ulaw_ready else _) = ulaw_ready
  rw [if_pos rfl]

/-- The lazy initialisation at the head of `ulaw_byte_to_s16` and `ulaw_to_s16`
leaves the statics ready, from the start state and from the ready state. -/
theorem ulaw_lazy_init (s : ulaw_state) (hs : s = ulaw_static ∨ s = ulaw_ready) :
    (if (!s.ulaw_table_initialized) = true then ulaw_decode_init s else s) = ulaw_ready := by
  rcases hs with rfl | rfl
  · show (if (!false) = true then ulaw_decode_init ulaw_static else ulaw_static) = ulaw_ready
    rw [Bool.not_false, if_pos rfl, ulaw_decode_init_static]
  · show (if (!true) = true then ulaw_decode_init ulaw_ready else ulaw_ready) = ulaw_ready
    rw [Bool.not_true, if_neg Bool.false_ne_true]

theorem ulaw_state.step_cases (s : ulaw_state) (hs : s = ulaw_static ∨ s = ulaw_ready)
    (c : ulaw_call) : s.step c = ulaw_ready := by
  cases c with
  | init =>
    rcases hs with rfl | rfl
    · exact ulaw_decode_init_static
    · exact ulaw_decode_init_ready
  | byte_to_s16 b => exact ulaw_lazy_init s hs
  | to_s16 inp out => exact ulaw_lazy_init s hs

theorem ulaw_state.foldl_cases (calls : List ulaw_call) (s : ulaw_state)
    (hs : s = ulaw_static ∨ s = ulaw_ready) :
    calls.foldl ulaw_state.step s = ulaw_static ∨ calls.foldl ulaw_state.step s = ulaw_ready := by
  induction calls generalizing s with
  | nil => exact hs
  | cons c cs ih =>
    rw [List.foldl_cons]
    exact ih _ (Or.inr (ulaw_state.step_cases s hs c))

/-- Every state the statics can be in is the start state or the ready state. -/
theorem ulaw_after_cases (calls : List ulaw_call) :
    ulaw_after calls = ulaw_static ∨ ulaw_after calls = ulaw_ready :=
  ulaw_state.foldl_cases calls ulaw_static (Or.inl rfl)

/-- The sample returned in the start state and in the ready state is the table
entry computed by the loop body. -/
theorem ulaw_byte_to_s16_entry (s : ulaw_state) (hs : s = ulaw_static ∨ s = ulaw_ready)
    (b : uint8_t) : (ulaw_byte_to_s16 s b).2 = ulaw_decode_entry b.val := by
  show (if (!s.ulaw_table_initialized) = true then ulaw_decode_init s else s).ulaw_table.getD
    b.val 0 = ulaw_decode_entry b.val
  rw [ulaw_lazy_init s hs]
  show ((List.range 256).map ulaw_decode_entry).getD b.val 0 = ulaw_decode_entry b.val
  rw [List.getD_eq_getElem?_getD, List.getElem?_map, List.getElem?_range b.isLt]
  rfl

set_option maxRecDepth 100000 in
/-- The loop body of `ulaw_decode_init` computes, for each of the 256 bytes,
the sample the specification describes. -/
theorem ulaw_decode_entry_eq_spec :
    ∀ b : uint8_t, ulaw_decode_entry b.val = ulaw_spec_sample b := by
  decide

/-- The samples of `ulaw_to_s16` in the start state and in the ready state. -/
theorem ulaw_to_s16_samples (s : ulaw_state) (inp : List uint8_t) (out : List Int)
    (hout : inp.length ≤ out.length) :
    (ulaw_to_s16 s inp out).2
      = inp.map (fun b => (ulaw_byte_to_s16 s b).2) ++ out.drop inp.length := by
  show (List.range inp.length).foldl
      (fun o i =>
        o.set i ((if (!s.ulaw_table_initialized) = true then ulaw_decode_init s
          else s).ulaw_table.getD (inp.getD i 0).val 0)) out = _
  rw [foldl_set_range
    (fun i => (if (!s.ulaw_table_initialized) = true then ulaw_decode_init s
      else s).ulaw_table.getD (inp.getD i 0).val 0) _ _ hout]
  congr 1
  apply List.ext_getElem
  · simp
  · intro i h1 h2
    have hi : i < inp.length := by simpa using h1
    have hget : inp.getD i 0 = inp[i] := by
      rw [List.getD_eq_getElem?_getD, List.getElem?_eq_getElem hi]
      rfl
    simp only [List.getElem_map, List.getElem_range]
    rw [hget]
    rfl

/-! ## The mu-law decoder: the claims -/

/-- C5 (decoding algorithm). For every byte, `ulaw_byte_to_s16` — after any
sequence of earlier calls into the decoder, so whether or not
`ulaw_decode_init` was called before and however many times — returns
`s * m` clamped to `[-32635, 32635]`, where `c` is the bitwise complement of
the byte, `s` is -1 when bit 7 of `c` is set and +1 otherwise, `e` is bits 6..4
of `c`, and `m = ((bits 3..0 of c) << 3) + 0x84`, increased by `1 << (e + 3)`
when `e` is not 0. -/
theorem ulaw_byte_to_s16_algorithm (calls : List ulaw_call) (b : uint8_t) :
    (ulaw_byte_to_s16 (ulaw_after calls) b).2 = ulaw_spec_sample b := by
  rw [ulaw_byte_to_s16_entry _ (ulaw_after_cases calls) b]
  exact ulaw_decode_entry_eq_spec b

/-- C6 (reference table), evaluated on the code: `ulaw_byte_to_s16` returns
132 for 0xFF, 1276 for 0x80 and -1276 for 0x00, where the G.711 expansion
gives 0, 32124 and -32124. -/
theorem ulaw_byte_to_s16_not_g711 :
    (ulaw_byte_to_s16 ulaw_static 0xFF).2 = 132 ∧ g711_ulaw_reference 0xFF = 0 ∧
    (ulaw_byte_to_s16 ulaw_static 0x80).2 = 1276 ∧ g711_ulaw_reference 0x80 = 32124 ∧
    (ulaw_byte_to_s16 ulaw_static 0x00).2 = -1276 ∧ g711_ulaw_reference 0x00 = -32124 := by
  rw [ulaw_byte_to_s16_entry _ (Or.inl rfl), ulaw_byte_to_s16_entry _ (Or.inl rfl),
    ulaw_byte_to_s16_entry _ (Or.inl rfl)]
  decide

/-- C7 (buffer decoding). For every input of `n` bytes and every output block
with room for `n` samples, in every state of the statics, `ulaw_to_s16` stores
exactly `n` samples, the i-th being `ulaw_byte_to_s16` of the i-th input byte;
in memory they are `2 * n` bytes (each sample low byte first), and the block
beyond the `n` samples is untouched. -/
theorem ulaw_to_s16_elementwise (s : ulaw_state) (inp : List uint8_t) (out : List Int)
    (hout : inp.length ≤ out.length) :
    (ulaw_to_s16 s inp out).2.take inp.length
      = inp.map (fun b => (ulaw_byte_to_s16 s b).2) ∧
    ((ulaw_to_s16 s inp out).2.take inp.length).length = inp.length ∧
    (pcm_bytes ((ulaw_to_s16 s inp out).2.take inp.length)).length = 2 * inp.length ∧
    (∀ (i : Nat) (h : i < inp.length),
      (ulaw_to_s16 s inp out).2.getD i 0 = (ulaw_byte_to_s16 s (inp.get ⟨i, h⟩)).2) ∧
    (ulaw_to_s16 s inp out).2.drop inp.length = out.drop inp.length := by
  have hs := ulaw_to_s16_samples s inp out hout
  have hlen : (inp.map (fun b => (ulaw_byte_to_s16 s b).2)).length = inp.length :=
    List.length_map _ _
  have htake : (ulaw_to_s16 s inp out).2.take inp.length
      = inp.map (fun b => (ulaw_byte_to_s16 s b).2) := by
    rw [hs]
    exact List.take_left' hlen
  refine ⟨htake, ?_, ?_, ?_, ?_⟩
  · rw [htake, hlen]
  · rw [htake]
    generalize inp.map (fun b => (ulaw_byte_to_s16 s b).2) = samples at hlen
    rw [← hlen]
    clear hlen htake hs
    induction samples with
    | nil => rfl
    | cons x xs ih =>
      simp only [pcm_bytes, List.flatMap_cons, List.length_append, List.length_cons] at ih ⊢
      rw [ih]
      simp [s16_bytes]
      omega
  · intro i h
    rw [hs, List.getD_eq_getElem?_getD, List.getElem?_append_left (by rw [hlen]; exact h),
      List.getElem?_map, List.getElem?_eq_getElem h]
    rfl
  · rw [hs]
    exact List.drop_left' hlen

/-- Witness for C7: three bytes decoded into a block of four samples. -/
theorem ulaw_to_s16_elementwise_witness :
    (ulaw_to_s16 ulaw_static [0xFF, 0x80, 0x00] [7, 7, 7, 7]).2.take 3
      = [0xFF, 0x80, 0x00].map (fun b => (ulaw_byte_to_s16 ulaw_static b).2) ∧
    (pcm_bytes ((ulaw_to_s16 ulaw_static [0xFF, 0x80, 0x00] [7, 7, 7, 7]).2.take 3)).length
      = 2 * 3 :=
  ⟨(ulaw_to_s16_elementwise ulaw_static [0xFF, 0x80, 0x00] [7, 7, 7, 7] (by decide)).1,
   (ulaw_to_s16_elementwise ulaw_static [0xFF, 0x80, 0x00] [7, 7, 7, 7] (by decide)).2.2.1⟩

/-! ## The cache fingerprint: lemmas -/

theorem flatMap_pair_length {ι α : Type} (l : List ι) (f g : ι → α) :
    (l.flatMap (fun i => [f i, g i])).length = l.length * 2 := by
  induction l with
  | nil => rfl
  | cons x xs ih =>
    rw [List.flatMap_cons, List.length_append, ih, List.length_cons, List.length_cons,
      List.length_cons, List.length_nil]
    omega

/-- A counted loop that stores `f i` at index `i * 2` and `g i` at index
`i * 2 + 1` overwrites the first `n * 2` entries of a block with
`f 0, g 0, f 1, g 1, ...` and keeps the rest. -/
theorem foldl_set_pair_range {α : Type} (f g : Nat → α) (n : Nat) (block : List α)
    (h : n * 2 ≤ block.length) :
    (List.range n).foldl (fun b i => (b.set (i * 2) (f i)).set (i * 2 + 1) (g i)) block
      = (List.range n).flatMap (fun i => [f i, g i]) ++ block.drop (n * 2) := by
  induction n with
  | zero => simp
  | succ k ih =>
    have hA : ((List.range k).flatMap (fun i => [f i, g i])).length = k * 2 := by
      rw [flatMap_pair_length, List.length_range]
    have hd : block.drop (k * 2)
        = block[k * 2] :: block[k * 2 + 1] :: block.drop ((k + 1) * 2) := by
      rw [List.drop_eq_getElem_cons (by omega), List.drop_eq_getElem_cons (by omega)]
      have he : k * 2 + 1 + 1 = (k + 1) * 2 := by omega
      rw [he]
    rw [List.range_succ, List.foldl_append, ih (by omega), List.flatMap_append]
    simp only [List.foldl_cons, List.foldl_nil, List.flatMap_cons, List.flatMap_nil,
      List.append_nil]
    rw [List.set_append_right _ _ (by omega),
      List.set_append_right _ _ (by rw [hA]; omega), hd]
    simp only [hA, List.length_append, List.length_set, List.length_cons, Nat.sub_self,
      List.set_cons_zero, Nat.add_sub_cancel_left, List.set_cons_succ, List.append_assoc,
      List.cons_append, List.nil_append]

theorem flatMap_pair_inj {ι α : Type} (l : List ι) (f g f1 g1 : ι → α)
    (h : l.flatMap (fun i => [f i, g i]) = l.flatMap (fun i => [f1 i, g1 i])) :
    ∀ i ∈ l, f i = f1 i ∧ g i = g1 i := by
  induction l with
  | nil => intro i hi; cases hi
  | cons x xs ih =>
    simp only [List.flatMap_cons, List.cons_append, List.nil_append, List.cons.injEq] at h
    obtain ⟨h1, h2, h3⟩ := h
    intro i hi
    rcases List.mem_cons.mp hi with rfl | hi
    · exact ⟨h1, h2⟩
    · exact ih h3 i hi

theorem takeWhile_append_stop {α : Type} (p : α → Bool) (l r : List α) (x : α)
    (hl : ∀ c ∈ l, p c = true) (hx : p x = false) : (l ++ x :: r).takeWhile p = l := by
  induction l with
  | nil => simp [List.takeWhile, hx]
  | cons y ys ih =>
    have hy : p y = true := hl y (List.mem_cons_self _ _)
    simp only [List.cons_append, List.takeWhile_cons, hy, if_true]
    rw [ih (fun c hc => hl c (List.mem_cons_of_mem _ hc))]

set_option maxRecDepth 100000 in
/-- For every byte, the two characters the loop of the source picks
(`hex[(d >> 4) & 0xF]`, `hex[d & 0xF]`) are the digits of `d / 16` and
`d % 16`; both are hexadecimal digits, neither is NUL, and the byte is
recovered from them. -/
theorem hex_byte_facts : ∀ x : uint8_t,
    hex ((x.val >>> 4) &&& 0xF) = "0123456789abcdef".toList.getD (x.val / 16) NUL ∧
    hex (x.val &&& 0xF) = "0123456789abcdef".toList.getD (x.val % 16) NUL ∧
    "0123456789abcdef".toList.getD (x.val / 16) NUL ∈ "0123456789abcdef".toList ∧
    "0123456789abcdef".toList.getD (x.val % 16) NUL ∈ "0123456789abcdef".toList ∧
    unhex ("0123456789abcdef".toList.getD (x.val / 16) NUL) * 16
      + unhex ("0123456789abcdef".toList.getD (x.val % 16) NUL) = x.val := by
  decide

theorem hex_digit_ne_NUL : ∀ c ∈ "0123456789abcdef".toList, (c != NUL) = true := by
  decide

/-- Every character of the rendering is one of `0123456789abcdef`. -/
theorem hex_render_digits (digest : sha1_digest) :
    ∀ c ∈ hex_render digest, c ∈ "0123456789abcdef".toList := by
  intro c hc
  simp only [hex_render, List.mem_flatMap, List.mem_cons, List.mem_singleton] at hc
  obtain ⟨i, _, hi⟩ := hc
  simp only [List.not_mem_nil, or_false] at hi
  rcases hi with rfl | rfl
  · exact (hex_byte_facts (digest i)).2.2.1
  · exact (hex_byte_facts (digest i)).2.2.2.1

theorem hex_render_length (digest : sha1_digest) : (hex_render digest).length = 40 := by
  unfold hex_render
  rw [flatMap_pair_length, List.length_finRange]
  rfl

/-- The rendering determines the digest. -/
theorem hex_render_inj (d1 d2 : sha1_digest) (h : hex_render d1 = hex_render d2) : d1 = d2 := by
  funext i
  obtain ⟨ha, hb⟩ := flatMap_pair_inj _ _ _ _ _ h i (List.mem_finRange i)
  have h1 := (hex_byte_facts (d1 i)).2.2.2.2
  have h2 := (hex_byte_facts (d2 i)).2.2.2.2
  apply Fin.ext
  rw [← h1, ← h2, ha, hb]

/-- The block written by the source holds the rendering followed by the
terminator. -/
theorem hexstr_fill_eq (digest : sha1_digest) (hexstr : List Char)
    (hlen : hexstr.length = APR_SHA1_DIGESTSIZE * 2 + 1) :
    hexstr_fill digest hexstr = hex_render digest ++ [NUL] := by
  have hloop := foldl_set_pair_range
    (fun i => hex (((digest (Fin.ofNat i)).val >>> 4) &&& 0xF))
    (fun i => hex ((digest (Fin.ofNat i)).val &&& 0xF))
    APR_SHA1_DIGESTSIZE hexstr (by omega)
  have hrender : (List.range APR_SHA1_DIGESTSIZE).flatMap
      (fun i => [hex (((digest (Fin.ofNat i)).val >>> 4) &&& 0xF),
                 hex ((digest (Fin.ofNat i)).val &&& 0xF)]) = hex_render digest := by
    have hfin : (List.range APR_SHA1_DIGESTSIZE).flatMap
        (fun i => [hex (((digest (Fin.ofNat i)).val >>> 4) &&& 0xF),
                   hex ((digest (Fin.ofNat i)).val &&& 0xF)])
        = (List.finRange APR_SHA1_DIGESTSIZE).flatMap
        (fun i => [hex (((digest i).val >>> 4) &&& 0xF), hex ((digest i).val &&& 0xF)]) := rfl
    have hfun : (fun i : Fin APR_SHA1_DIGESTSIZE =>
          [hex (((digest i).val >>> 4) &&& 0xF), hex ((digest i).val &&& 0xF)])
        = (fun i => ["0123456789abcdef".toList.getD ((digest i).val / 16) NUL,
                     "0123456789abcdef".toList.getD ((digest i).val % 16) NUL]) := by
      funext i
      rw [(hex_byte_facts (digest i)).1, (hex_byte_facts (digest i)).2.1]
    rw [hfin]
    exact congrArg (fun F => (List.finRange APR_SHA1_DIGESTSIZE).flatMap F) hfun
  obtain ⟨last, hdrop⟩ : ∃ last, hexstr.drop (APR_SHA1_DIGESTSIZE * 2) = [last] := by
    apply List.length_eq_one.mp
    rw [List.length_drop, hlen]
    omega
  have hrl : (hex_render digest).length = APR_SHA1_DIGESTSIZE * 2 := hex_render_length digest
  unfold hexstr_fill
  simp only []
  rw [hloop, hrender, hdrop, List.set_append_right _ _ (by omega), hrl, Nat.sub_self]
  rfl

theorem c_string_of_hexstr (digest : sha1_digest) :
    c_string_of (hex_render digest ++ [NUL]) = hex_render digest := by
  unfold c_string_of
  apply takeWhile_append_stop
  · intro c hc
    exact hex_digit_ne_NUL c (hex_render_digits digest c hc)
  · decide

/-- For strings shorter than `2 ^ 32` the hashed message is the concatenation
of the four fields. -/
theorem elevenlabs_cache_key_ctx_message (v m f t : c_string)
    (hv : v.length < 2 ^ 32) (hm : m.length < 2 ^ 32) (hf : f.length < 2 ^ 32)
    (ht : t.length < 2 ^ 32) :
    (elevenlabs_cache_key_ctx v m f t).message = v ++ m ++ f ++ t := by
  simp only [elevenlabs_cache_key_ctx, apr_sha1_update, apr_sha1_init, strlen_uint,
    Nat.mod_eq_of_lt hv, Nat.mod_eq_of_lt hm, Nat.mod_eq_of_lt hf, Nat.mod_eq_of_lt ht,
    List.take_length, List.nil_append]

/-- The key returned for non-`NULL` arguments. -/
theorem elevenlabs_cache_compute_key_some (sha1 : c_string → sha1_digest)
    (hexstr_mem : Nat → Char) (v m f t : c_string) :
    elevenlabs_cache_compute_key sha1 hexstr_mem (some ()) (some v) (some m) (some f) (some t)
      (some ()) = some (hex_render (sha1 (elevenlabs_cache_key_ctx v m f t).message)) := by
  show some (c_string_of (hexstr_fill (sha1 (elevenlabs_cache_key_ctx v m f t).message)
    ((List.range (APR_SHA1_DIGESTSIZE * 2 + 1)).map hexstr_mem))) = _
  rw [hexstr_fill_eq _ _ (by rw [List.length_map, List.length_range]), c_string_of_hexstr]

/-- Two fingerprints of non-`NULL` arguments coincide only if the digests of
the two hashed messages coincide. -/
theorem cache_fingerprint_eq (sha1 : c_string → sha1_digest) (hexstr_mem : Nat → Char)
    (v m f t v2 m2 f2 t2 : c_string)
    (h : cache_fingerprint sha1 hexstr_mem v m f t = cache_fingerprint sha1 hexstr_mem v2 m2 f2 t2) :
    sha1 (elevenlabs_cache_key_ctx v m f t).message
      = sha1 (elevenlabs_cache_key_ctx v2 m2 f2 t2).message := by
  unfold cache_fingerprint at h
  rw [elevenlabs_cache_compute_key_some, elevenlabs_cache_compute_key_some] at h
  exact hex_render_inj _ _ (Option.some.inj h)

/-! ## The cache fingerprint: the claims -/

/-- C8 (fingerprint). For all non-`NULL` voice, model, format and text (each
shorter than `2 ^ 32` characters, the range of the `unsigned int` length),
`elevenlabs_cache_compute_key` succeeds and returns the rendering of the SHA-1
digest of the concatenation voice, model, format, text, in that order: 40
characters, two per digest byte, high nibble first, all of them among
`0123456789abcdef`.  The key is a function of the four strings alone (it does
not depend on the uninitialised memory it is built in), and the call fails
exactly when an argument is `NULL`. -/
theorem elevenlabs_cache_compute_key_sha1_hex (sha1 : c_string → sha1_digest)
    (hexstr_mem : Nat → Char) (v m f t : c_string)
    (hv : v.length < 2 ^ 32) (hm : m.length < 2 ^ 32) (hf : f.length < 2 ^ 32)
    (ht : t.length < 2 ^ 32) :
    elevenlabs_cache_compute_key sha1 hexstr_mem (some ()) (some v) (some m) (some f) (some t)
      (some ()) = some (hex_render (sha1 (v ++ m ++ f ++ t))) ∧
    (hex_render (sha1 (v ++ m ++ f ++ t))).length = 40 ∧
    (∀ c ∈ hex_render (sha1 (v ++ m ++ f ++ t)), c ∈ "0123456789abcdef".toList) ∧
    (∀ other_mem : Nat → Char,
      elevenlabs_cache_compute_key sha1 other_mem (some ()) (some v) (some m) (some f) (some t)
        (some ())
      = elevenlabs_cache_compute_key sha1 hexstr_mem (some ()) (some v) (some m) (some f)
        (some t) (some ())) ∧
    (∀ (pool : Option Unit) (voice_id model_id output_format text : Option c_string)
       (out_key_hex : Option Unit),
      elevenlabs_cache_compute_key sha1 hexstr_mem pool voice_id model_id output_format text
        out_key_hex = none ↔
      (pool = none ∨ voice_id = none ∨ model_id = none ∨ output_format = none ∨ text = none ∨
        out_key_hex = none)) := by
  refine ⟨?_, hex_render_length _, hex_render_digits _, ?_, ?_⟩
  · rw [elevenlabs_cache_compute_key_some, elevenlabs_cache_key_ctx_message v m f t hv hm hf ht]
  · intro other_mem
    rw [elevenlabs_cache_compute_key_some, elevenlabs_cache_compute_key_some]
  · intro pool voice_id model_id output_format text out_key_hex
    cases pool <;> cases voice_id <;> cases model_id <;> cases output_format <;> cases text <;>
      cases out_key_hex <;> simp [elevenlabs_cache_compute_key]

/-- Witness for C8: a concrete request, with a stand-in for the digest
function. -/
theorem elevenlabs_cache_compute_key_sha1_hex_witness :
    elevenlabs_cache_compute_key (fun msg _ => Fin.ofNat msg.length) (fun _ => NUL) (some ())
      (some "Rachel".toList) (some "eleven_v2".toList) (some "ulaw_8000".toList)
      (some "hello".toList) (some ())
    = some (hex_render ((fun msg _ => Fin.ofNat msg.length)
        ("Rachel".toList ++ "eleven_v2".toList ++ "ulaw_8000".toList ++ "hello".toList))) :=
  (elevenlabs_cache_compute_key_sha1_hex (fun msg _ => Fin.ofNat msg.length) (fun _ => NUL)
    "Rachel".toList "eleven_v2".toList "ulaw_8000".toList "hello".toList
    (by decide) (by decide) (by decide) (by decide)).1

/-- C9 as stated fails: the tuples with voice "ab", model "c" and with voice
"a", model "bc" (same format and text) are different, yet the same byte string
is fed to the hash. -/
theorem cache_key_fields_run_together :
    ("ab".toList, "c".toList, "pcm_8000".toList, "hi".toList)
      ≠ ("a".toList, "bc".toList, "pcm_8000".toList, "hi".toList) ∧
    (elevenlabs_cache_key_ctx "ab".toList "c".toList "pcm_8000".toList "hi".toList).message
      = (elevenlabs_cache_key_ctx "a".toList "bc".toList "pcm_8000".toList "hi".toList).message := by
  decide

/-- C9 as amended. The byte string fed to the hash is the concatenation of the
four fields, so two tuples feed the same byte string exactly when their
concatenations are equal.  In particular two unequal tuples whose voice, model
and format fields have pairwise equal lengths feed different byte strings, and
their fingerprints coincide only through a SHA-1 collision.  (All strings
shorter than `2 ^ 32` characters.) -/
theorem cache_key_distinct_when_lengths_agree (sha1 : c_string → sha1_digest)
    (hexstr_mem : Nat → Char) (v m f t v2 m2 f2 t2 : c_string)
    (hv : v.length < 2 ^ 32) (hm : m.length < 2 ^ 32) (hf : f.length < 2 ^ 32)
    (ht : t.length < 2 ^ 32) (hv2 : v2.length < 2 ^ 32) (hm2 : m2.length < 2 ^ 32)
    (hf2 : f2.length < 2 ^ 32) (ht2 : t2.length < 2 ^ 32) :
    ((elevenlabs_cache_key_ctx v m f t).message = (elevenlabs_cache_key_ctx v2 m2 f2 t2).message
      ↔ v ++ m ++ f ++ t = v2 ++ m2 ++ f2 ++ t2) ∧
    (v.length = v2.length → m.length = m2.length → f.length = f2.length →
      (v, m, f, t) ≠ (v2, m2, f2, t2) →
      (elevenlabs_cache_key_ctx v m f t).message ≠ (elevenlabs_cache_key_ctx v2 m2 f2 t2).message ∧
      (cache_fingerprint sha1 hexstr_mem v m f t = cache_fingerprint sha1 hexstr_mem v2 m2 f2 t2 →
        sha1_collision sha1 (elevenlabs_cache_key_ctx v m f t).message
          (elevenlabs_cache_key_ctx v2 m2 f2 t2).message)) := by
  have h1 := elevenlabs_cache_key_ctx_message v m f t hv hm hf ht
  have h2 := elevenlabs_cache_key_ctx_message v2 m2 f2 t2 hv2 hm2 hf2 ht2
  refine ⟨by rw [h1, h2], ?_⟩
  intro hlv hlm hlf hne
  have hmsg : (elevenlabs_cache_key_ctx v m f t).message
      ≠ (elevenlabs_cache_key_ctx v2 m2 f2 t2).message := by
    rw [h1, h2]
    intro heq
    have hlen3 : (v ++ m ++ f).length = (v2 ++ m2 ++ f2).length := by
      simp only [List.length_append]; omega
    obtain ⟨h3, ht⟩ := List.append_inj heq hlen3
    have hlen2 : (v ++ m).length = (v2 ++ m2).length := by
      simp only [List.length_append]; omega
    obtain ⟨h4, hf⟩ := List.append_inj h3 hlen2
    obtain ⟨hv, hm⟩ := List.append_inj h4 hlv
    exact hne (by rw [hv, hm, hf, ht])
  exact ⟨hmsg, fun hkey => ⟨hmsg, cache_fingerprint_eq _ _ _ _ _ _ _ _ _ _ hkey⟩⟩

/-- Witness for C9 as amended: two requests that differ in the voice only,
with a stand-in for the digest function. -/
theorem cache_key_distinct_when_lengths_agree_witness :
    (elevenlabs_cache_key_ctx "ab".toList "c".toList "pcm_8000".toList "hi".toList).message
      ≠ (elevenlabs_cache_key_ctx "xy".toList "c".toList "pcm_8000".toList "hi".toList).message :=
  ((cache_key_distinct_when_lengths_agree (fun msg _ => Fin.ofNat msg.length) (fun _ => NUL)
    "ab".toList "c".toList "pcm_8000".toList "hi".toList
    "xy".toList "c".toList "pcm_8000".toList "hi".toList
    (by decide) (by decide) (by decide) (by decide) (by decide) (by decide) (by decide)
    (by decide)).2 (by decide) (by decide) (by decide) (by decide)).1

/-- C10 (one field changed). For every tuple (voice, model, format, text) and
every replacement `x` of exactly one of its fields by a different string, the
byte string hashed by `elevenlabs_cache_compute_key` changes, so the
fingerprint changes unless SHA-1 collides on the two byte strings.  (All
strings shorter than `2 ^ 32` characters.) -/
theorem cache_key_changes_with_one_field (sha1 : c_string → sha1_digest)
    (hexstr_mem : Nat → Char) (v m f t x : c_string)
    (hv : v.length < 2 ^ 32) (hm : m.length < 2 ^ 32) (hf : f.length < 2 ^ 32)
    (ht : t.length < 2 ^ 32) (hx : x.length < 2 ^ 32) :
    (x ≠ v →
      (elevenlabs_cache_key_ctx x m f t).message ≠ (elevenlabs_cache_key_ctx v m f t).message ∧
      (cache_fingerprint sha1 hexstr_mem x m f t = cache_fingerprint sha1 hexstr_mem v m f t →
        sha1_collision sha1 (elevenlabs_cache_key_ctx x m f t).message
          (elevenlabs_cache_key_ctx v m f t).message)) ∧
    (x ≠ m →
      (elevenlabs_cache_key_ctx v x f t).message ≠ (elevenlabs_cache_key_ctx v m f t).message ∧
      (cache_fingerprint sha1 hexstr_mem v x f t = cache_fingerprint sha1 hexstr_mem v m f t →
        sha1_collision sha1 (elevenlabs_cache_key_ctx v x f t).message
          (elevenlabs_cache_key_ctx v m f t).message)) ∧
    (x ≠ f →
      (elevenlabs_cache_key_ctx v m x t).message ≠ (elevenlabs_cache_key_ctx v m f t).message ∧
      (cache_fingerprint sha1 hexstr_mem v m x t = cache_fingerprint sha1 hexstr_mem v m f t →
        sha1_collision sha1 (elevenlabs_cache_key_ctx v m x t).message
          (elevenlabs_cache_key_ctx v m f t).message)) ∧
    (x ≠ t →
      (elevenlabs_cache_key_ctx v m f x).message ≠ (elevenlabs_cache_key_ctx v m f t).message ∧
      (cache_fingerprint sha1 hexstr_mem v m f x = cache_fingerprint sha1 hexstr_mem v m f t →
        sha1_collision sha1 (elevenlabs_cache_key_ctx v m f x).message
          (elevenlabs_cache_key_ctx v m f t).message)) := by
  have h0 := elevenlabs_cache_key_ctx_message v m f t hv hm hf ht
  have h1 := elevenlabs_cache_key_ctx_message x m f t hx hm hf ht
  have h2 := elevenlabs_cache_key_ctx_message v x f t hv hx hf ht
  have h3 := elevenlabs_cache_key_ctx_message v m x t hv hm hx ht
  have h4 := elevenlabs_cache_key_ctx_message v m f x hv hm hf hx
  refine ⟨fun hne => ?_, fun hne => ?_, fun hne => ?_, fun hne => ?_⟩
  · have hmsg : (elevenlabs_cache_key_ctx x m f t).message
        ≠ (elevenlabs_cache_key_ctx v m f t).message := by
      rw [h1, h0]
      intro heq
      exact hne (List.append_cancel_right (List.append_cancel_right
        (List.append_cancel_right heq)))
    exact ⟨hmsg, fun hkey => ⟨hmsg, cache_fingerprint_eq _ _ _ _ _ _ _ _ _ _ hkey⟩⟩
  · have hmsg : (elevenlabs_cache_key_ctx v x f t).message
        ≠ (elevenlabs_cache_key_ctx v m f t).message := by
      rw [h2, h0]
      intro heq
      exact hne (List.append_cancel_left (List.append_cancel_right
        (List.append_cancel_right heq)))
    exact ⟨hmsg, fun hkey => ⟨hmsg, cache_fingerprint_eq _ _ _ _ _ _ _ _ _ _ hkey⟩⟩
  · have hmsg : (elevenlabs_cache_key_ctx v m x t).message
        ≠ (elevenlabs_cache_key_ctx v m f t).message := by
      rw [h3, h0]
      intro heq
      exact hne (List.append_cancel_left (List.append_cancel_right heq))
    exact ⟨hmsg, fun hkey => ⟨hmsg, cache_fingerprint_eq _ _ _ _ _ _ _ _ _ _ hkey⟩⟩
  · have hmsg : (elevenlabs_cache_key_ctx v m f x).message
        ≠ (elevenlabs_cache_key_ctx v m f t).message := by
      rw [h4, h0]
      intro heq
      exact hne (List.append_cancel_left heq)
    exact ⟨hmsg, fun hkey => ⟨hmsg, cache_fingerprint_eq _ _ _ _ _ _ _ _ _ _ hkey⟩⟩

/-- Witness for C10: the text "hello" replaced by "hellp". -/
theorem cache_key_changes_with_one_field_witness :
    (elevenlabs_cache_key_ctx "Rachel".toList "eleven_v2".toList "ulaw_8000".toList
        "hellp".toList).message
      ≠ (elevenlabs_cache_key_ctx "Rachel".toList "eleven_v2".toList "ulaw_8000".toList
        "hello".toList).message :=
  ((cache_key_changes_with_one_field (fun msg _ => Fin.ofNat msg.length) (fun _ => NUL)
    "Rachel".toList "eleven_v2".toList "ulaw_8000".toList "hello".toList "hellp".toList
    (by decide) (by decide) (by decide) (by decide) (by decide)).2.2.2 (by decide)).1

/-! ## The container header: lemmas -/

theorem u32_bytes_mod (x : Nat) : u32_bytes (x % 4294967296) = u32_bytes x := by
  unfold u32_bytes
  have h0 : x % 4294967296 % 256 = x % 256 := by omega
  have h1 : x % 4294967296 / 256 % 256 = x / 256 % 256 := by omega
  have h2 : x % 4294967296 / 65536 % 256 = x / 65536 % 256 := by omega
  have h3 : x % 4294967296 / 16777216 % 256 = x / 16777216 % 256 := by omega
  rw [h0, h1, h2, h3]

theorem u16_bytes_mod (x : Nat) : u16_bytes (x % 65536) = u16_bytes x := by
  unfold u16_bytes
  have h0 : x % 65536 % 256 = x % 256 := by omega
  have h1 : x % 65536 / 256 % 256 = x / 256 % 256 := by omega
  rw [h0, h1]

/-- A `memcpy` of a whole source block right behind the part `a` of a block
`a ++ z`. -/
theorem memcpy_append_at (a z src : List uint8_t) (off n : Nat) (hoff : off = a.length)
    (hsrc : src.length = n) :
    memcpy (a ++ z) off src n = (a ++ src) ++ z.drop n := by
  subst hoff hsrc
  unfold memcpy
  rw [List.take_left, List.take_length, List.drop_append, List.append_assoc]

theorem u32_bytes_length (x : Nat) : (u32_bytes x).length = 4 := rfl

theorem u16_bytes_length (x : Nat) : (u16_bytes x).length = 2 := rfl

/-- The block built by the sequence of `memcpy` calls is the concatenation of
its fields. -/
theorem wav_header_eq_layout (output_format : Option c_string) (fallback_ulaw_to_pcm : Bool)
    (n : Nat) :
    wav_header output_format fallback_ulaw_to_pcm n
      = wav_header_layout n
          (wav_audio_format (wav_header_format output_format fallback_ulaw_to_pcm))
          (wav_header_format output_format fallback_ulaw_to_pcm).sr
          (wav_sample_bytes (wav_header_format output_format fallback_ulaw_to_pcm)) := by
  have hn1 : u32_bytes (n % 4294967296) = u32_bytes n := u32_bytes_mod n
  have hn2 : u32_bytes ((36 + n % 4294967296) % 4294967296) = u32_bytes (n + 36) := by
    rw [u32_bytes_mod, ← u32_bytes_mod (n + 36)]
    conv_lhs => rw [← u32_bytes_mod]
    congr 1
    omega
  have hbits : (if (wav_header_format output_format fallback_ulaw_to_pcm).is_pcm = true
      then 16 else 8)
      = 8 * wav_sample_bytes (wav_header_format output_format fallback_ulaw_to_pcm) := by
    unfold wav_sample_bytes
    split <;> rfl
  have hR : (str_bytes "RIFF").length = 4 := rfl
  have hW : (str_bytes "WAVE").length = 4 := rfl
  have hF : (str_bytes "fmt ").length = 4 := rfl
  have hD : (str_bytes "data").length = 4 := rfl
  unfold wav_header wav_header_layout
  simp only [hn1, hn2, hbits, u32_bytes_mod, u16_bytes_mod, Nat.mul_one, Nat.one_mul]
  generalize (wav_audio_format (wav_header_format output_format fallback_ulaw_to_pcm)) = tag
  generalize (wav_header_format output_format fallback_ulaw_to_pcm).sr = r
  generalize (wav_sample_bytes (wav_header_format output_format fallback_ulaw_to_pcm)) = b
  have h0 := memcpy_append_at [] (List.replicate 44 0) (str_bytes "RIFF") 0 4 rfl hR
  rw [List.nil_append, List.nil_append, List.drop_replicate] at h0
  rw [h0,
    memcpy_append_at _ _ _ 4 4 (by simp only [List.length_append, hR])
      (u32_bytes_length _), List.drop_replicate,
    memcpy_append_at _ _ _ 8 4 (by simp only [List.length_append, hR, u32_bytes_length])
      hW, List.drop_replicate,
    memcpy_append_at _ _ _ 12 4
      (by simp only [List.length_append, hR, hW, u32_bytes_length]) hF, List.drop_replicate,
    memcpy_append_at _ _ _ 16 4
      (by simp only [List.length_append, hR, hW, hF, u32_bytes_length])
      (u32_bytes_length _), List.drop_replicate,
    memcpy_append_at _ _ _ 20 2
      (by simp only [List.length_append, hR, hW, hF, u32_bytes_length])
      (u16_bytes_length _), List.drop_replicate,
    memcpy_append_at _ _ _ 22 2
      (by simp only [List.length_append, hR, hW, hF, u32_bytes_length, u16_bytes_length])
      (u16_bytes_length _), List.drop_replicate,
    memcpy_append_at _ _ _ 24 4
      (by simp only [List.length_append, hR, hW, hF, u32_bytes_length, u16_bytes_length])
      (u32_bytes_length _), List.drop_replicate,
    memcpy_append_at _ _ _ 28 4
      (by simp only [List.length_append, hR, hW, hF, u32_bytes_length, u16_bytes_length])
      (u32_bytes_length _), List.drop_replicate,
    memcpy_append_at _ _ _ 32 2
      (by simp only [List.length_append, hR, hW, hF, u32_bytes_length, u16_bytes_length])
      (u16_bytes_length _), List.drop_replicate,
    memcpy_append_at _ _ _ 34 2
      (by simp only [List.length_append, hR, hW, hF, u32_bytes_length, u16_bytes_length])
      (u16_bytes_length _), List.drop_replicate,
    memcpy_append_at _ _ _ 36 4
      (by simp only [List.length_append, hR, hW, hF, u32_bytes_length, u16_bytes_length])
      hD, List.drop_replicate,
    memcpy_append_at _ _ _ 40 4
      (by simp only [List.length_append, hR, hW, hF, hD, u32_bytes_length, u16_bytes_length])
      (u32_bytes_length _), List.drop_replicate]
  simp only [Nat.reduceSub, List.replicate, List.append_nil]

theorem u32_value_bytes (x : Nat) (hx : x < 4294967296) : u32_value (u32_bytes x) = x := by
  simp only [u32_value, u32_bytes, List.getD_cons_zero, List.getD_cons_succ, Fin.ofNat,
    Fin.val_mk]
  omega

theorem u16_value_bytes (x : Nat) (hx : x < 65536) : u16_value (u16_bytes x) = x := by
  simp only [u16_value, u16_bytes, List.getD_cons_zero, List.getD_cons_succ, Fin.ofNat,
    Fin.val_mk]
  omega

/-- The tag field (offset 20) and the bits-per-sample field (offset 34) of the
header. -/
theorem wav_header_tag_bits (output_format : Option c_string) (fallback_ulaw_to_pcm : Bool)
    (n : Nat) :
    ((wav_header output_format fallback_ulaw_to_pcm n).drop 20).take 2
      = u16_bytes (wav_audio_format (wav_header_format output_format fallback_ulaw_to_pcm)) ∧
    ((wav_header output_format fallback_ulaw_to_pcm n).drop 34).take 2
      = u16_bytes
          (8 * wav_sample_bytes (wav_header_format output_format fallback_ulaw_to_pcm)) := by
  rw [wav_header_eq_layout]
  constructor <;> rfl

/-- The three family flags in terms of the three prefix tests. -/
theorem wav_header_format_flags (fmt : c_string) (fallback_ulaw_to_pcm : Bool) :
    (wav_header_format (some fmt) fallback_ulaw_to_pcm).is_pcm
      = (strncasecmp_eq fmt "pcm_".toList 4
          || ((strncasecmp_eq fmt "ulaw_".toList 5 || strncasecmp_eq fmt "alaw_".toList 5)
              && fallback_ulaw_to_pcm)) ∧
    (wav_header_format (some fmt) fallback_ulaw_to_pcm).is_ulaw
      = (!strncasecmp_eq fmt "pcm_".toList 4 && strncasecmp_eq fmt "ulaw_".toList 5
          && !fallback_ulaw_to_pcm) ∧
    (wav_header_format (some fmt) fallback_ulaw_to_pcm).is_alaw
      = (!strncasecmp_eq fmt "pcm_".toList 4 && !strncasecmp_eq fmt "ulaw_".toList 5
          && strncasecmp_eq fmt "alaw_".toList 5 && !fallback_ulaw_to_pcm) := by
  unfold wav_header_format
  simp only [show "pcm_".toList = ['p', 'c', 'm', '_'] from rfl,
    show "ulaw_".toList = ['u', 'l', 'a', 'w', '_'] from rfl,
    show "alaw_".toList = ['a', 'l', 'a', 'w', '_'] from rfl]
  generalize strncasecmp_eq fmt ['p', 'c', 'm', '_'] 4 = p
  generalize strncasecmp_eq fmt ['u', 'l', 'a', 'w', '_'] 5 = u
  generalize strncasecmp_eq fmt ['a', 'l', 'a', 'w', '_'] 5 = a
  cases hs : strrchr_tail fmt '_' with
  | none => cases p <;> cases u <;> cases a <;> cases fallback_ulaw_to_pcm <;> simp
  | some t =>
    cases t with
    | nil => cases p <;> cases u <;> cases a <;> cases fallback_ulaw_to_pcm <;> simp
    | cons c rest => cases p <;> cases u <;> cases a <;> cases fallback_ulaw_to_pcm <;> simp

/-- The sample rate in terms of the text after the last underscore. -/
theorem wav_header_format_sr (fmt : c_string) (fallback_ulaw_to_pcm : Bool) :
    (wav_header_format (some fmt) fallback_ulaw_to_pcm).sr
      = match strrchr_tail fmt '_' with
        | some (c :: rest) => to_unsigned (atoi (c :: rest))
        | _ => 8000 := by
  unfold wav_header_format
  simp only [show "pcm_".toList = ['p', 'c', 'm', '_'] from rfl,
    show "ulaw_".toList = ['u', 'l', 'a', 'w', '_'] from rfl,
    show "alaw_".toList = ['a', 'l', 'a', 'w', '_'] from rfl]
  generalize strncasecmp_eq fmt ['p', 'c', 'm', '_'] 4 = p
  generalize strncasecmp_eq fmt ['u', 'l', 'a', 'w', '_'] 5 = u
  generalize strncasecmp_eq fmt ['a', 'l', 'a', 'w', '_'] 5 = a
  cases hs : strrchr_tail fmt '_' with
  | none => cases p <;> cases u <;> cases a <;> cases fallback_ulaw_to_pcm <;> simp
  | some t =>
    cases t with
    | nil => cases p <;> cases u <;> cases a <;> cases fallback_ulaw_to_pcm <;> simp
    | cons c rest => cases p <;> cases u <;> cases a <;> cases fallback_ulaw_to_pcm <;> simp

/-- A name that begins with `family` up to case has the lower-cased first
characters of `family`. -/
theorem begins_with_ci_take (family : String) (fmt : c_string)
    (h : begins_with_ci family fmt) (k : Nat) (hk : k ≤ family.length) :
    (fmt.take k).map Char.toLower = (family.toList.map Char.toLower).take k := by
  obtain ⟨rest, hrest⟩ := h
  rw [List.map_take, hrest, List.take_append_of_le_length]
  rw [List.length_map]
  exact hk

theorem strrchr_tail_none (s : c_string) (c : Char) (h : c ∉ s) : strrchr_tail s c = none := by
  unfold strrchr_tail
  have : s.contains c = false := by
    simpa [List.contains] using h
  rw [this]
  rfl

theorem strrchr_tail_some (pre t : c_string) (c : Char) (h : c ∉ t) :
    strrchr_tail (pre ++ c :: t) c = some t := by
  unfold strrchr_tail
  have hc : (pre ++ c :: t).contains c = true := by
    simp [List.contains]
  have hrev : (pre ++ c :: t).reverse = t.reverse ++ c :: pre.reverse := by
    simp
  rw [hc, hrev, takeWhile_append_stop]
  · simp
  · intro x hx
    have hx1 : x ∈ t := List.mem_reverse.mp hx
    simp only [bne_iff_ne, ne_eq]
    intro hxc
    exact h (hxc ▸ hx1)
  · simp

theorem digit_char_facts : ∀ d < 10,
    (digit_char d).isDigit = true ∧ isspace (digit_char d) = false ∧
    digit_char d ≠ '-' ∧ digit_char d ≠ '+' ∧ digit_char d ≠ '_' ∧
    (digit_char d).toNat - 48 = d := by
  decide

/-- The digit loop of `atoi` on a string of decimal digits. -/
theorem atoi_digits_map (ds : List Nat) (h : ∀ d ∈ ds, d < 10) :
    atoi_digits (ds.map digit_char) = Nat.ofDigits 10 ds.reverse := by
  unfold atoi_digits
  have hall : (ds.map digit_char).takeWhile Char.isDigit = ds.map digit_char := by
    rw [List.takeWhile_eq_self_iff]
    intro c hc
    obtain ⟨d, hd, rfl⟩ := List.mem_map.mp hc
    exact (digit_char_facts d (h d hd)).1
  rw [hall]
  induction ds using List.reverseRecOn with
  | nil => rfl
  | append_singleton l x ih =>
    have hl : ∀ d ∈ l, d < 10 := fun d hd => h d (List.mem_append_left _ hd)
    have hx : x < 10 := h x (List.mem_append_right _ (List.mem_singleton_self x))
    have hall' : (l.map digit_char).takeWhile Char.isDigit = l.map digit_char := by
      rw [List.takeWhile_eq_self_iff]
      intro c hc
      obtain ⟨d, hd, rfl⟩ := List.mem_map.mp hc
      exact (digit_char_facts d (hl d hd)).1
    rw [List.map_append, List.foldl_append, ih hl hall', List.reverse_append]
    simp only [List.map_cons, List.map_nil, List.foldl_cons, List.foldl_nil,
      List.reverse_singleton, List.singleton_append, Nat.ofDigits_cons,
      (digit_char_facts x hx).2.2.2.2.2]
    ring

/-- The function `atoi` on a non-empty string of decimal digits. -/
theorem atoi_of_digits (ds : List Nat) (hne : ds ≠ []) (h : ∀ d ∈ ds, d < 10) :
    atoi (ds.map digit_char) = (Nat.ofDigits 10 ds.reverse : Nat) := by
  cases ds with
  | nil => exact absurd rfl hne
  | cons d rest =>
    have hd := digit_char_facts d (h d (List.mem_cons_self _ _))
    have hval := atoi_digits_map (d :: rest) h
    rw [List.map_cons] at hval ⊢
    unfold atoi
    have hdrop : (digit_char d :: rest.map digit_char).dropWhile isspace
        = digit_char d :: rest.map digit_char := by
      rw [List.dropWhile_cons, hd.2.1]
      rfl
    rw [hdrop]
    split
    · rename_i heq
      exact absurd (List.cons.inj heq).1 hd.2.2.1
    · rename_i heq
      exact absurd (List.cons.inj heq).1 hd.2.2.2.1
    · rw [hval]

/-- The sample rate for a format name that ends in an underscore followed by
decimal digits. -/
theorem wav_header_format_sr_digits (pre : c_string) (ds : List Nat) (fb : Bool)
    (hne : ds ≠ []) (h : ∀ d ∈ ds, d < 10) (hval : Nat.ofDigits 10 ds.reverse < 2147483648) :
    (wav_header_format (some (pre ++ '_' :: ds.map digit_char)) fb).sr
      = Nat.ofDigits 10 ds.reverse := by
  have hnot : '_' ∉ ds.map digit_char := by
    intro hm
    obtain ⟨d, hd, hdc⟩ := List.mem_map.mp hm
    exact (digit_char_facts d (h d hd)).2.2.2.2.1 hdc
  rw [wav_header_format_sr, strrchr_tail_some pre _ '_' hnot]
  cases ds with
  | nil => exact absurd rfl hne
  | cons d rest =>
    rw [List.map_cons]
    simp only []
    rw [← List.map_cons, atoi_of_digits (d :: rest) hne h]
    unfold to_unsigned
    have hmod : ((Nat.ofDigits 10 (d :: rest).reverse : Nat) : Int) % 4294967296
        = ((Nat.ofDigits 10 (d :: rest).reverse : Nat) : Int) := by
      apply Int.emod_eq_of_lt
      · exact Int.ofNat_nonneg _
      · omega
    rw [hmod, Int.toNat_ofNat]

/-! ## The container header: the claims -/

/-- C19 as stated fails: for the output format `pcm_x` no decimal number
follows the last underscore, yet the rate field of the header holds 0, not
8000 (`atoi` of a text without leading digits is 0). -/
theorem wav_header_rate_of_text_suffix :
    (wav_header_format (some "pcm_x".toList) false).sr = 0 ∧
    ((wav_header (some "pcm_x".toList) false 1000).drop 24).take 4 = u32_bytes 0 ∧
    u32_bytes 0 ≠ u32_bytes 8000 := by
  decide

/-- C19 as amended. For every committed framed entry with `n` payload bytes
(`n < 2 ^ 32 - 36`), the block written at offset 0 is exactly 44 bytes:
'RIFF', `n + 36` as 32-bit little-endian, 'WAVE', 'fmt ', 16 as 32-bit, the
format tag as 16-bit, channel count 1 as 16-bit, the sample rate `r` as
32-bit, the byte rate `r * b` as 32-bit, block align `b` as 16-bit, bits per
sample `8 * b` as 16-bit, 'data', and `n` as 32-bit, where `b` is 2 when the
code decides on a PCM header and 1 otherwise.  The rate `r` is 8000 when the
format has no underscore or nothing after its last underscore; otherwise it is
`(unsigned)atoi` of the text after the last underscore: the decimal number
when that text is a string of digits (value below `2 ^ 31`), and in general
the value of its leading digits after optional white space and sign, 0 when
there are none. -/
theorem wav_header_fields (output_format : Option c_string) (fallback_ulaw_to_pcm : Bool)
    (n : Nat) (hn : n < 4294967296 - 36) :
    wav_header output_format fallback_ulaw_to_pcm n
      = wav_header_layout n
          (wav_audio_format (wav_header_format output_format fallback_ulaw_to_pcm))
          (wav_header_format output_format fallback_ulaw_to_pcm).sr
          (wav_sample_bytes (wav_header_format output_format fallback_ulaw_to_pcm)) ∧
    (wav_header output_format fallback_ulaw_to_pcm n).length = 44 ∧
    u32_value (((wav_header output_format fallback_ulaw_to_pcm n).drop 4).take 4) = n + 36 ∧
    u32_value (((wav_header output_format fallback_ulaw_to_pcm n).drop 40).take 4) = n ∧
    wav_sample_bytes (wav_header_format output_format fallback_ulaw_to_pcm)
      = (if (wav_header_format output_format fallback_ulaw_to_pcm).is_pcm then 2 else 1) ∧
    (∀ fmt : c_string, output_format = some fmt → '_' ∉ fmt →
      (wav_header_format output_format fallback_ulaw_to_pcm).sr = 8000) ∧
    (∀ pre : c_string, output_format = some (pre ++ ['_']) →
      (wav_header_format output_format fallback_ulaw_to_pcm).sr = 8000) ∧
    (∀ (pre : c_string) (ds : List Nat),
      output_format = some (pre ++ '_' :: ds.map digit_char) → ds ≠ [] → (∀ d ∈ ds, d < 10) →
      Nat.ofDigits 10 ds.reverse < 2147483648 →
      (wav_header_format output_format fallback_ulaw_to_pcm).sr
        = Nat.ofDigits 10 ds.reverse) ∧
    (∀ pre tail : c_string, output_format = some (pre ++ '_' :: tail) → '_' ∉ tail →
      tail ≠ [] →
      (wav_header_format output_format fallback_ulaw_to_pcm).sr = to_unsigned (atoi tail)) := by
  have hlay := wav_header_eq_layout output_format fallback_ulaw_to_pcm n
  refine ⟨hlay, ?_, ?_, ?_, rfl, ?_, ?_, ?_, ?_⟩
  · rw [hlay]; rfl
  · rw [hlay]
    exact u32_value_bytes (n + 36) (by omega)
  · rw [hlay]
    exact u32_value_bytes n (by omega)
  · intro fmt hfmt hno
    rw [hfmt, wav_header_format_sr, strrchr_tail_none fmt '_' hno]
  · intro pre hfmt
    rw [hfmt, wav_header_format_sr, strrchr_tail_some pre [] '_' (List.not_mem_nil _)]
  · intro pre ds hfmt hne hds hval
    rw [hfmt]
    exact wav_header_format_sr_digits pre ds fallback_ulaw_to_pcm hne hds hval
  · intro pre tail hfmt hno hne
    rw [hfmt, wav_header_format_sr, strrchr_tail_some pre tail '_' hno]
    cases tail with
    | nil => exact absurd rfl hne
    | cons c rest => rfl

/-- Witness for C19 as amended: the header of 1000 payload bytes of `pcm_16000`. -/
theorem wav_header_fields_witness :
    wav_header (some "pcm_16000".toList) false 1000
      = wav_header_layout 1000 1 16000 2 ∧
    u32_value (((wav_header (some "pcm_16000".toList) false 1000).drop 4).take 4)
      = 1000 + 36 :=
  ⟨by decide,
   (wav_header_fields (some "pcm_16000".toList) false 1000 (by decide)).2.2.1⟩

/-- C20 (format tag). The tag field of the header holds 1, with 16 bits per
sample, when the output format begins with `pcm_`, or begins with `ulaw_` or
`alaw_` while `fallback_ulaw_to_pcm` is set; it holds 7, with 8 bits per
sample, when the format begins with `ulaw_` and the flag is clear; it holds 6,
with 8 bits per sample, when the format begins with `alaw_` and the flag is
clear (letter case of the beginning ignored).  For every output format the tag
is one of 1, 7, 6. -/
theorem wav_header_tag (fmt : c_string) (fallback_ulaw_to_pcm : Bool) (n : Nat) :
    (begins_with_ci "pcm_" fmt ∨
      ((begins_with_ci "ulaw_" fmt ∨ begins_with_ci "alaw_" fmt) ∧ fallback_ulaw_to_pcm = true) →
      u16_value (((wav_header (some fmt) fallback_ulaw_to_pcm n).drop 20).take 2) = 1 ∧
      u16_value (((wav_header (some fmt) fallback_ulaw_to_pcm n).drop 34).take 2) = 16) ∧
    (begins_with_ci "ulaw_" fmt ∧ fallback_ulaw_to_pcm = false →
      u16_value (((wav_header (some fmt) fallback_ulaw_to_pcm n).drop 20).take 2) = 7 ∧
      u16_value (((wav_header (some fmt) fallback_ulaw_to_pcm n).drop 34).take 2) = 8) ∧
    (begins_with_ci "alaw_" fmt ∧ fallback_ulaw_to_pcm = false →
      u16_value (((wav_header (some fmt) fallback_ulaw_to_pcm n).drop 20).take 2) = 6 ∧
      u16_value (((wav_header (some fmt) fallback_ulaw_to_pcm n).drop 34).take 2) = 8) ∧
    (∀ output_format : Option c_string,
      u16_value (((wav_header output_format fallback_ulaw_to_pcm n).drop 20).take 2) = 1 ∨
      u16_value (((wav_header output_format fallback_ulaw_to_pcm n).drop 20).take 2) = 7 ∨
      u16_value (((wav_header output_format fallback_ulaw_to_pcm n).drop 20).take 2) = 6) := by
  obtain ⟨hp, hu, ha⟩ := wav_header_format_flags fmt fallback_ulaw_to_pcm
  obtain ⟨htag, hbits⟩ := wav_header_tag_bits (some fmt) fallback_ulaw_to_pcm n
  rw [htag, hbits]
  have pcm_of : begins_with_ci "pcm_" fmt → strncasecmp_eq fmt "pcm_".toList 4 = true := by
    intro h
    unfold strncasecmp_eq
    rw [begins_with_ci_take "pcm_" fmt h 4 (by decide)]
    decide
  have ulaw_of : begins_with_ci "ulaw_" fmt →
      strncasecmp_eq fmt "pcm_".toList 4 = false ∧ strncasecmp_eq fmt "ulaw_".toList 5 = true := by
    intro h
    unfold strncasecmp_eq
    rw [begins_with_ci_take "ulaw_" fmt h 4 (by decide),
      begins_with_ci_take "ulaw_" fmt h 5 (by decide)]
    decide
  have alaw_of : begins_with_ci "alaw_" fmt →
      strncasecmp_eq fmt "pcm_".toList 4 = false ∧ strncasecmp_eq fmt "ulaw_".toList 5 = false ∧
      strncasecmp_eq fmt "alaw_".toList 5 = true := by
    intro h
    unfold strncasecmp_eq
    rw [begins_with_ci_take "alaw_" fmt h 4 (by decide),
      begins_with_ci_take "alaw_" fmt h 5 (by decide)]
    decide
  refine ⟨?_, ?_, ?_, ?_⟩
  · intro h
    have hpcm : (wav_header_format (some fmt) fallback_ulaw_to_pcm).is_pcm = true := by
      rw [hp]
      rcases h with h | ⟨h | h, hfb⟩
      · rw [pcm_of h]; rfl
      · rw [(ulaw_of h).2, hfb]; simp
      · rw [(alaw_of h).2.2, hfb]; simp
    simp only [wav_audio_format, wav_sample_bytes, hpcm, if_true]
    exact ⟨u16_value_bytes 1 (by decide), u16_value_bytes 16 (by decide)⟩
  · intro ⟨h, hfb⟩
    have hpcm : (wav_header_format (some fmt) fallback_ulaw_to_pcm).is_pcm = false := by
      rw [hp, (ulaw_of h).1, hfb]; simp
    have hul : (wav_header_format (some fmt) fallback_ulaw_to_pcm).is_ulaw = true := by
      rw [hu, (ulaw_of h).1, (ulaw_of h).2, hfb]; rfl
    simp only [wav_audio_format, wav_sample_bytes, hpcm, hul, if_true, Bool.false_eq_true,
      if_false]
    exact ⟨u16_value_bytes 7 (by decide), u16_value_bytes 8 (by decide)⟩
  · intro ⟨h, hfb⟩
    have hpcm : (wav_header_format (some fmt) fallback_ulaw_to_pcm).is_pcm = false := by
      rw [hp, (alaw_of h).1, hfb]; simp
    have hul : (wav_header_format (some fmt) fallback_ulaw_to_pcm).is_ulaw = false := by
      rw [hu, (alaw_of h).1, (alaw_of h).2.1]; rfl
    have hal : (wav_header_format (some fmt) fallback_ulaw_to_pcm).is_alaw = true := by
      rw [ha, (alaw_of h).1, (alaw_of h).2.1, (alaw_of h).2.2, hfb]; rfl
    simp only [wav_audio_format, wav_sample_bytes, hpcm, hul, hal, if_true, Bool.false_eq_true,
      if_false]
    exact ⟨u16_value_bytes 6 (by decide), u16_value_bytes 8 (by decide)⟩
  · intro output_format
    rw [(wav_header_tag_bits output_format fallback_ulaw_to_pcm n).1]
    unfold wav_audio_format
    split_ifs
    · exact Or.inl (u16_value_bytes 1 (by decide))
    · exact Or.inr (Or.inl (u16_value_bytes 7 (by decide)))
    · exact Or.inr (Or.inr (u16_value_bytes 6 (by decide)))
    · exact Or.inl (u16_value_bytes 1 (by decide))

/-- Witness for C20: `ULAW_8000` with the fallback flag clear gets tag 7 and 8
bits per sample. -/
theorem wav_header_tag_witness :
    u16_value (((wav_header (some "ULAW_8000".toList) false 320).drop 20).take 2) = 7 ∧
    u16_value (((wav_header (some "ULAW_8000".toList) false 320).drop 34).take 2) = 8 :=
  (wav_header_tag "ULAW_8000".toList false 320).2.1 ⟨⟨"8000".toList, by decide⟩, rfl⟩

/-! ## `elevenlabs_http_client_stop` against a running worker: the claim -/

/-- Once the caller sits at the join holding the mutex while the worker has
not yet entered its final critical section, every step leaves it so. -/
theorem stop_step_stuck (t : stop_thread) (s : stop_state)
    (hc : s.caller = .at_join) (hm : s.mutex = some .caller)
    (hw : s.worker = .performing ∨ s.worker = .before_lock) :
    ((stop_step t s).getD s).caller = .at_join ∧
    ((stop_step t s).getD s).mutex = some .caller ∧
    (((stop_step t s).getD s).worker = .performing ∨
      ((stop_step t s).getD s).worker = .before_lock) := by
  cases t with
  | caller =>
    have hne : s.worker ≠ .exited := by
      rcases hw with h | h <;> rw [h] <;> decide
    simp [stop_step, hc, hne, hm, hw]
  | worker =>
    rcases hw with h | h
    · unfold stop_step
      simp only [h]
      split_ifs <;> simp [hc, hm, h]
    · simp [stop_step, h, hm, hc]

theorem stop_run_stuck (schedule : List stop_thread) (s : stop_state)
    (hc : s.caller = .at_join) (hm : s.mutex = some .caller)
    (hw : s.worker = .performing ∨ s.worker = .before_lock) :
    (stop_run s schedule).caller = .at_join ∧
    (stop_run s schedule).mutex = some .caller ∧
    ((stop_run s schedule).worker = .performing ∨
      (stop_run s schedule).worker = .before_lock) := by
  induction schedule generalizing s with
  | nil => exact ⟨hc, hm, hw⟩
  | cons t ts ih =>
    obtain ⟨h1, h2, h3⟩ := stop_step_stuck t s hc hm hw
    exact ih _ h1 h2 h3

/-- C18, evaluated on the code: when `elevenlabs_http_client_stop` takes the
lock while the worker is still inside `curl_easy_perform`, then under every
schedule the caller stays at `apr_thread_join` holding `client->mutex` and the
worker never exits; after one more worker step both processes are blocked (the
caller on the join, the worker on the mutex), so the call does not return. -/
theorem elevenlabs_http_client_stop_deadlock (chunks : Nat) (schedule : List stop_thread) :
    (stop_run (stop_called_in_flight chunks) (.caller :: schedule)).caller = .at_join ∧
    (stop_run (stop_called_in_flight chunks) (.caller :: schedule)).mutex = some .caller ∧
    (stop_run (stop_called_in_flight chunks) (.caller :: schedule)).worker ≠ .exited ∧
    stop_step .caller (stop_run (stop_called_in_flight chunks) [.caller, .worker]) = none ∧
    stop_step .worker (stop_run (stop_called_in_flight chunks) [.caller, .worker]) = none := by
  have h := stop_run_stuck schedule
    { caller := .at_join, worker := .performing, mutex := some .caller, stopped := true,
      chunks_left := chunks, appended := 0 } rfl rfl (Or.inl rfl)
  have hrun : stop_run (stop_called_in_flight chunks) (.caller :: schedule)
      = stop_run { caller := .at_join, worker := .performing, mutex := some .caller,
                   stopped := true, chunks_left := chunks, appended := 0 } schedule := rfl
  rw [hrun]
  refine ⟨h.1, h.2.1, ?_, ?_, ?_⟩
  · rcases h.2.2 with hw | hw <;> rw [hw] <;> decide
  · cases chunks <;> rfl
  · cases chunks <;> rfl

/-! ## Frame pulls: lemmas -/

/-- A read from an empty buffer returns nothing and changes nothing. -/
theorem audio_buffer_read_frame_empty (b : audio_buffer_t) (frame : List uint8_t)
    (frame_size : Nat) (h : b.size = 0) :
    audio_buffer_read_frame b frame frame_size
      = { buffer := b, frame := frame, bytes_read := 0 } := by
  unfold audio_buffer_read_frame
  by_cases hz : frame_size = 0
  · simp [hz]
  · simp [hz, h]

/-- A pull while no utterance is active does nothing. -/
theorem stream_read_idle (cs : channel_state) (frame : mpf_frame_t)
    (h : cs.channel.speak_request = none ∨ cs.channel.synthesizing = false) :
    elevenlabs_synth_stream_read cs frame = { state := cs, frame := frame, bytes_read := 0 } := by
  unfold elevenlabs_synth_stream_read
  rcases h with h | h
  · rw [h]
  · cases hr : cs.channel.speak_request with
    | none => rfl
    | some r => simp [h]

/-- A pull that finds the buffer empty while the fetch is not terminal: a frame
of zero bytes, and the keep-alive counter advanced (a response in state
IN-PROGRESS and a reset when it reaches 25). -/
theorem stream_read_silence (cs : channel_state) (frame : mpf_frame_t) (request : Nat)
    (hr : cs.channel.speak_request = some request) (hs : cs.channel.synthesizing = true)
    (hb : cs.session.audio_buffer.size = 0) (hst : cs.session.client.stopped = false) :
    (elevenlabs_synth_stream_read cs frame).frame
      = { frame with buffer := List.replicate frame.size 0 ++ frame.buffer.drop frame.size,
                     type := frame.type ||| MEDIA_FRAME_TYPE_AUDIO } ∧
    (elevenlabs_synth_stream_read cs frame).bytes_read = 0 ∧
    (elevenlabs_synth_stream_read cs frame).state
      = (if cs.channel.progress_counter + 1 ≥ 25 then
          { cs with channel := { cs.channel with progress_counter := 0 },
                    sent := cs.sent ++
                      [mrcp_message_t.response request mrcp_request_state_e.INPROGRESS false] }
        else
          { cs with channel := { cs.channel with
                      progress_counter := cs.channel.progress_counter + 1 } }) := by
  unfold elevenlabs_synth_stream_read
  rw [hr]
  simp only [hs, if_true, audio_buffer_read_frame_empty _ _ _ hb, Nat.lt_irrefl, if_false,
    hst, Bool.not_false]
  split_ifs <;> exact ⟨rfl, rfl, rfl⟩

/-- A pull that finds the buffer empty and the fetch terminal: SPEAK-COMPLETE
with cause NORMAL is sent, the utterance ends, the frame is left alone. -/
theorem stream_read_complete (cs : channel_state) (frame : mpf_frame_t) (request : Nat)
    (hr : cs.channel.speak_request = some request) (hs : cs.channel.synthesizing = true)
    (hb : cs.session.audio_buffer.size = 0) (hst : cs.session.client.stopped = true) :
    elevenlabs_synth_stream_read cs frame
      = { state := { cs with
                  channel := { cs.channel with speak_request := none, synthesizing := false },
                  sent := cs.sent ++
                    [mrcp_message_t.speak_complete request
                      mrcp_synth_completion_cause_e.NORMAL] },
          frame := frame, bytes_read := 0 } := by
  unfold elevenlabs_synth_stream_read
  rw [hr]
  simp only [hs, if_true, audio_buffer_read_frame_empty _ _ _ hb, Nat.lt_irrefl, if_false,
    hst, Bool.not_true, Bool.false_eq_true, elevenlabs_send_speak_complete]

/-- A pull that finds data: the first `min(frame.size, size)` bytes of the
buffer are copied to the front of the frame, the frame is flagged as audio, the
keep-alive counter is reset and nothing is sent. -/
theorem stream_read_audio (cs : channel_state) (frame : mpf_frame_t) (request : Nat)
    (hr : cs.channel.speak_request = some request) (hs : cs.channel.synthesizing = true)
    (hwf : cs.session.audio_buffer.wf) (hb : 0 < cs.session.audio_buffer.size)
    (hf : 0 < frame.size) :
    (elevenlabs_synth_stream_read cs frame).bytes_read
      = min frame.size cs.session.audio_buffer.size ∧
    (elevenlabs_synth_stream_read cs frame).frame.buffer.take
        (elevenlabs_synth_stream_read cs frame).bytes_read
      = cs.session.audio_buffer.contents.take (min frame.size cs.session.audio_buffer.size) ∧
    (elevenlabs_synth_stream_read cs frame).frame.type
      = frame.type ||| MEDIA_FRAME_TYPE_AUDIO ∧
    (elevenlabs_synth_stream_read cs frame).state.session.audio_buffer.contents
      = cs.session.audio_buffer.contents.drop (min frame.size cs.session.audio_buffer.size) ∧
    (elevenlabs_synth_stream_read cs frame).state.session.audio_buffer.wf ∧
    (elevenlabs_synth_stream_read cs frame).state.session.client = cs.session.client ∧
    (elevenlabs_synth_stream_read cs frame).state.sent = cs.sent ∧
    (elevenlabs_synth_stream_read cs frame).state.channel
      = { cs.channel with progress_counter := 0 } := by
  obtain ⟨h1, h2, h3, _, _, h6⟩ :=
    audio_buffer_read_frame_spec cs.session.audio_buffer frame.buffer frame.size hwf
  have hpos : 0 < (audio_buffer_read_frame cs.session.audio_buffer frame.buffer
      frame.size).bytes_read := by
    rw [h1]; exact Nat.lt_min.mpr ⟨hf, hb⟩
  unfold elevenlabs_synth_stream_read
  rw [hr]
  simp only [hs, if_true, hpos]
  refine ⟨h1, ?_, trivial, h3, h6, trivial, trivial, trivial⟩
  rw [← h2, read_result.bytes, h1]

/-- Silent pulls: the state after any number of pulls that find the buffer
empty while the fetch is not terminal, starting with the counter at `c`. -/
theorem stream_read_state_silent (frames : List mpf_frame_t) (cs : channel_state)
    (request : Nat) (c : Nat)
    (hr : cs.channel.speak_request = some request) (hs : cs.channel.synthesizing = true)
    (hb : cs.session.audio_buffer.size = 0) (hst : cs.session.client.stopped = false)
    (hc : cs.channel.progress_counter = (c : Int)) (hc25 : c < 25) :
    stream_read_state cs frames
      = { cs with
            channel := { cs.channel with
              progress_counter := (((c + frames.length) % 25 : Nat) : Int) },
            sent := cs.sent ++ List.replicate ((c + frames.length) / 25)
              (mrcp_message_t.response request mrcp_request_state_e.INPROGRESS false) } := by
  induction frames generalizing cs c with
  | nil =>
    have h1 : (c + 0) % 25 = c := Nat.mod_eq_of_lt hc25
    have h2 : (c + 0) / 25 = 0 := Nat.div_eq_of_lt hc25
    simp only [stream_read_state, List.length_nil, h1, h2, List.replicate_zero, List.append_nil,
      ← hc]
  | cons frame rest ih =>
    obtain ⟨_, _, hstate⟩ := stream_read_silence cs frame request hr hs hb hst
    rw [stream_read_state, hstate]
    by_cases h24 : c = 24
    · have hge : cs.channel.progress_counter + 1 ≥ 25 := by rw [hc, h24]; decide
      rw [if_pos hge]
      rw [ih { cs with channel := { cs.channel with progress_counter := 0 },
                       sent := cs.sent ++
                         [mrcp_message_t.response request mrcp_request_state_e.INPROGRESS
                           false] } 0 hr hs hb hst rfl (by decide)]
      have e1 : (c + (frame :: rest).length) % 25 = (0 + rest.length) % 25 := by
        rw [h24, List.length_cons]; omega
      have e2 : (c + (frame :: rest).length) / 25 = (0 + rest.length) / 25 + 1 := by
        rw [h24, List.length_cons]; omega
      rw [e1, e2, List.replicate_succ]
      simp only [List.append_assoc, List.singleton_append]
    · have hlt : ¬ (cs.channel.progress_counter + 1 ≥ 25) := by rw [hc]; omega
      rw [if_neg hlt]
      rw [ih { cs with channel := { cs.channel with
                         progress_counter := cs.channel.progress_counter + 1 } }
        (c + 1) hr hs hb hst (by simp [hc]) (by omega)]
      have e1 : (c + (frame :: rest).length) = (c + 1 + rest.length) := by
        rw [List.length_cons]; omega
      rw [e1]

/-- Silent pulls: every frame handed back holds `size` zero bytes and is
flagged as audio. -/
theorem stream_read_all_silent (frames : List mpf_frame_t) (cs : channel_state)
    (request : Nat) (c : Nat)
    (hr : cs.channel.speak_request = some request) (hs : cs.channel.synthesizing = true)
    (hb : cs.session.audio_buffer.size = 0) (hst : cs.session.client.stopped = false)
    (hc : cs.channel.progress_counter = (c : Int)) (hc25 : c < 25) :
    ∀ r ∈ stream_read_all cs frames,
      r.frame.buffer.take r.frame.size = List.replicate r.frame.size 0 ∧
      r.frame.type &&& MEDIA_FRAME_TYPE_AUDIO = MEDIA_FRAME_TYPE_AUDIO ∧ r.bytes_read = 0 := by
  induction frames generalizing cs c with
  | nil => intro r hr; cases hr
  | cons frame rest ih =>
    obtain ⟨hframe, hbytes, hstate⟩ := stream_read_silence cs frame request hr hs hb hst
    intro r hmem
    rw [stream_read_all] at hmem
    rcases List.mem_cons.mp hmem with rfl | hmem
    · refine ⟨?_, ?_, hbytes⟩
      · rw [hframe]
        simp
      · rw [hframe]
        show (frame.type ||| 1) &&& 1 = 1
        apply Nat.eq_of_testBit_eq
        intro i
        rw [Nat.testBit_and, Nat.testBit_or]
        cases i with
        | zero => simp
        | succ j =>
          have h1 : Nat.testBit 1 (j + 1) = false := by
            rw [Nat.testBit_succ]; simp
          simp [h1]
    · by_cases h24 : c = 24
      · have hge : cs.channel.progress_counter + 1 ≥ 25 := by rw [hc, h24]; decide
        rw [hstate, if_pos hge] at hmem
        exact ih { cs with channel := { cs.channel with progress_counter := 0 },
                           sent := cs.sent ++
                             [mrcp_message_t.response request mrcp_request_state_e.INPROGRESS
                               false] } 0 hr hs hb hst rfl (by decide) r hmem
      · have hlt : ¬ (cs.channel.progress_counter + 1 ≥ 25) := by rw [hc]; omega
        rw [hstate, if_neg hlt] at hmem
        exact ih { cs with channel := { cs.channel with
                             progress_counter := cs.channel.progress_counter + 1 } }
          (c + 1) hr hs hb hst (by simp [hc]) (by omega) r hmem

/-! ## Frame pulls and the STOP handler: the claims -/

/-- C16 (keep-alive cadence). From a freshly started utterance (counter 0),
during any number of consecutive pulls that find no data while the fetch is
not terminal: every pull hands back a frame of `size` zero bytes flagged as
audio; after `k` pulls exactly `k / 25` IN-PROGRESS responses have been sent
and the counter is `k % 25`, so a signal is sent exactly at pulls 25, 50, 75,
... and the counter is 0 after each.  A pull that returns audio resets the
counter to 0. -/
theorem keep_alive_cadence (cs : channel_state) (request : Nat) (frames : List mpf_frame_t)
    (hr : cs.channel.speak_request = some request) (hs : cs.channel.synthesizing = true)
    (hb : cs.session.audio_buffer.size = 0) (hst : cs.session.client.stopped = false)
    (hc : cs.channel.progress_counter = 0) :
    (∀ r ∈ stream_read_all cs frames,
      r.frame.buffer.take r.frame.size = List.replicate r.frame.size 0 ∧
      r.frame.type &&& MEDIA_FRAME_TYPE_AUDIO = MEDIA_FRAME_TYPE_AUDIO) ∧
    (∀ k ≤ frames.length,
      (stream_read_state cs (frames.take k)).sent
        = cs.sent ++ List.replicate (k / 25)
            (mrcp_message_t.response request mrcp_request_state_e.INPROGRESS false) ∧
      (stream_read_state cs (frames.take k)).channel.progress_counter = ((k % 25 : Nat) : Int)) ∧
    (∀ (cs1 : channel_state) (frame : mpf_frame_t) (request1 : Nat),
      cs1.channel.speak_request = some request1 → cs1.channel.synthesizing = true →
      0 < cs1.session.audio_buffer.size → 0 < frame.size →
      0 < (elevenlabs_synth_stream_read cs1 frame).bytes_read ∧
      (elevenlabs_synth_stream_read cs1 frame).state.channel.progress_counter = 0) := by
  refine ⟨?_, ?_, ?_⟩
  · intro r hmem
    have h := stream_read_all_silent frames cs request 0 hr hs hb hst hc (by decide) r hmem
    exact ⟨h.1, h.2.1⟩
  · intro k hk
    have h := stream_read_state_silent (frames.take k) cs request 0 hr hs hb hst hc (by decide)
    have hlen : (frames.take k).length = k := by
      rw [List.length_take]; omega
    rw [h, hlen, Nat.zero_add]
    exact ⟨rfl, rfl⟩
  · intro cs1 frame request1 hr1 hs1 hb1 hf1
    have hpos : 0 < (audio_buffer_read_frame cs1.session.audio_buffer frame.buffer
        frame.size).bytes_read := by
      unfold audio_buffer_read_frame
      have hz : frame.size ≠ 0 := by omega
      simp only [hz, if_false]
      split_ifs <;> first | exact hf1 | exact hb1
    unfold elevenlabs_synth_stream_read
    rw [hr1]
    simp only [hs1, if_true, hpos]
    exact ⟨trivial, trivial⟩

/-- Witness for C16: 30 silent pulls send exactly one IN-PROGRESS response, and
it is sent at pull 25 (none after 24 pulls, one after 25). -/
theorem keep_alive_cadence_witness :
    (stream_read_state (example_speaking example_session)
      ((List.replicate 30 (example_frame 50)).take 30)).sent
      = [mrcp_message_t.response 1 mrcp_request_state_e.INPROGRESS false] ∧
    (stream_read_state (example_speaking example_session)
      ((List.replicate 30 (example_frame 50)).take 24)).sent = [] ∧
    (stream_read_state (example_speaking example_session)
      ((List.replicate 30 (example_frame 50)).take 25)).sent
      = [mrcp_message_t.response 1 mrcp_request_state_e.INPROGRESS false] :=
  ⟨((keep_alive_cadence (example_speaking example_session) 1
      (List.replicate 30 (example_frame 50)) rfl rfl rfl rfl rfl).2.1 30 (by decide)).1,
   ((keep_alive_cadence (example_speaking example_session) 1
      (List.replicate 30 (example_frame 50)) rfl rfl rfl rfl rfl).2.1 24 (by decide)).1,
   ((keep_alive_cadence (example_speaking example_session) 1
      (List.replicate 30 (example_frame 50)) rfl rfl rfl rfl rfl).2.1 25 (by decide)).1⟩

/-- C15 as stated fails: a fetch that ends with a timeout, and a fetch that
ends with HTTP status 500, are both followed by a completion with cause
NORMAL, not ERROR. -/
theorem completion_cause_ignores_outcome :
    (elevenlabs_synth_stream_read
      (example_speaking (elevenlabs_http_thread example_config (fun _ => none) example_session
        [] CURLE_OPERATION_TIMEDOUT 0)) (example_frame 50)).state.sent
      = [mrcp_message_t.speak_complete 1 mrcp_synth_completion_cause_e.NORMAL] ∧
    (elevenlabs_synth_stream_read
      (example_speaking (elevenlabs_http_thread example_config (fun _ => none) example_session
        [] CURLE_OK 500)) (example_frame 50)).state.sent
      = [mrcp_message_t.speak_complete 1 mrcp_synth_completion_cause_e.NORMAL] := by
  constructor <;> rfl

/-- C15 as amended. When a frame pull finds the buffer empty and the fetch
terminal, it reports completion with cause NORMAL whatever the outcome of the
fetch was (any curl result code, any HTTP status, any chunks received); it
sends nothing else and ends the utterance. -/
theorem completion_cause_always_normal (config : elevenlabs_config_t)
    (mems : Nat → Option (Nat → uint8_t)) (s : session) (chunks : List (List uint8_t))
    (net_res http_code : Nat) (channel : elevenlabs_synth_channel_t)
    (sent : List mrcp_message_t) (request : Nat) (frame : mpf_frame_t)
    (hr : channel.speak_request = some request) (hs : channel.synthesizing = true)
    (hb : (elevenlabs_http_thread config mems s chunks net_res http_code).audio_buffer.size = 0) :
    (elevenlabs_synth_stream_read
        { channel := channel,
          session := elevenlabs_http_thread config mems s chunks net_res http_code,
          sent := sent } frame).state.sent
      = sent ++ [mrcp_message_t.speak_complete request mrcp_synth_completion_cause_e.NORMAL] ∧
    (elevenlabs_synth_stream_read
        { channel := channel,
          session := elevenlabs_http_thread config mems s chunks net_res http_code,
          sent := sent } frame).state.channel.speak_request = none ∧
    (elevenlabs_synth_stream_read
        { channel := channel,
          session := elevenlabs_http_thread config mems s chunks net_res http_code,
          sent := sent } frame).state.channel.synthesizing = false := by
  rw [stream_read_complete _ frame request hr hs hb rfl]
  exact ⟨rfl, rfl, rfl⟩

/-- Witness for C15 as amended: a fetch that is refused with HTTP status 401
and delivers no chunk. -/
theorem completion_cause_always_normal_witness :
    (elevenlabs_synth_stream_read
        { channel := (example_speaking example_session).channel,
          session := elevenlabs_http_thread example_config (fun _ => none) example_session []
            CURLE_OK 401,
          sent := [] } (example_frame 50)).state.sent
      = [] ++ [mrcp_message_t.speak_complete 1 mrcp_synth_completion_cause_e.NORMAL] :=
  (completion_cause_always_normal example_config (fun _ => none) example_session [] CURLE_OK
    401 (example_speaking example_session).channel [] 1 (example_frame 50) rfl rfl rfl).1

/-- The STOP handler has a result except with `synthesizing` set, a thread
handle stored and `stopped` clear, the state a fetch in flight leaves. -/
theorem elevenlabs_channel_stop_returns_iff (cs : channel_state) (request : Nat) :
    (elevenlabs_channel_stop cs request).isSome = true ↔
      ¬ (cs.channel.synthesizing = true ∧ cs.session.client.thread = true ∧
          cs.session.client.stopped = false) := by
  unfold elevenlabs_channel_stop elevenlabs_http_client_stop_returns
  cases hsyn : cs.channel.synthesizing <;> cases hth : cs.session.client.thread <;>
    cases hst : cs.session.client.stopped <;> simp [hsyn, hth, hst, audio_buffer_clear]

set_option maxRecDepth 100000 in
/-- The STOP handler has no result in the state a SPEAK request leaves whose
worker has been started and has not yet ended. -/
theorem elevenlabs_channel_stop_in_flight :
    (example_run [List.replicate 100 5] []).cs.channel.synthesizing = true ∧
    (example_run [List.replicate 100 5] []).cs.session.client.thread = true ∧
    (example_run [List.replicate 100 5] []).cs.session.client.stopped = false ∧
    (elevenlabs_channel_stop (example_run [List.replicate 100 5] []).cs 2).isSome = false ∧
    (elevenlabs_channel_stop
      (example_run [List.replicate 100 5] [session_event.worker]).cs 2).isSome = false := by
  decide

theorem pcm_bytes_length (samples : List Int) : (pcm_bytes samples).length = 2 * samples.length := by
  induction samples with
  | nil => rfl
  | cons x xs ih =>
    simp only [pcm_bytes, List.flatMap_cons, List.length_append, List.length_cons] at ih ⊢
    rw [ih]
    simp [s16_bytes]
    omega

/-- The sink output is empty exactly for an empty chunk, and at most twice as
long as the chunk. -/
theorem sink_output_length (config : elevenlabs_config_t) (u : ulaw_state)
    (contents : List uint8_t) :
    ((sink_output config u contents).1 = [] ↔ contents = []) ∧
    (sink_output config u contents).1.length ≤ 2 * contents.length := by
  unfold sink_output
  cases hc : sink_converts config
  · rw [if_neg Bool.false_ne_true]
    exact ⟨Iff.rfl, Nat.le_mul_of_pos_left _ (by decide)⟩
  · rw [if_pos rfl]
    have hlen : (ulaw_to_s16 u contents (List.replicate contents.length 0)).2.length
        = contents.length := by
      rw [ulaw_to_s16_samples u contents _ (by simp)]
      simp
    constructor
    · rw [← List.length_eq_zero, pcm_bytes_length, hlen, ← List.length_eq_zero]
      omega
    · rw [pcm_bytes_length, hlen]

theorem deliver_outputs_length (config : elevenlabs_config_t) (u : ulaw_state)
    (chunks : List (List uint8_t)) :
    (deliver_outputs config u chunks).length ≤ 2 * (chunks.map List.length).sum := by
  induction chunks generalizing u with
  | nil => simp [deliver_outputs]
  | cons c cs ih =>
    have h1 := (sink_output_length config u c).2
    have h2 := ih (sink_output config u c).2
    simp only [deliver_outputs, List.length_append, List.map_cons, List.sum_cons]
    omega

/-- Without conversion the sink hands the chunks on unchanged. -/
theorem deliver_outputs_plain (config : elevenlabs_config_t) (u : ulaw_state)
    (chunks : List (List uint8_t)) (h : sink_converts config = false) :
    deliver_outputs config u chunks = chunks.flatten := by
  induction chunks generalizing u with
  | nil => rfl
  | cons c cs ih =>
    simp only [deliver_outputs, sink_output, h, Bool.false_eq_true, if_false, List.flatten_cons]
    rw [ih]

theorem file_system.set_same (fs : file_system) (path : c_string)
    (content : Option (List uint8_t)) : (fs.set path content) path = content := by
  simp [file_system.set]

theorem file_system.set_other (fs : file_system) (path p : c_string)
    (content : Option (List uint8_t)) (h : p ≠ path) : (fs.set path content) p = fs p := by
  simp [file_system.set, h]

/-- Appending to a file whose data region starts at `off`. -/
theorem file_write_at_append (off : Nat) (payload data : List uint8_t) :
    file_write_at (if payload = [] then [] else List.replicate off 0 ++ payload)
        (off + payload.length) data
      = List.replicate off 0 ++ (payload ++ data) := by
  unfold file_write_at
  by_cases hp : payload = []
  · subst hp
    simp
  · simp only [hp, if_false]
    have hlen : (List.replicate off (0 : uint8_t) ++ payload).length = off + payload.length := by
      simp
    rw [hlen, Nat.sub_self, List.replicate_zero, List.append_nil, ← hlen, List.take_length,
      List.drop_eq_nil_of_le (by omega), List.append_nil, List.append_assoc]

theorem write_callback_stopped (config : elevenlabs_config_t) (s : session)
    (contents : List uint8_t) (mem : Option (Nat → uint8_t)) (h : s.client.stopped = true) :
    write_callback config s contents mem = (s, 0) := by
  unfold write_callback
  simp [h]

theorem write_callback_failed (config : elevenlabs_config_t) (s : session)
    (contents : List uint8_t) (mem : Option (Nat → uint8_t)) (h : s.client.stopped = false)
    (hw : (audio_buffer_write s.audio_buffer (sink_output config s.ulaw contents).1 mem).2
      = false) :
    write_callback config s contents mem
      = ({ s with client := { s.client with first_chunk_logged := true },
                  ulaw := (sink_output config s.ulaw contents).2,
                  audio_buffer :=
                    (audio_buffer_write s.audio_buffer
                      (sink_output config s.ulaw contents).1 mem).1 }, 0) := by
  unfold write_callback
  simp [h, hw]

theorem write_callback_plain (config : elevenlabs_config_t) (s : session)
    (contents : List uint8_t) (mem : Option (Nat → uint8_t)) (h : s.client.stopped = false)
    (hw : (audio_buffer_write s.audio_buffer (sink_output config s.ulaw contents).1 mem).2
      = true)
    (hfp : s.client.cache_fp = none) :
    write_callback config s contents mem
      = ({ s with client := { s.client with first_chunk_logged := true },
                  ulaw := (sink_output config s.ulaw contents).2,
                  audio_buffer :=
                    (audio_buffer_write s.audio_buffer
                      (sink_output config s.ulaw contents).1 mem).1 }, contents.length) := by
  unfold write_callback
  simp [h, hw, hfp]

theorem write_callback_cached (config : elevenlabs_config_t) (s : session)
    (contents : List uint8_t) (mem : Option (Nat → uint8_t)) (fp : apr_file_t)
    (h : s.client.stopped = false)
    (hw : (audio_buffer_write s.audio_buffer (sink_output config s.ulaw contents).1 mem).2
      = true)
    (hfp : s.client.cache_fp = some fp) :
    write_callback config s contents mem
      = ({ client :=
             { s.client with
                 first_chunk_logged := true,
                 cache_fp :=
                   some (apr_file_write s.files fp (sink_output config s.ulaw contents).1).2.1,
                 cache_data_bytes :=
                   (s.client.cache_data_bytes
                     + (apr_file_write s.files fp (sink_output config s.ulaw contents).1).2.2)
                   % APR_SIZE_MODULUS },
           audio_buffer :=
             (audio_buffer_write s.audio_buffer (sink_output config s.ulaw contents).1 mem).1,
           files := (apr_file_write s.files fp (sink_output config s.ulaw contents).1).1,
           ulaw := (sink_output config s.ulaw contents).2 }, contents.length) := by
  unfold write_callback
  simp [h, hw, hfp]

/-- A write to an open file keeps its name and leaves every other file
alone. -/
theorem apr_file_write_frame (fs : file_system) (fp : apr_file_t) (data : List uint8_t) :
    (apr_file_write fs fp data).2.1.fname = fp.fname ∧
    ∀ p : c_string, p ≠ fp.fname → (apr_file_write fs fp data).1 p = fs p := by
  unfold apr_file_write
  by_cases he : data.isEmpty = true
  · rw [if_pos he]
    exact ⟨rfl, fun _ _ => rfl⟩
  · rw [if_neg he]
    cases hfile : fs fp.fname with
    | none => exact ⟨rfl, fun _ _ => rfl⟩
    | some content => exact ⟨rfl, fun p hp => file_system.set_other _ _ _ _ hp⟩

/-- What a sink call never changes, and what it keeps of an open cache file. -/
theorem write_callback_frame (config : elevenlabs_config_t) (s : session)
    (contents : List uint8_t) (mem : Option (Nat → uint8_t)) :
    (write_callback config s contents mem).1.client.cache_path_tmp = s.client.cache_path_tmp ∧
    (write_callback config s contents mem).1.client.cache_path_final
      = s.client.cache_path_final ∧
    (write_callback config s contents mem).1.client.request_voice_id
      = s.client.request_voice_id ∧
    (write_callback config s contents mem).1.client.stopped = s.client.stopped ∧
    (s.client.cache_fp = none →
      (write_callback config s contents mem).1.client.cache_fp = none ∧
      (write_callback config s contents mem).1.files = s.files) ∧
    (∀ tmp : c_string, cache_open s tmp →
      cache_open (write_callback config s contents mem).1 tmp ∧
      ∀ p : c_string, p ≠ tmp → (write_callback config s contents mem).1.files p = s.files p) := by
  cases hst : s.client.stopped
  · cases hw : (audio_buffer_write s.audio_buffer (sink_output config s.ulaw contents).1 mem).2
    · rw [write_callback_failed config s contents mem hst hw]
      exact ⟨rfl, rfl, rfl, hst, fun h => ⟨h, rfl⟩, fun tmp h => ⟨h, fun _ _ => rfl⟩⟩
    · cases hfp : s.client.cache_fp with
      | none =>
        rw [write_callback_plain config s contents mem hst hw hfp]
        refine ⟨rfl, rfl, rfl, hst, fun _ => ⟨hfp, rfl⟩, ?_⟩
        intro tmp ⟨fp, h1, _⟩
        rw [hfp] at h1
        cases h1
      | some fp =>
        rw [write_callback_cached config s contents mem fp hst hw hfp]
        refine ⟨rfl, rfl, rfl, hst, fun h => Option.noConfusion h, ?_⟩
        intro tmp ⟨fp1, h1, h2⟩
        have hfp1 : fp1 = fp := Option.some.inj (h1.symm.trans hfp)
        subst hfp1
        obtain ⟨hn, hother⟩ := apr_file_write_frame s.files fp1
          (sink_output config s.ulaw contents).1
        exact ⟨⟨_, rfl, by rw [← h2]; exact hn⟩, fun p hp => hother p (by rw [h2]; exact hp)⟩
  · rw [write_callback_stopped config s contents mem hst]
    exact ⟨rfl, rfl, rfl, hst, fun h => ⟨h, rfl⟩, fun tmp h => ⟨h, fun _ _ => rfl⟩⟩

/-- A sink call that returns the chunk size, on a client that is not stopped:
the output is appended to the buffer and, under write-through, to the cache
file. -/
theorem write_callback_ok_step (config : elevenlabs_config_t) (s : session)
    (contents : List uint8_t) (mem : Option (Nat → uint8_t))
    (hst : s.client.stopped = false) (hwf : s.audio_buffer.wf)
    (hret : (write_callback config s contents mem).2 = contents.length)
    (hfit : 2 * (s.audio_buffer.size + (sink_output config s.ulaw contents).1.length)
      < APR_SIZE_MODULUS) :
    (write_callback config s contents mem).1.audio_buffer.wf ∧
    (write_callback config s contents mem).1.audio_buffer.contents
      = s.audio_buffer.contents ++ (sink_output config s.ulaw contents).1 ∧
    (write_callback config s contents mem).1.ulaw = (sink_output config s.ulaw contents).2 ∧
    (∀ (tmp : c_string) (off : Nat) (payload : List uint8_t),
      cache_writing s tmp off payload →
      payload.length + (sink_output config s.ulaw contents).1.length < APR_SIZE_MODULUS →
      cache_writing (write_callback config s contents mem).1 tmp off
        (payload ++ (sink_output config s.ulaw contents).1)) := by
  obtain ⟨hempty, _⟩ := sink_output_length config s.ulaw contents
  by_cases hc : contents = []
  · have hout : (sink_output config s.ulaw contents).1 = [] := hempty.mpr hc
    have hw : (audio_buffer_write s.audio_buffer (sink_output config s.ulaw contents).1 mem).2
        = false := by
      rw [hout]; simp [audio_buffer_write]
    have hb : (audio_buffer_write s.audio_buffer (sink_output config s.ulaw contents).1 mem).1
        = s.audio_buffer := audio_buffer_write_failed _ _ _ hw
    rw [write_callback_failed config s contents mem hst hw]
    refine ⟨by rw [hb]; exact hwf, ?_, rfl, ?_⟩
    · show (audio_buffer_write s.audio_buffer _ mem).1.contents = _
      rw [hb, hout, List.append_nil]
    · intro tmp off payload hcw _
      rw [hout, List.append_nil]
      exact hcw
  · have hout : (sink_output config s.ulaw contents).1 ≠ [] := fun h => hc (hempty.mp h)
    have hlen : contents.length ≠ 0 := fun h => hc (List.length_eq_zero.mp h)
    have hw : (audio_buffer_write s.audio_buffer (sink_output config s.ulaw contents).1 mem).2
        = true := by
      by_contra hne
      have hf : (audio_buffer_write s.audio_buffer (sink_output config s.ulaw contents).1
          mem).2 = false := by simpa using hne
      rw [write_callback_failed config s contents mem hst hf] at hret
      exact hlen hret.symm
    obtain ⟨_, hmem⟩ := audio_buffer_write_ok _ _ _ hw
    rw [Nat.mod_eq_of_lt (by omega)] at hmem
    obtain ⟨_, hwf1, hcont, _⟩ :=
      audio_buffer_write_spec s.audio_buffer _ mem hwf hout hfit hmem
    cases hfp : s.client.cache_fp with
    | none =>
      rw [write_callback_plain config s contents mem hst hw hfp]
      refine ⟨hwf1, hcont, rfl, ?_⟩
      intro tmp off payload hcw _
      rw [hcw.1] at hfp
      cases hfp
    | some fp =>
      rw [write_callback_cached config s contents mem fp hst hw hfp]
      refine ⟨hwf1, hcont, rfl, ?_⟩
      intro tmp off payload ⟨h1, h2, h3⟩ hsum
      have hfpeq : fp = { fname := tmp, filePtr := off + payload.length } :=
        Option.some.inj (hfp.symm.trans h1)
      have hne : (sink_output config s.ulaw contents).1.isEmpty = false := by
        cases hh : (sink_output config s.ulaw contents).1 with
        | nil => exact absurd hh hout
        | cons x xs => rfl
      have hwrite : apr_file_write s.files fp (sink_output config s.ulaw contents).1
          = ((s.files.set tmp (some (List.replicate off 0
                ++ (payload ++ (sink_output config s.ulaw contents).1)))),
             { fname := tmp,
               filePtr := off + payload.length + (sink_output config s.ulaw contents).1.length },
             (sink_output config s.ulaw contents).1.length) := by
        unfold apr_file_write
        rw [hne, hfpeq]
        simp only [Bool.false_eq_true, if_false, h3, file_write_at_append]
      rw [hwrite]
      refine ⟨?_, ?_, ?_⟩
      · show some _ = some _
        rw [List.length_append, Nat.add_assoc]
      · show (s.client.cache_data_bytes + _) % APR_SIZE_MODULUS = _
        rw [h2, Nat.mod_eq_of_lt hsum, List.length_append]
      · show (s.files.set tmp _) tmp = _
        rw [file_system.set_same]
        have hne2 : payload ++ (sink_output config s.ulaw contents).1 ≠ [] := by
          intro h
          exact hout (List.append_eq_nil.mp h).2
        rw [if_neg hne2]

/-- What a transfer never changes, and what it keeps of an open cache file,
whether it is aborted or not. -/
theorem curl_deliver_frame (config : elevenlabs_config_t) (mems : Nat → Option (Nat → uint8_t))
    (chunks : List (List uint8_t)) (s : session) (i : Nat) :
    (curl_deliver config mems s chunks i).1.client.cache_path_tmp = s.client.cache_path_tmp ∧
    (curl_deliver config mems s chunks i).1.client.cache_path_final
      = s.client.cache_path_final ∧
    (curl_deliver config mems s chunks i).1.client.request_voice_id
      = s.client.request_voice_id ∧
    (curl_deliver config mems s chunks i).1.client.stopped = s.client.stopped ∧
    (s.client.cache_fp = none →
      (curl_deliver config mems s chunks i).1.client.cache_fp = none ∧
      (curl_deliver config mems s chunks i).1.files = s.files) ∧
    (∀ tmp : c_string, cache_open s tmp →
      cache_open (curl_deliver config mems s chunks i).1 tmp ∧
      ∀ p : c_string, p ≠ tmp → (curl_deliver config mems s chunks i).1.files p = s.files p) := by
  induction chunks generalizing s i with
  | nil => exact ⟨rfl, rfl, rfl, rfl, fun h => ⟨h, rfl⟩, fun tmp h => ⟨h, fun _ _ => rfl⟩⟩
  | cons c cs ih =>
    obtain ⟨h1, h2, h3, h4, h5, h6⟩ := write_callback_frame config s c (mems i)
    unfold curl_deliver
    by_cases hret : (write_callback config s c (mems i)).2 ≠ c.length
    · rw [if_pos hret]
      exact ⟨h1, h2, h3, h4, h5, h6⟩
    · rw [if_neg hret]
      obtain ⟨g1, g2, g3, g4, g5, g6⟩ := ih (write_callback config s c (mems i)).1 (i + 1)
      refine ⟨g1.trans h1, g2.trans h2, g3.trans h3, g4.trans h4, ?_, ?_⟩
      · intro hnone
        obtain ⟨a, b⟩ := h5 hnone
        obtain ⟨a1, b1⟩ := g5 a
        exact ⟨a1, b1.trans b⟩
      · intro tmp hopen
        obtain ⟨a, b⟩ := h6 tmp hopen
        obtain ⟨a1, b1⟩ := g6 tmp a
        exact ⟨a1, fun p hp => (b1 p hp).trans (b p hp)⟩

/-- A transfer that is not aborted, on a client that is not stopped: the
buffer, and under write-through the cache file, receive the outputs of the
sink for all chunks, in order. -/
theorem curl_deliver_ok (config : elevenlabs_config_t) (mems : Nat → Option (Nat → uint8_t))
    (chunks : List (List uint8_t)) (s : session) (i : Nat)
    (hst : s.client.stopped = false) (hwf : s.audio_buffer.wf)
    (hok : (curl_deliver config mems s chunks i).2 = false)
    (hfit : 2 * (s.audio_buffer.size + (deliver_outputs config s.ulaw chunks).length)
      < APR_SIZE_MODULUS) :
    (curl_deliver config mems s chunks i).1.audio_buffer.wf ∧
    (curl_deliver config mems s chunks i).1.audio_buffer.contents
      = s.audio_buffer.contents ++ deliver_outputs config s.ulaw chunks ∧
    (∀ (tmp : c_string) (off : Nat) (payload : List uint8_t),
      cache_writing s tmp off payload →
      payload.length + (deliver_outputs config s.ulaw chunks).length < APR_SIZE_MODULUS →
      cache_writing (curl_deliver config mems s chunks i).1 tmp off
        (payload ++ deliver_outputs config s.ulaw chunks)) := by
  induction chunks generalizing s i with
  | nil =>
    refine ⟨hwf, by simp [curl_deliver, deliver_outputs], ?_⟩
    intro tmp off payload hcw _
    simpa [curl_deliver, deliver_outputs] using hcw
  | cons c cs ih =>
    unfold curl_deliver at hok ⊢
    by_cases hret : (write_callback config s c (mems i)).2 ≠ c.length
    · rw [if_pos hret] at hok
      cases hok
    · rw [if_neg hret] at hok ⊢
      have hret' : (write_callback config s c (mems i)).2 = c.length := by
        simpa using hret
      simp only [deliver_outputs, List.length_append] at hfit
      obtain ⟨w1, w2, w3, w4⟩ := write_callback_ok_step config s c (mems i) hst hwf hret'
        (by omega)
      have hst1 : (write_callback config s c (mems i)).1.client.stopped = false :=
        (write_callback_frame config s c (mems i)).2.2.2.1.trans hst
      have hsize : (write_callback config s c (mems i)).1.audio_buffer.size
          = s.audio_buffer.size + (sink_output config s.ulaw c).1.length := by
        rw [← audio_buffer_t.contents_length _ w1, w2, List.length_append,
          audio_buffer_t.contents_length _ hwf]
      obtain ⟨i1, i2, i3⟩ := ih (write_callback config s c (mems i)).1 (i + 1) hst1 w1 hok
        (by rw [hsize, w3]; omega)
      refine ⟨i1, ?_, ?_⟩
      · rw [i2, w2, w3, deliver_outputs, List.append_assoc]
      · intro tmp off payload hcw hsum
        simp only [deliver_outputs, List.length_append] at hsum
        have hcw1 := w4 tmp off payload hcw (by omega)
        have := i3 tmp off _ hcw1 (by rw [w3, List.length_append]; omega)
        rw [w3, List.append_assoc] at this
        rw [deliver_outputs]
        exact this

/-! ## Draining the buffer by frame pulls -/

/-- Pulls on a channel without active utterance: nothing is read, nothing is
sent, the frames and the state are left as they are. -/
theorem stream_read_all_idle (frames : List mpf_frame_t) (cs : channel_state)
    (h : cs.channel.speak_request = none ∨ cs.channel.synthesizing = false) :
    stream_read_all cs frames
      = frames.map (fun frame => { state := cs, frame := frame, bytes_read := 0 }) ∧
    stream_read_state cs frames = cs := by
  induction frames with
  | nil => exact ⟨rfl, rfl⟩
  | cons frame rest ih =>
    rw [stream_read_all, stream_read_state, stream_read_idle cs frame h]
    exact ⟨by rw [ih.1]; rfl, ih.2⟩

/-- Draining: when the buffer holds `M` bytes and `ceil(M / f)` frames of
size `f` are pulled, the byte counts are `f` for each of the first `M / f`
pulls and `M % f` for one more pull when that is not zero; the bytes handed
out, in order, are the contents of the buffer; the buffer ends empty and
nothing is sent. -/
theorem stream_read_drain (f : Nat) (hf : 0 < f) (frames : List mpf_frame_t)
    (cs : channel_state) (request : Nat)
    (hr : cs.channel.speak_request = some request) (hs : cs.channel.synthesizing = true)
    (hwf : cs.session.audio_buffer.wf)
    (hsize : ∀ frame ∈ frames, frame.size = f)
    (hcount : frames.length = (cs.session.audio_buffer.size + f - 1) / f) :
    (stream_read_all cs frames).map (fun r => r.bytes_read)
      = List.replicate (cs.session.audio_buffer.size / f) f
        ++ (if cs.session.audio_buffer.size % f = 0 then []
            else [cs.session.audio_buffer.size % f]) ∧
    (stream_read_all cs frames).flatMap (fun r => r.frame.buffer.take r.bytes_read)
      = cs.session.audio_buffer.contents ∧
    (∀ r ∈ stream_read_all cs frames,
      r.frame.type &&& MEDIA_FRAME_TYPE_AUDIO = MEDIA_FRAME_TYPE_AUDIO) ∧
    (stream_read_state cs frames).session.audio_buffer.size = 0 ∧
    (stream_read_state cs frames).session.client = cs.session.client ∧
    (stream_read_state cs frames).sent = cs.sent ∧
    (stream_read_state cs frames).channel.speak_request = some request ∧
    (stream_read_state cs frames).channel.synthesizing = true := by
  induction frames generalizing cs with
  | nil =>
    have hz : cs.session.audio_buffer.size = 0 := by
      by_contra hne
      have h1 : f ≤ cs.session.audio_buffer.size + f - 1 := by omega
      have h2 : 0 < (cs.session.audio_buffer.size + f - 1) / f := Nat.div_pos h1 hf
      rw [List.length_nil] at hcount
      omega
    have hc : cs.session.audio_buffer.contents = [] := by
      apply List.eq_nil_of_length_eq_zero
      rw [audio_buffer_t.contents_length _ hwf, hz]
    refine ⟨?_, hc.symm, fun r h => absurd h (List.not_mem_nil r), hz, rfl, rfl, hr, hs⟩
    rw [hz]
    simp [stream_read_all]
  | cons frame rest ih =>
    have hfs : frame.size = f := hsize frame (List.mem_cons_self _ _)
    have hpos : 0 < cs.session.audio_buffer.size := by
      by_contra hne
      have hz : cs.session.audio_buffer.size = 0 := by omega
      rw [hz, List.length_cons, Nat.zero_add, Nat.div_eq_of_lt (by omega)] at hcount
      omega
    obtain ⟨a1, a2, a3, a4, a5, a6, a7, a8⟩ :=
      stream_read_audio cs frame request hr hs hwf hpos (by rw [hfs]; exact hf)
    rw [hfs] at a1 a2 a4
    have hsz : (elevenlabs_synth_stream_read cs frame).state.session.audio_buffer.size
        = cs.session.audio_buffer.size - min f cs.session.audio_buffer.size := by
      rw [← audio_buffer_t.contents_length _ a5, a4, List.length_drop,
        audio_buffer_t.contents_length _ hwf]
    have hr1 : (elevenlabs_synth_stream_read cs frame).state.channel.speak_request
        = some request := by rw [a8]; exact hr
    have hs1 : (elevenlabs_synth_stream_read cs frame).state.channel.synthesizing = true := by
      rw [a8]; exact hs
    have hsize1 : ∀ fr ∈ rest, fr.size = f := fun fr h => hsize fr (List.mem_cons_of_mem _ h)
    have hcount1 : rest.length
        = ((elevenlabs_synth_stream_read cs frame).state.session.audio_buffer.size + f - 1)
          / f := by
      rw [hsz]
      rw [List.length_cons] at hcount
      by_cases hge : f ≤ cs.session.audio_buffer.size
      · rw [Nat.min_eq_left hge]
        have e : cs.session.audio_buffer.size + f - 1
            = (cs.session.audio_buffer.size - f + f - 1) + f := by omega
        rw [e, Nat.add_div_right _ hf] at hcount
        omega
      · rw [Nat.min_eq_right (by omega), Nat.sub_self, Nat.zero_add,
          Nat.div_eq_of_lt (by omega)]
        have e : cs.session.audio_buffer.size + f - 1
            = (cs.session.audio_buffer.size - 1) + f := by omega
        rw [e, Nat.add_div_right _ hf, Nat.div_eq_of_lt (by omega)] at hcount
        omega
    obtain ⟨b1, b2, b3, b4, b5, b6, b7, b8⟩ :=
      ih (elevenlabs_synth_stream_read cs frame).state hr1 hs1 a5 hsize1 hcount1
    rw [stream_read_all, stream_read_state]
    refine ⟨?_, ?_, ?_, b4, b5.trans a6, b6.trans a7, b7, b8⟩
    · rw [List.map_cons, b1, hsz, a1]
      by_cases hge : f ≤ cs.session.audio_buffer.size
      · rw [Nat.min_eq_left hge]
        have e : cs.session.audio_buffer.size = (cs.session.audio_buffer.size - f) + f := by
          omega
        have e1 : cs.session.audio_buffer.size / f
            = (cs.session.audio_buffer.size - f) / f + 1 := by
          conv_lhs => rw [e]
          exact Nat.add_div_right _ hf
        have e2 : cs.session.audio_buffer.size % f = (cs.session.audio_buffer.size - f) % f := by
          conv_lhs => rw [e]
          exact Nat.add_mod_right _ _
        rw [e1, e2, List.replicate_succ, List.cons_append]
      · have hlt : cs.session.audio_buffer.size < f := by omega
        rw [Nat.min_eq_right (by omega), Nat.sub_self, Nat.div_eq_of_lt hlt,
          Nat.mod_eq_of_lt hlt, Nat.zero_div, Nat.zero_mod]
        simp only [List.replicate_zero, if_true, List.append_nil, List.nil_append]
        rw [if_neg (by omega)]
    · rw [List.flatMap_cons, b2, a2, a4, List.take_append_drop]
    · intro r hmem
      rcases List.mem_cons.mp hmem with rfl | hmem
      · rw [a3]
        show (frame.type ||| 1) &&& 1 = 1
        apply Nat.eq_of_testBit_eq
        intro i
        rw [Nat.testBit_and, Nat.testBit_or]
        cases i with
        | zero => simp
        | succ j =>
          have h1 : Nat.testBit 1 (j + 1) = false := by
            rw [Nat.testBit_succ]; simp
          simp [h1]
      · exact b3 r hmem

/-! ## Starting a request -/

/-- Cache playback: when every allocation succeeds, the loop appends the rest
of the file to the buffer, in file order. -/
theorem cache_playback_loop_spec (mems : Nat → Option (Nat → uint8_t))
    (hmems : ∀ i, (mems i).isSome = true) (fuel : Nat) (b : audio_buffer_t)
    (rest : List uint8_t) (i : Nat) (hwf : b.wf) (hfuel : rest.length ≤ fuel)
    (hfit : 2 * (b.size + rest.length) < APR_SIZE_MODULUS) :
    (cache_playback_loop mems fuel b rest i).wf ∧
    (cache_playback_loop mems fuel b rest i).contents = b.contents ++ rest := by
  induction fuel generalizing b rest i with
  | zero =>
    have hnil : rest = [] := List.eq_nil_of_length_eq_zero (by omega)
    rw [cache_playback_loop, hnil, List.append_nil]
    exact ⟨hwf, rfl⟩
  | succ fuel ih =>
    rw [cache_playback_loop]
    cases rest with
    | nil =>
      rw [List.append_nil]
      exact ⟨hwf, rfl⟩
    | cons x xs =>
      have hne : ((x :: xs).take 4096) ≠ [] := by simp
      have hle : ((x :: xs).take 4096).length ≤ (x :: xs).length := by
        rw [List.length_take]; exact Nat.min_le_right _ _
      have hsplit : ((x :: xs).take 4096).length + ((x :: xs).drop 4096).length
          = (x :: xs).length := by
        rw [← List.length_append, List.take_append_drop]
      have hpos : 0 < ((x :: xs).take 4096).length := List.length_pos.mpr hne
      obtain ⟨_, w1, w2, w3⟩ := audio_buffer_write_spec b ((x :: xs).take 4096) (mems i) hwf hne
        (by omega) (fun _ => hmems i)
      obtain ⟨i1, i2⟩ := ih (audio_buffer_write b ((x :: xs).take 4096) (mems i)).1
        ((x :: xs).drop 4096) (i + 1) w1
        (by rw [List.length_cons] at hfuel hsplit; omega) (by rw [w3]; omega)
      have hemp : (x :: xs).isEmpty = false := rfl
      rw [hemp]
      simp only [Bool.false_eq_true, if_false]
      refine ⟨i1, ?_⟩
      rw [i2, w2, List.append_assoc, List.take_append_drop]

/-- The reset at the start of a request does not change the cache key. -/
theorem start_cache_key_reset (sha1 : c_string → sha1_digest) (hexstr_mem : Nat → Char)
    (config : elevenlabs_config_t) (client : elevenlabs_http_client_t) (text : c_string) :
    start_cache_key sha1 hexstr_mem config (start_reset client) text
      = start_cache_key sha1 hexstr_mem config client text := rfl

/-- With caching disabled a start opens no cache file and leaves the buffer,
the files and the decoder as they are; the worker is launched when the thread
can be created. -/
theorem start_synthesis_no_cache (sha1 : c_string → sha1_digest) (hexstr_mem : Nat → Char)
    (env : start_env) (config : elevenlabs_config_t) (s : session) (text : c_string)
    (hc : config.cache_enabled = false) :
    (elevenlabs_http_client_start_synthesis sha1 hexstr_mem env config s (some text)).launched
      = env.thread_ok ∧
    (elevenlabs_http_client_start_synthesis sha1 hexstr_mem env config s (some text)).result
      = env.thread_ok ∧
    (elevenlabs_http_client_start_synthesis sha1 hexstr_mem env config s
      (some text)).session.audio_buffer = s.audio_buffer ∧
    (elevenlabs_http_client_start_synthesis sha1 hexstr_mem env config s
      (some text)).session.ulaw = s.ulaw ∧
    (elevenlabs_http_client_start_synthesis sha1 hexstr_mem env config s
      (some text)).session.files = s.files ∧
    (elevenlabs_http_client_start_synthesis sha1 hexstr_mem env config s
      (some text)).session.client.stopped = false ∧
    (elevenlabs_http_client_start_synthesis sha1 hexstr_mem env config s
      (some text)).session.client.cache_fp = none := by
  have hkey : start_cache_key sha1 hexstr_mem config (start_reset s.client) text = none := by
    simp [start_cache_key, hc]
  unfold elevenlabs_http_client_start_synthesis
  simp only [hkey, start_cache_paths]
  have hplay : start_playback env s.files (start_reset s.client) = none := rfl
  rw [hplay]
  have hopen : ∀ c : elevenlabs_http_client_t, c.cache_path_tmp = none →
      start_open_cache env config s.files c = (s.files, none) := by
    intro c h
    unfold start_open_cache
    rw [h]
  simp only [hopen _ (rfl : (start_reset s.client).cache_path_tmp = none)]
  cases env.thread_ok <;> exact ⟨rfl, rfl, rfl, rfl, rfl, rfl, rfl⟩

/-- A cache hit: the final file for the key exists, is not empty and can be
opened.  No worker is launched, the request is marked terminal, and the
playback loop runs on the bytes of the file past the header region. -/
theorem start_synthesis_hit (sha1 : c_string → sha1_digest) (hexstr_mem : Nat → Char)
    (env : start_env) (config : elevenlabs_config_t) (s : session) (text key : c_string)
    (content : List uint8_t)
    (hkey : start_cache_key sha1 hexstr_mem config s.client text = some key)
    (hfile : s.files (cache_path_final_of config key) = some content) (hne : content ≠ [])
    (hopen : env.open_read_ok = true) :
    elevenlabs_http_client_start_synthesis sha1 hexstr_mem env config s (some text)
      = { session :=
            { s with
                client := { start_cache_paths config (start_reset s.client) (some key) with
                            stopped := true },
                audio_buffer :=
                  cache_playback_loop env.mems
                    (playback_data s.files (cache_path_final_of config key)).length
                    s.audio_buffer (playback_data s.files (cache_path_final_of config key)) 0 },
          result := true, launched := false } := by
  have hpos : content.length > 0 := List.length_pos.mpr hne
  have hplay : start_playback env s.files
      (start_cache_paths config (start_reset s.client) (some key))
      = some (cache_path_final_of config key) := by
    simp [start_playback, start_cache_paths, apr_stat_size, hfile, hpos, apr_file_open_read,
      hopen]
  unfold elevenlabs_http_client_start_synthesis
  simp only [start_cache_key_reset, hkey, hplay]

/-- A lookup that misses although the file could be opened: the final file is
absent or empty. -/
theorem start_playback_none (env : start_env) (files : file_system)
    (client : elevenlabs_http_client_t) (final : c_string)
    (hfinal : client.cache_path_final = some final) (hopen : env.open_read_ok = true)
    (h : start_playback env files client = none) :
    files final = none ∨ files final = some [] := by
  unfold start_playback at h
  rw [hfinal] at h
  cases hf : files final with
  | none => exact Or.inl rfl
  | some content =>
    right
    cases content with
    | nil => rfl
    | cons x xs =>
      simp [apr_stat_size, hf, apr_file_open_read, hopen] at h

/-- A lookup on an absent or empty final file misses. -/
theorem start_playback_miss (env : start_env) (files : file_system)
    (client : elevenlabs_http_client_t) (final : c_string)
    (hfinal : client.cache_path_final = some final)
    (h : files final = none ∨ files final = some []) :
    start_playback env files client = none := by
  unfold start_playback
  rw [hfinal]
  rcases h with h | h <;> simp [apr_stat_size, h]

/-- A lookup on a final file that is not empty hits when the file can be
opened. -/
theorem start_playback_hit (env : start_env) (files : file_system)
    (client : elevenlabs_http_client_t) (final : c_string) (content : List uint8_t)
    (hfinal : client.cache_path_final = some final) (hopen : env.open_read_ok = true)
    (hfile : files final = some content) (hne : content ≠ []) :
    start_playback env files client = some final := by
  have hpos : content.length > 0 := List.length_pos.mpr hne
  simp [start_playback, hfinal, apr_stat_size, hfile, hpos, apr_file_open_read, hopen]

/-- The temporary path differs from the final path. -/
theorem cache_path_tmp_ne_final (config : elevenlabs_config_t) (key : c_string) :
    cache_path_tmp_of config key ≠ cache_path_final_of config key := by
  intro h
  have hl := congrArg List.length h
  simp only [cache_path_tmp_of, cache_path_final_of, List.length_append] at hl
  have h5 : ".part".toList.length = 5 := rfl
  omega

/-- A start that leaves a cache file open took the miss path with caching
enabled: key and paths are stored, the temporary file was created empty and
is open at the start of its data region, nothing else changed on disk, and
the lookup had missed. -/
theorem start_synthesis_miss (sha1 : c_string → sha1_digest) (hexstr_mem : Nat → Char)
    (env : start_env) (config : elevenlabs_config_t) (s : session) (text : c_string)
    (hfp : (elevenlabs_http_client_start_synthesis sha1 hexstr_mem env config s
      (some text)).session.client.cache_fp ≠ none) :
    ∃ key : c_string,
      start_cache_key sha1 hexstr_mem config s.client text = some key ∧
      (elevenlabs_http_client_start_synthesis sha1 hexstr_mem env config s
        (some text)).session.client.cache_path_final = some (cache_path_final_of config key) ∧
      (elevenlabs_http_client_start_synthesis sha1 hexstr_mem env config s
        (some text)).session.client.cache_path_tmp = some (cache_path_tmp_of config key) ∧
      cache_writing
        (elevenlabs_http_client_start_synthesis sha1 hexstr_mem env config s (some text)).session
        (cache_path_tmp_of config key)
        (if strstr_found (cache_path_final_of config key) ".wav".toList then 44 else 0) [] ∧
      (elevenlabs_http_client_start_synthesis sha1 hexstr_mem env config s
        (some text)).session.files = s.files.set (cache_path_tmp_of config key) (some []) ∧
      (elevenlabs_http_client_start_synthesis sha1 hexstr_mem env config s
        (some text)).session.audio_buffer = s.audio_buffer ∧
      (elevenlabs_http_client_start_synthesis sha1 hexstr_mem env config s
        (some text)).session.ulaw = s.ulaw ∧
      (elevenlabs_http_client_start_synthesis sha1 hexstr_mem env config s
        (some text)).session.client.stopped = false ∧
      (elevenlabs_http_client_start_synthesis sha1 hexstr_mem env config s
        (some text)).session.client.request_voice_id = s.client.request_voice_id ∧
      (elevenlabs_http_client_start_synthesis sha1 hexstr_mem env config s
        (some text)).launched = env.thread_ok ∧
      start_playback env s.files
        (start_cache_paths config (start_reset s.client) (some key)) = none := by
  cases hk : start_cache_key sha1 hexstr_mem config s.client text with
  | none =>
    exfalso
    apply hfp
    unfold elevenlabs_http_client_start_synthesis
    simp only [start_cache_key_reset, hk, start_cache_paths]
    have hplay : start_playback env s.files (start_reset s.client) = none := rfl
    rw [hplay]
    have hopen : start_open_cache env config s.files
        { start_reset s.client with
            url := some (request_url config (start_voice_id config (start_reset s.client))),
            post_data := some (request_post_data config text) } = (s.files, none) := rfl
    simp only [hopen]
    cases env.thread_ok <;> rfl
  | some key =>
    refine ⟨key, rfl, ?_⟩
    cases hp : start_playback env s.files
        (start_cache_paths config (start_reset s.client) (some key)) with
    | some final =>
      exfalso
      apply hfp
      unfold elevenlabs_http_client_start_synthesis
      simp only [start_cache_key_reset, hk, hp]
      rfl
    | none =>
      have hopen : start_open_cache env config s.files
          { start_cache_paths config (start_reset s.client) (some key) with
              url := some (request_url config
                (start_voice_id config
                  (start_cache_paths config (start_reset s.client) (some key)))),
              post_data := some (request_post_data config text) }
          = if config.cache_enabled && env.open_write_ok then
              ((s.files.set (cache_path_tmp_of config key) (some []),
                some { fname := cache_path_tmp_of config key,
                       filePtr := if strstr_found (cache_path_final_of config key) ".wav".toList
                                  then 44 else 0 }))
            else (s.files, none) := by
        unfold start_open_cache
        simp only [start_cache_paths, start_reset, Bool.not_false, Bool.and_true,
          apr_file_open_write]
        cases config.cache_enabled <;> cases env.open_write_ok <;>
          simp only [Bool.false_eq_true, if_false, if_true, Bool.and_self, Bool.and_false,
            Bool.and_true]
        split_ifs <;> rfl
      unfold elevenlabs_http_client_start_synthesis at hfp ⊢
      simp only [start_cache_key_reset, hk, hp, hopen] at hfp ⊢
      by_cases hco : (config.cache_enabled && env.open_write_ok) = true
      · simp only [hco, if_true] at hfp ⊢
        have hset : (s.files.set (cache_path_tmp_of config key) (some []))
            (cache_path_tmp_of config key)
            = some (if ([] : List uint8_t) = [] then []
                else List.replicate
                  (if strstr_found (cache_path_final_of config key) ".wav".toList then 44 else 0)
                  0 ++ []) := by
          rw [file_system.set_same, if_pos rfl]
        cases env.thread_ok <;>
          exact ⟨rfl, rfl, ⟨rfl, rfl, hset⟩, rfl, rfl, rfl, rfl, rfl, rfl, trivial⟩
      · exfalso
        apply hfp
        simp only [hco, if_false]
        cases env.thread_ok <;> rfl

/-- A SPEAK request with a text that is not empty, when the start succeeds:
the request becomes the active one, the channel is synthesizing, and the
IN-PROGRESS response is sent. -/
theorem channel_speak_started (sha1 : c_string → sha1_digest) (hexstr_mem : Nat → Char)
    (env : start_env) (config : elevenlabs_config_t) (cs : channel_state) (request : Nat)
    (voice_name : Option c_string) (text : c_string) (ht : text ≠ [])
    (hres : (elevenlabs_http_client_start_synthesis sha1 hexstr_mem env config
      (speak_session config cs voice_name) (some text)).result = true) :
    elevenlabs_channel_speak sha1 hexstr_mem env config cs request voice_name (some text)
      = ({ channel := { cs.channel with speak_request := some request, stop_response := none,
                                        progress_counter := 0, synthesizing := true },
           session := (elevenlabs_http_client_start_synthesis sha1 hexstr_mem env config
             (speak_session config cs voice_name) (some text)).session,
           sent := cs.sent ++
             [mrcp_message_t.response request mrcp_request_state_e.INPROGRESS false] },
         elevenlabs_http_client_start_synthesis sha1 hexstr_mem env config
           (speak_session config cs voice_name) (some text)) := by
  have hlen : (text.length == 0) = false := by
    cases text with
    | nil => exact absurd rfl ht
    | cons x xs => rfl
  have hsess : ({ cs.session with
      client := { cs.session.client with request_voice_id := speak_voice_id config voice_name },
      audio_buffer := audio_buffer_clear cs.session.audio_buffer } : session)
      = speak_session config cs voice_name := rfl
  unfold elevenlabs_channel_speak
  simp only [hlen, Bool.false_eq_true, if_false, hsess, hres, Bool.not_true]

/-- The cache key depends on the client through the voice of the request
only. -/
theorem start_cache_key_congr (sha1 : c_string → sha1_digest) (hexstr_mem : Nat → Char)
    (config : elevenlabs_config_t) (c1 c2 : elevenlabs_http_client_t) (text : c_string)
    (h : c1.request_voice_id = c2.request_voice_id) :
    start_cache_key sha1 hexstr_mem config c1 text
      = start_cache_key sha1 hexstr_mem config c2 text := by
  unfold start_cache_key start_voice_id
  rw [h]

theorem wav_header_length (output_format : Option c_string) (fallback_ulaw_to_pcm : Bool)
    (n : Nat) : (wav_header output_format fallback_ulaw_to_pcm n).length = 44 := by
  rw [wav_header_eq_layout]
  rfl

/-! ## The worker thread -/

/-- A transfer that reports `CURLE_OK` was not aborted by the sink. -/
theorem curl_easy_perform_ok (config : elevenlabs_config_t)
    (mems : Nat → Option (Nat → uint8_t)) (s : session) (chunks : List (List uint8_t))
    (net_res : Nat) (h : (curl_easy_perform config mems s chunks net_res).2 = CURLE_OK) :
    (curl_deliver config mems s chunks 0).2 = false ∧ net_res = CURLE_OK := by
  have h1 : (if (curl_deliver config mems s chunks 0).2 = true then CURLE_WRITE_ERROR
      else net_res) = CURLE_OK := h
  cases hd : (curl_deliver config mems s chunks 0).2 with
  | true =>
    rw [hd, if_pos rfl] at h1
    exact absurd h1 (by decide)
  | false =>
    rw [hd, if_neg Bool.false_ne_true] at h1
    exact ⟨rfl, h1⟩

/-- The worker without cache file: the transfer, then `stopped = TRUE`. -/
theorem elevenlabs_http_thread_plain (config : elevenlabs_config_t)
    (mems : Nat → Option (Nat → uint8_t)) (s : session) (chunks : List (List uint8_t))
    (net_res http_code : Nat) (hfp : s.client.cache_fp = none) :
    elevenlabs_http_thread config mems s chunks net_res http_code
      = { (curl_deliver config mems s chunks 0).1 with
            client := { (curl_deliver config mems s chunks 0).1.client with stopped := true } } := by
  have h := ((curl_deliver_frame config mems chunks s 0).2.2.2.2.1 hfp).1
  unfold elevenlabs_http_thread cache_finalize curl_easy_perform
  simp only [h]

/-! ## Cache hit: the claim -/

/-- C12 (cache hit). A SPEAK request whose cache key is computed (caching
enabled, a cache directory configured, no `NULL` field) and whose final cache
file exists with a size above zero and can be opened: no worker is launched,
the request is marked terminal at once, and the cleared buffer receives the
bytes of the file past its first 44 bytes when the path contains `.wav`, all
of its bytes otherwise, in file order.  Frame pulls of size `f > 0` then hand
out exactly this payload in `ceil(len / f)` frames and the next pull reports
SPEAK-COMPLETE with cause NORMAL.  (The allocations of the buffer succeed and
the file is shorter than `2 ^ 63` bytes.) -/
theorem cache_hit_playback (sha1 : c_string → sha1_digest) (hexstr_mem : Nat → Char)
    (env : start_env) (config : elevenlabs_config_t) (cs : channel_state) (request : Nat)
    (voice_name : Option c_string) (text key : c_string) (content : List uint8_t)
    (f : Nat) (frames : List mpf_frame_t) (frame : mpf_frame_t)
    (ht : text ≠ [])
    (hkey : start_cache_key sha1 hexstr_mem config (speak_session config cs voice_name).client
      text = some key)
    (hfile : cs.session.files (cache_path_final_of config key) = some content)
    (hne : content ≠ []) (hopen : env.open_read_ok = true)
    (hmems : ∀ i, (env.mems i).isSome = true) (hwf : cs.session.audio_buffer.wf)
    (hfit : 2 * content.length < APR_SIZE_MODULUS)
    (hf : 0 < f) (hsize : ∀ fr ∈ frames, fr.size = f)
    (hcount : frames.length
      = ((content.drop (if strstr_found (cache_path_final_of config key) ".wav".toList
            then 44 else 0)).length + f - 1) / f) :
    let payload := content.drop
      (if strstr_found (cache_path_final_of config key) ".wav".toList then 44 else 0)
    let r := elevenlabs_channel_speak sha1 hexstr_mem env config cs request voice_name
      (some text)
    let done := elevenlabs_synth_stream_read (stream_read_state r.1 frames) frame
    config.cache_enabled = true ∧
    r.2.launched = false ∧ r.2.result = true ∧
    r.1.session.client.stopped = true ∧
    r.1.session.files = cs.session.files ∧
    r.1.session.audio_buffer.contents = payload ∧
    (stream_read_all r.1 frames).map (fun x => x.bytes_read)
      = List.replicate (payload.length / f) f
        ++ (if payload.length % f = 0 then [] else [payload.length % f]) ∧
    (stream_read_all r.1 frames).flatMap (fun x => x.frame.buffer.take x.bytes_read)
      = payload ∧
    (stream_read_state r.1 frames).sent
      = cs.sent ++ [mrcp_message_t.response request mrcp_request_state_e.INPROGRESS false] ∧
    done.bytes_read = 0 ∧
    done.state.sent
      = cs.sent ++ [mrcp_message_t.response request mrcp_request_state_e.INPROGRESS false,
          mrcp_message_t.speak_complete request mrcp_synth_completion_cause_e.NORMAL] := by
  intro payload r done
  have hen : config.cache_enabled = true := by
    unfold start_cache_key at hkey
    cases h : config.cache_enabled with
    | true => rfl
    | false => rw [h] at hkey; simp at hkey
  have hstart := start_synthesis_hit sha1 hexstr_mem env config
    (speak_session config cs voice_name) text key content hkey hfile hne hopen
  have hspeak := channel_speak_started sha1 hexstr_mem env config cs request voice_name text ht
    (by rw [hstart])
  have hdata : playback_data (speak_session config cs voice_name).files
      (cache_path_final_of config key) = payload := by
    show ((cs.session.files (cache_path_final_of config key)).getD []).drop _ = payload
    rw [hfile]
    rfl
  have hle : payload.length ≤ content.length := by
    show (content.drop _).length ≤ _
    rw [List.length_drop]
    exact Nat.sub_le _ _
  have hwf0 : (speak_session config cs voice_name).audio_buffer.wf :=
    ⟨hwf.1, hwf.2.1, Nat.zero_le _⟩
  have hsz0 : (speak_session config cs voice_name).audio_buffer.size = 0 := rfl
  have hc0 : (speak_session config cs voice_name).audio_buffer.contents = [] := by
    apply List.eq_nil_of_length_eq_zero
    rw [audio_buffer_t.contents_length _ hwf0, hsz0]
  obtain ⟨l1, l2⟩ := cache_playback_loop_spec env.mems hmems payload.length
    (speak_session config cs voice_name).audio_buffer payload 0 hwf0 (Nat.le_refl _)
    (by rw [hsz0]; omega)
  rw [hc0, List.nil_append] at l2
  have hr1 : r.1 = { channel := { cs.channel with speak_request := some request,
                                                    stop_response := none,
                                                    progress_counter := 0,
                                                    synthesizing := true },
                     session := (elevenlabs_http_client_start_synthesis sha1 hexstr_mem env
                       config (speak_session config cs voice_name) (some text)).session,
                     sent := cs.sent ++
                       [mrcp_message_t.response request mrcp_request_state_e.INPROGRESS
                         false] } := by
    show (elevenlabs_channel_speak sha1 hexstr_mem env config cs request voice_name
      (some text)).1 = _
    rw [hspeak]
  have hr2 : r.2 = elevenlabs_http_client_start_synthesis sha1 hexstr_mem env config
      (speak_session config cs voice_name) (some text) := by
    show (elevenlabs_channel_speak sha1 hexstr_mem env config cs request voice_name
      (some text)).2 = _
    rw [hspeak]
  have hbuf : r.1.session.audio_buffer
      = cache_playback_loop env.mems payload.length
          (speak_session config cs voice_name).audio_buffer payload 0 := by
    rw [hr1]
    show (elevenlabs_http_client_start_synthesis sha1 hexstr_mem env config
      (speak_session config cs voice_name) (some text)).session.audio_buffer = _
    rw [hstart]
    show cache_playback_loop env.mems (playback_data _ _).length _ (playback_data _ _) 0 = _
    rw [hdata]
  have hwf1 : r.1.session.audio_buffer.wf := by rw [hbuf]; exact l1
  have hcont : r.1.session.audio_buffer.contents = payload := by rw [hbuf]; exact l2
  have hsz : r.1.session.audio_buffer.size = payload.length := by
    rw [← audio_buffer_t.contents_length _ hwf1, hcont]
  have hstop : r.1.session.client.stopped = true := by
    rw [hr1]
    show (elevenlabs_http_client_start_synthesis sha1 hexstr_mem env config
      (speak_session config cs voice_name) (some text)).session.client.stopped = true
    rw [hstart]
  have hfiles : r.1.session.files = cs.session.files := by
    rw [hr1]
    show (elevenlabs_http_client_start_synthesis sha1 hexstr_mem env config
      (speak_session config cs voice_name) (some text)).session.files = _
    rw [hstart]
    rfl
  have hsent : r.1.sent
      = cs.sent ++ [mrcp_message_t.response request mrcp_request_state_e.INPROGRESS false] := by
    rw [hr1]
  obtain ⟨q1, q2, _, q4, q5, q6, q7, q8⟩ :=
    stream_read_drain f hf frames r.1 request (by rw [hr1]) (by rw [hr1]) hwf1 hsize
      (by rw [hsz]; exact hcount)
  rw [hsz] at q1
  have hdone : done =
      { state :=
          { (stream_read_state r.1 frames) with
              channel := { (stream_read_state r.1 frames).channel with
                             speak_request := none, synthesizing := false },
              sent := (stream_read_state r.1 frames).sent ++
                [mrcp_message_t.speak_complete request mrcp_synth_completion_cause_e.NORMAL] },
        frame := frame, bytes_read := 0 } :=
    stream_read_complete _ frame request q7 q8 q4 (by rw [q5]; exact hstop)
  refine ⟨hen, by rw [hr2, hstart], by rw [hr2, hstart], hstop, hfiles, hcont, q1,
    q2.trans hcont, q6.trans hsent, by rw [hdone], ?_⟩
  rw [hdone]
  show (stream_read_state r.1 frames).sent ++ _ = _
  rw [q6, hsent, List.append_assoc]
  rfl

set_option maxRecDepth 100000 in
/-- Witness for C12: a `.wav` entry of 44 + 100 bytes is played back in two
frames of 50 bytes, without a worker. -/
theorem cache_hit_playback_witness :
    (elevenlabs_channel_speak example_sha1 (fun _ => NUL) example_env example_cache_config
      example_cached_channel 1 none (some "hello".toList)).2.launched = false ∧
    (elevenlabs_channel_speak example_sha1 (fun _ => NUL) example_env example_cache_config
      example_cached_channel 1 none (some "hello".toList)).1.session.audio_buffer.contents
      = example_cache_file.drop
          (if strstr_found (cache_path_final_of example_cache_config example_key) ".wav".toList
           then 44 else 0) := by
  have h := cache_hit_playback example_sha1 (fun _ => NUL) example_env example_cache_config
    example_cached_channel 1 none "hello".toList example_key example_cache_file 50
    (List.replicate 2 (example_frame 50)) (example_frame 50)
    (by decide) rfl
    (file_system.set_same (fun _ => none)
      (cache_path_final_of example_cache_config example_key) (some example_cache_file))
    (by decide) rfl (fun _ => rfl) (by decide)
    (by decide) (by decide)
    (by intro fr hfr; rw [List.eq_of_mem_replicate hfr]; rfl) (by decide)
  exact ⟨h.2.1, h.2.2.2.2.2.1⟩

/-! ## Finalizing the cache file -/

/-- What the finalization never changes, and the handle it always clears. -/
theorem cache_finalize_frame (config : elevenlabs_config_t) (s : session)
    (res http_code : Nat) :
    (cache_finalize config s res http_code).audio_buffer = s.audio_buffer ∧
    (cache_finalize config s res http_code).ulaw = s.ulaw ∧
    (cache_finalize config s res http_code).client.cache_fp = none ∧
    (cache_finalize config s res http_code).client.request_voice_id
      = s.client.request_voice_id ∧
    (cache_finalize config s res http_code).client.stopped = s.client.stopped := by
  unfold cache_finalize
  cases hfp : s.client.cache_fp with
  | none => exact ⟨rfl, rfl, hfp, rfl, rfl⟩
  | some fp =>
    simp only []
    split_ifs <;> exact ⟨rfl, rfl, rfl, rfl, rfl⟩

/-- Discard: when the transfer failed, the status is not 200 or no byte was
appended, the temporary file is removed and nothing else changes on disk. -/
theorem cache_finalize_discard (config : elevenlabs_config_t) (s : session)
    (res http_code : Nat) (tmp : c_string) (hopen : cache_open s tmp)
    (htmp : s.client.cache_path_tmp = some tmp)
    (hnot : res ≠ CURLE_OK ∨ http_code ≠ 200 ∨ s.client.cache_data_bytes = 0) :
    (cache_finalize config s res http_code).files = s.files.set tmp none := by
  obtain ⟨fp, hfp, _⟩ := hopen
  have hok : (res == CURLE_OK && http_code == 200 && decide (s.client.cache_data_bytes > 0))
      = false := by
    rcases hnot with h | h | h
    · simp [h]
    · simp [h]
    · simp [h]
  unfold cache_finalize
  rw [hfp]
  simp only [hok, Bool.false_eq_true, if_false, htmp, apr_file_remove]

/-- Overwriting the reserved header region of a `.wav` temporary file. -/
theorem file_write_at_header (hdr payload : List uint8_t) (h : hdr.length = 44) :
    file_write_at (List.replicate 44 0 ++ payload) 0 hdr = hdr ++ payload := by
  unfold file_write_at
  rw [List.take_zero, List.nil_append, Nat.zero_add, h]
  have hd : (List.replicate 44 (0 : uint8_t) ++ payload).drop 44 = payload := by
    have := List.drop_left (List.replicate 44 (0 : uint8_t)) payload
    rwa [List.length_replicate] at this
  rw [hd]

/-- Commit: after a successful transfer with at least one byte appended, the
final path holds the header (for a path that contains `.wav`) followed by the
payload, the temporary path is gone, and no other path changed. -/
theorem cache_finalize_commit (config : elevenlabs_config_t) (s : session)
    (tmp final : c_string) (payload : List uint8_t)
    (hcw : cache_writing s tmp (if strstr_found final ".wav".toList then 44 else 0) payload)
    (htmp : s.client.cache_path_tmp = some tmp) (hfinal : s.client.cache_path_final = some final)
    (hne : payload ≠ []) (htf : tmp ≠ final) :
    (cache_finalize config s CURLE_OK 200).files final
      = some ((if strstr_found final ".wav".toList then
                wav_header config.output_format config.fallback_ulaw_to_pcm payload.length
               else []) ++ payload) ∧
    (cache_finalize config s CURLE_OK 200).files tmp = none ∧
    (∀ p : c_string, p ≠ tmp → p ≠ final →
      (cache_finalize config s CURLE_OK 200).files p = s.files p) := by
  obtain ⟨hfp, hbytes, hfile⟩ := hcw
  rw [if_neg hne] at hfile
  have hpos : s.client.cache_data_bytes > 0 := by
    rw [hbytes]; exact List.length_pos.mpr hne
  rw [hbytes] at hpos
  have hok : (CURLE_OK == CURLE_OK && (200 : Nat) == 200
      && decide (payload.length > 0)) = true := by
    simp [hpos]
  unfold cache_finalize
  rw [hfp]
  simp only [hbytes, hok, if_true, hfinal, htmp, apr_file_remove]
  cases hw : strstr_found final ".wav".toList with
  | false =>
    rw [hw] at hfile
    simp only [Bool.false_eq_true, if_false, List.replicate_zero, List.nil_append] at hfile ⊢
    have h1 : (s.files.set final none) tmp = some payload := by
      rw [file_system.set_other _ _ _ _ htf, hfile]
    unfold apr_file_rename
    rw [h1]
    dsimp only
    refine ⟨?_, file_system.set_same _ _ _, ?_⟩
    · rw [file_system.set_other _ _ _ _ (Ne.symm htf), file_system.set_same]
    · intro p hp1 hp2
      rw [file_system.set_other _ _ _ _ hp1, file_system.set_other _ _ _ _ hp2,
        file_system.set_other _ _ _ _ hp2]
  | true =>
    rw [hw] at hfile
    simp only [if_true] at hfile ⊢
    have hhdr : (wav_header config.output_format config.fallback_ulaw_to_pcm
        payload.length).length = 44 := wav_header_length _ _ _
    have hnehdr : (wav_header config.output_format config.fallback_ulaw_to_pcm
        payload.length).isEmpty = false := by
      cases hh : wav_header config.output_format config.fallback_ulaw_to_pcm payload.length with
      | nil => rw [hh] at hhdr; cases hhdr
      | cons x xs => rfl
    have hwrite : (apr_file_write s.files
        (apr_file_seek { fname := tmp, filePtr := 44 + payload.length } 0)
        (wav_header config.output_format config.fallback_ulaw_to_pcm payload.length)).1
        = s.files.set tmp (some
            (wav_header config.output_format config.fallback_ulaw_to_pcm payload.length
              ++ payload)) := by
      unfold apr_file_write apr_file_seek
      rw [hnehdr]
      simp only [Bool.false_eq_true, if_false, hfile, file_write_at_header _ _ hhdr]
    rw [hwrite]
    have h1 : ((s.files.set tmp (some
        (wav_header config.output_format config.fallback_ulaw_to_pcm payload.length
          ++ payload))).set final none) tmp
        = some (wav_header config.output_format config.fallback_ulaw_to_pcm payload.length
            ++ payload) := by
      rw [file_system.set_other _ _ _ _ htf, file_system.set_same]
    unfold apr_file_rename
    rw [h1]
    dsimp only
    refine ⟨?_, file_system.set_same _ _ _, ?_⟩
    · rw [file_system.set_other _ _ _ _ (Ne.symm htf), file_system.set_same]
    · intro p hp1 hp2
      rw [file_system.set_other _ _ _ _ hp1, file_system.set_other _ _ _ _ hp2,
        file_system.set_other _ _ _ _ hp2, file_system.set_other _ _ _ _ hp1]

/-- The files after the worker has run on a session with an open cache file:
either the entry was committed or the temporary file was discarded. -/
theorem thread_files (config : elevenlabs_config_t) (mems : Nat → Option (Nat → uint8_t))
    (s : session) (chunks : List (List uint8_t)) (net_res http_code : Nat)
    (tmp final : c_string)
    (hcw : cache_writing s tmp (if strstr_found final ".wav".toList then 44 else 0) [])
    (htmp : s.client.cache_path_tmp = some tmp) (hfinal : s.client.cache_path_final = some final)
    (htf : tmp ≠ final) (hst : s.client.stopped = false) (hwf : s.audio_buffer.wf)
    (hfit : 2 * (s.audio_buffer.size + (deliver_outputs config s.ulaw chunks).length)
      < APR_SIZE_MODULUS) :
    (elevenlabs_http_thread config mems s chunks net_res http_code).files tmp = none ∧
    (∀ p : c_string, p ≠ tmp → p ≠ final →
      (elevenlabs_http_thread config mems s chunks net_res http_code).files p = s.files p) ∧
    ((curl_easy_perform config mems s chunks net_res).2 = CURLE_OK →
      (elevenlabs_http_thread config mems s chunks net_res http_code).audio_buffer.wf ∧
      (elevenlabs_http_thread config mems s chunks net_res http_code).audio_buffer.contents
        = s.audio_buffer.contents ++ deliver_outputs config s.ulaw chunks) ∧
    ((curl_easy_perform config mems s chunks net_res).2 = CURLE_OK → http_code = 200 →
      deliver_outputs config s.ulaw chunks ≠ [] →
      (elevenlabs_http_thread config mems s chunks net_res http_code).files final
        = some ((if strstr_found final ".wav".toList then
                  wav_header config.output_format config.fallback_ulaw_to_pcm
                    (deliver_outputs config s.ulaw chunks).length
                 else []) ++ deliver_outputs config s.ulaw chunks)) ∧
    (((curl_easy_perform config mems s chunks net_res).2 ≠ CURLE_OK ∨ http_code ≠ 200 ∨
        deliver_outputs config s.ulaw chunks = []) →
      (elevenlabs_http_thread config mems s chunks net_res http_code).files final
        = s.files final) := by
  obtain ⟨f1, f2, _, _, _, f6⟩ := curl_deliver_frame config mems chunks s 0
  obtain ⟨g1, g2⟩ := f6 tmp ⟨_, hcw.1, rfl⟩
  have hthread_files : (elevenlabs_http_thread config mems s chunks net_res http_code).files
      = (cache_finalize config (curl_deliver config mems s chunks 0).1
          (curl_easy_perform config mems s chunks net_res).2 http_code).files := rfl
  have hthread_buf : (elevenlabs_http_thread config mems s chunks net_res http_code).audio_buffer
      = (curl_deliver config mems s chunks 0).1.audio_buffer :=
    (cache_finalize_frame config _ _ http_code).1
  have hdiscard : ((curl_easy_perform config mems s chunks net_res).2 ≠ CURLE_OK ∨
      http_code ≠ 200 ∨ (curl_deliver config mems s chunks 0).1.client.cache_data_bytes = 0) →
      (elevenlabs_http_thread config mems s chunks net_res http_code).files tmp = none ∧
      (∀ p : c_string, p ≠ tmp →
        (elevenlabs_http_thread config mems s chunks net_res http_code).files p = s.files p) := by
    intro hnot
    rw [hthread_files, cache_finalize_discard config _ _ http_code tmp g1 (f1.trans htmp) hnot]
    refine ⟨file_system.set_same _ _ _, ?_⟩
    intro p hp
    rw [file_system.set_other _ _ _ _ hp, g2 p hp]
  by_cases hres : (curl_easy_perform config mems s chunks net_res).2 = CURLE_OK
  · obtain ⟨hok, _⟩ := curl_easy_perform_ok config mems s chunks net_res hres
    obtain ⟨d1, d2, d3⟩ := curl_deliver_ok config mems chunks s 0 hst hwf hok hfit
    have hcw1 := d3 tmp _ [] hcw (by rw [List.length_nil]; omega)
    rw [List.nil_append] at hcw1
    by_cases hcommit : http_code = 200 ∧ deliver_outputs config s.ulaw chunks ≠ []
    · obtain ⟨h200, hout⟩ := hcommit
      obtain ⟨c1, c2, c3⟩ := cache_finalize_commit config _ tmp final _ hcw1 (f1.trans htmp)
        (f2.trans hfinal) hout htf
      have hcf : (elevenlabs_http_thread config mems s chunks net_res http_code).files
          = (cache_finalize config (curl_deliver config mems s chunks 0).1 CURLE_OK 200).files := by
        rw [hthread_files, hres, h200]
      refine ⟨by rw [hcf]; exact c2, ?_,
        fun _ => ⟨by rw [hthread_buf]; exact d1, by rw [hthread_buf]; exact d2⟩,
        fun _ _ _ => by rw [hcf]; exact c1, ?_⟩
      · intro p hp1 hp2
        rw [hcf, c3 p hp1 hp2, g2 p hp1]
      · intro hnot
        rcases hnot with h | h | h
        · exact absurd hres h
        · exact absurd h200 h
        · exact absurd h hout
    · have hnot : http_code ≠ 200 ∨
          (curl_deliver config mems s chunks 0).1.client.cache_data_bytes = 0 := by
        by_cases h200 : http_code = 200
        · right
          have hnil : deliver_outputs config s.ulaw chunks = [] := by
            by_contra hne
            exact hcommit ⟨h200, hne⟩
          rw [hcw1.2.1, hnil]
          rfl
        · exact Or.inl h200
      obtain ⟨e1, e2⟩ := hdiscard (Or.inr hnot)
      refine ⟨e1, fun p hp1 _ => e2 p hp1,
        fun _ => ⟨by rw [hthread_buf]; exact d1, by rw [hthread_buf]; exact d2⟩, ?_,
        fun _ => e2 final (Ne.symm htf)⟩
      intro _ h200 hout
      exact absurd ⟨h200, hout⟩ hcommit
  · obtain ⟨e1, e2⟩ := hdiscard (Or.inl hres)
    exact ⟨e1, fun p hp1 _ => e2 p hp1, fun h => absurd h hres, fun h => absurd h hres,
      fun _ => e2 final (Ne.symm htf)⟩

/-- The worker keeps the voice of the request. -/
theorem elevenlabs_http_thread_voice (config : elevenlabs_config_t)
    (mems : Nat → Option (Nat → uint8_t)) (s : session) (chunks : List (List uint8_t))
    (net_res http_code : Nat) :
    (elevenlabs_http_thread config mems s chunks net_res http_code).client.request_voice_id
      = s.client.request_voice_id :=
  ((cache_finalize_frame config _ _ http_code).2.2.2.1).trans
    (curl_deliver_frame config mems chunks s 0).2.2.1

/-- The sink hands on no byte exactly when no byte was received. -/
theorem deliver_outputs_eq_nil (config : elevenlabs_config_t) (u : ulaw_state)
    (chunks : List (List uint8_t)) :
    deliver_outputs config u chunks = [] ↔ chunks.flatten = [] := by
  induction chunks generalizing u with
  | nil => exact ⟨fun _ => rfl, fun _ => rfl⟩
  | cons c cs ih =>
    rw [deliver_outputs, List.flatten_cons, List.append_eq_nil, List.append_eq_nil,
      (sink_output_length config u c).1, ih]

/-! ## Cache commit: the claim -/

/-- C11 (cache commit). A start that leaves a write-through handle open has
stored the key and the two paths and created the temporary file empty; when
the worker then ends (`n` is the number of payload bytes the sink handed on):
if the transfer reported `CURLE_OK` with status 200 and `n > 0`, the final
path holds a file of `n` bytes plus 44 when the path contains `.wav` (the
payload follows the header region), the temporary path is gone, and every
later lookup that can open the file hits; otherwise the temporary path is
gone, the final path holds what it held before the start, and (the lookup of
this start having been able to open files) every later lookup misses.  No
other path changes.  (Buffer sizes stay below `2 ^ 63`.) -/
theorem cache_commit_atomic (sha1 : c_string → sha1_digest) (hexstr_mem : Nat → Char)
    (env : start_env) (config : elevenlabs_config_t) (s : session) (text : c_string)
    (mems : Nat → Option (Nat → uint8_t)) (chunks : List (List uint8_t))
    (net_res http_code : Nat)
    (hfp : (elevenlabs_http_client_start_synthesis sha1 hexstr_mem env config s
      (some text)).session.client.cache_fp.isSome = true)
    (hwf : s.audio_buffer.wf)
    (hfit : 2 * (s.audio_buffer.size + (deliver_outputs config s.ulaw chunks).length)
      < APR_SIZE_MODULUS) :
    ∃ key : c_string,
      start_cache_key sha1 hexstr_mem config s.client text = some key ∧
      let final := cache_path_final_of config key
      let tmp := cache_path_tmp_of config key
      let hdr := if strstr_found final ".wav".toList then 44 else 0
      let n := (deliver_outputs config s.ulaw chunks).length
      let started := (elevenlabs_http_client_start_synthesis sha1 hexstr_mem env config s
        (some text)).session
      let res := (curl_easy_perform config mems started chunks net_res).2
      let ended := elevenlabs_http_thread config mems started chunks net_res http_code
      started.client.cache_path_final = some final ∧
      started.client.cache_path_tmp = some tmp ∧
      started.files tmp = some [] ∧
      ended.client.cache_fp = none ∧
      (res = CURLE_OK → http_code = 200 → 0 < n →
        (∃ content : List uint8_t, ended.files final = some content ∧
          content.length = n + hdr ∧
          content.drop hdr = deliver_outputs config s.ulaw chunks) ∧
        ended.files tmp = none ∧
        (∀ (env2 : start_env) (client2 : elevenlabs_http_client_t),
          env2.open_read_ok = true → client2.cache_path_final = some final →
          start_playback env2 ended.files client2 = some final)) ∧
      ((res ≠ CURLE_OK ∨ http_code ≠ 200 ∨ n = 0) →
        ended.files tmp = none ∧ ended.files final = s.files final ∧
        (env.open_read_ok = true →
          ∀ (env2 : start_env) (client2 : elevenlabs_http_client_t),
            client2.cache_path_final = some final →
            start_playback env2 ended.files client2 = none)) ∧
      (∀ p : c_string, p ≠ tmp → p ≠ final → ended.files p = s.files p) := by
  have hfp1 : (elevenlabs_http_client_start_synthesis sha1 hexstr_mem env config s
      (some text)).session.client.cache_fp ≠ none := by
    intro h
    rw [h] at hfp
    cases hfp
  obtain ⟨key, k1, k2, k3, k4, k5, k6, k7, k8, _, _, k11⟩ :=
    start_synthesis_miss sha1 hexstr_mem env config s text hfp1
  refine ⟨key, k1, ?_⟩
  intro final tmp hdr n started res ended
  have htf : tmp ≠ final := cache_path_tmp_ne_final config key
  obtain ⟨t1, t2, _, t4, t5⟩ := thread_files config mems started chunks net_res http_code
    tmp final k4 k3 k2 htf k8 (by rw [k6]; exact hwf) (by rw [k6, k7]; exact hfit)
  have hu : started.ulaw = s.ulaw := k7
  have hfiles : ∀ p : c_string, p ≠ tmp → started.files p = s.files p := by
    intro p hp
    show (elevenlabs_http_client_start_synthesis sha1 hexstr_mem env config s
      (some text)).session.files p = _
    rw [k5, file_system.set_other _ _ _ _ hp]
  rw [hu] at t4 t5
  refine ⟨k2, k3, k4.2.2, ?_, ?_, ?_, ?_⟩
  · exact (cache_finalize_frame config _ _ http_code).2.2.1
  · intro hres h200 hn
    have hne : deliver_outputs config s.ulaw chunks ≠ [] := List.length_pos.mp hn
    have hfile := t4 hres h200 hne
    have hdrop : ((if strstr_found final ".wav".toList then
          wav_header config.output_format config.fallback_ulaw_to_pcm
            (deliver_outputs config s.ulaw chunks).length
        else []) ++ deliver_outputs config s.ulaw chunks).drop hdr
        = deliver_outputs config s.ulaw chunks := by
      show List.drop (if strstr_found final ".wav".toList then 44 else 0) _ = _
      cases strstr_found final ".wav".toList with
      | false => rfl
      | true =>
        simp only [if_true]
        have := List.drop_left (wav_header config.output_format config.fallback_ulaw_to_pcm
          (deliver_outputs config s.ulaw chunks).length) (deliver_outputs config s.ulaw chunks)
        rwa [wav_header_length] at this
    have hlen : ((if strstr_found final ".wav".toList then
          wav_header config.output_format config.fallback_ulaw_to_pcm
            (deliver_outputs config s.ulaw chunks).length
        else []) ++ deliver_outputs config s.ulaw chunks).length = n + hdr := by
      show _ = (deliver_outputs config s.ulaw chunks).length
        + (if strstr_found final ".wav".toList then 44 else 0)
      rw [List.length_append]
      cases strstr_found final ".wav".toList with
      | false => simp
      | true =>
        simp only [if_true]
        rw [wav_header_length, Nat.add_comm]
    refine ⟨⟨_, hfile, hlen, hdrop⟩, t1, ?_⟩
    intro env2 client2 hopen2 hfinal2
    refine start_playback_hit env2 _ client2 final _ hfinal2 hopen2 hfile ?_
    intro hnil
    exact hne (List.append_eq_nil.mp hnil).2
  · intro hnot
    have hnot1 : res ≠ CURLE_OK ∨ http_code ≠ 200 ∨ deliver_outputs config s.ulaw chunks = [] := by
      rcases hnot with h | h | h
      · exact Or.inl h
      · exact Or.inr (Or.inl h)
      · exact Or.inr (Or.inr (List.eq_nil_of_length_eq_zero h))
    have hsame : ended.files final = s.files final :=
      (t5 hnot1).trans (hfiles final (Ne.symm htf))
    refine ⟨t1, hsame, ?_⟩
    intro hopen env2 client2 hfinal2
    apply start_playback_miss env2 _ client2 final hfinal2
    rw [hsame]
    exact start_playback_none env s.files _ final rfl hopen k11
  · intro p hp1 hp2
    rw [t2 p hp1 hp2, hfiles p hp1]

set_option maxRecDepth 100000 in
/-- Witness for C11: a request for `hello` under `example_cache_config` on an
empty disk, answered with three chunks of 100 bytes and status 200: the final
file holds the payload behind the header region and the temporary file is
gone. -/
theorem cache_commit_atomic_witness :
    ∃ (key : c_string) (content : List uint8_t),
      (elevenlabs_http_thread example_cache_config (fun _ => none)
        (elevenlabs_http_client_start_synthesis example_sha1 (fun _ => NUL) example_env
          example_cache_config example_session (some "hello".toList)).session
        [List.replicate 100 1, List.replicate 100 2, List.replicate 100 3] CURLE_OK 200).files
        (cache_path_final_of example_cache_config key) = some content ∧
      content.length
        = 300 + (if strstr_found (cache_path_final_of example_cache_config key) ".wav".toList
                 then 44 else 0) ∧
      (elevenlabs_http_thread example_cache_config (fun _ => none)
        (elevenlabs_http_client_start_synthesis example_sha1 (fun _ => NUL) example_env
          example_cache_config example_session (some "hello".toList)).session
        [List.replicate 100 1, List.replicate 100 2, List.replicate 100 3] CURLE_OK 200).files
        (cache_path_tmp_of example_cache_config key) = none := by
  obtain ⟨key, _, _, _, _, _, hcommit, _, _⟩ :=
    cache_commit_atomic example_sha1 (fun _ => NUL) example_env example_cache_config
      example_session "hello".toList (fun _ => none)
      [List.replicate 100 1, List.replicate 100 2, List.replicate 100 3] CURLE_OK 200
      rfl (by decide) (by decide)
  obtain ⟨⟨content, h1, h2, _⟩, h3, _⟩ := hcommit (by decide) rfl (by decide)
  exact ⟨key, content, h1, h2, h3⟩

/-! ## Cache round trip: the claim -/

/-- C13 (cache round trip). A live request with write-through caching whose
transfer delivers `chunks` (at least one byte in total) and reports
`CURLE_OK` with status 200, followed, after its worker has ended, by a
request for the same text under the same configuration and voice on the
cleared buffer: the later request launches no worker and its buffer receives
exactly the bytes the sink of the live request appended to the buffer.  (The
later request can open the file and its allocations succeed; buffer sizes stay
below `2 ^ 63`.) -/
theorem cache_round_trip (sha1 : c_string → sha1_digest) (hexstr_mem : Nat → Char)
    (env env2 : start_env) (config : elevenlabs_config_t) (s : session) (text : c_string)
    (mems : Nat → Option (Nat → uint8_t)) (chunks : List (List uint8_t))
    (net_res http_code : Nat)
    (hfp : (elevenlabs_http_client_start_synthesis sha1 hexstr_mem env config s
      (some text)).session.client.cache_fp.isSome = true)
    (hwf : s.audio_buffer.wf)
    (hfit : 2 * (s.audio_buffer.size + (deliver_outputs config s.ulaw chunks).length)
      < APR_SIZE_MODULUS)
    (hres : (curl_easy_perform config mems
      (elevenlabs_http_client_start_synthesis sha1 hexstr_mem env config s (some text)).session
      chunks net_res).2 = CURLE_OK)
    (h200 : http_code = 200) (hbytes : chunks.flatten ≠ [])
    (hopen2 : env2.open_read_ok = true) (hmems2 : ∀ i, (env2.mems i).isSome = true) :
    let live := elevenlabs_http_thread config mems
      (elevenlabs_http_client_start_synthesis sha1 hexstr_mem env config s (some text)).session
      chunks net_res http_code
    let later := elevenlabs_http_client_start_synthesis sha1 hexstr_mem env2 config
      { live with audio_buffer := audio_buffer_clear live.audio_buffer } (some text)
    live.audio_buffer.contents
      = s.audio_buffer.contents ++ deliver_outputs config s.ulaw chunks ∧
    later.launched = false ∧ later.result = true ∧
    later.session.client.stopped = true ∧
    later.session.audio_buffer.contents = deliver_outputs config s.ulaw chunks := by
  intro live later
  have hfp1 : (elevenlabs_http_client_start_synthesis sha1 hexstr_mem env config s
      (some text)).session.client.cache_fp ≠ none := by
    intro h
    rw [h] at hfp
    cases hfp
  obtain ⟨key, k1, k2, k3, k4, _, k6, k7, k8, k9, _, _⟩ :=
    start_synthesis_miss sha1 hexstr_mem env config s text hfp1
  have htf : cache_path_tmp_of config key ≠ cache_path_final_of config key :=
    cache_path_tmp_ne_final config key
  obtain ⟨_, _, t3, t4, _⟩ := thread_files config mems _ chunks net_res http_code
    _ _ k4 k3 k2 htf k8 (by rw [k6]; exact hwf) (by rw [k6, k7]; exact hfit)
  rw [k7] at t3 t4
  rw [k6] at t3
  have hne : deliver_outputs config s.ulaw chunks ≠ [] :=
    fun h => hbytes ((deliver_outputs_eq_nil config s.ulaw chunks).mp h)
  obtain ⟨w1, w2⟩ := t3 hres
  have hfile := t4 hres h200 hne
  have hvoice : live.client.request_voice_id = s.client.request_voice_id :=
    (elevenlabs_http_thread_voice config mems _ chunks net_res http_code).trans k9
  have hkey : start_cache_key sha1 hexstr_mem config
      ({ live with audio_buffer := audio_buffer_clear live.audio_buffer } : session).client text
      = some key :=
    (start_cache_key_congr sha1 hexstr_mem config _ s.client text hvoice).trans k1
  have hcontent : (if strstr_found (cache_path_final_of config key) ".wav".toList then
        wav_header config.output_format config.fallback_ulaw_to_pcm
          (deliver_outputs config s.ulaw chunks).length
      else []) ++ deliver_outputs config s.ulaw chunks ≠ [] :=
    fun h => hne (List.append_eq_nil.mp h).2
  have hstart := start_synthesis_hit sha1 hexstr_mem env2 config
    { live with audio_buffer := audio_buffer_clear live.audio_buffer } text key _ hkey hfile
    hcontent hopen2
  have hdata : playback_data live.files (cache_path_final_of config key)
      = deliver_outputs config s.ulaw chunks := by
    unfold playback_data
    rw [hfile, Option.getD_some]
    cases strstr_found (cache_path_final_of config key) ".wav".toList with
    | false => rfl
    | true =>
      simp only [if_true]
      have := List.drop_left (wav_header config.output_format config.fallback_ulaw_to_pcm
        (deliver_outputs config s.ulaw chunks).length) (deliver_outputs config s.ulaw chunks)
      rwa [wav_header_length] at this
  have hwf0 : (audio_buffer_clear live.audio_buffer).wf := ⟨w1.1, w1.2.1, Nat.zero_le _⟩
  have hc0 : (audio_buffer_clear live.audio_buffer).contents = [] := by
    apply List.eq_nil_of_length_eq_zero
    rw [audio_buffer_t.contents_length _ hwf0]
    rfl
  obtain ⟨l1, l2⟩ := cache_playback_loop_spec env2.mems hmems2
    (deliver_outputs config s.ulaw chunks).length (audio_buffer_clear live.audio_buffer)
    (deliver_outputs config s.ulaw chunks) 0 hwf0 (Nat.le_refl _)
    (by
      have h0 : (audio_buffer_clear live.audio_buffer).size = 0 := rfl
      rw [h0]
      omega)
  rw [hc0, List.nil_append] at l2
  have hlater : later = _ := hstart
  refine ⟨w2, by rw [hlater], by rw [hlater], by rw [hlater], ?_⟩
  rw [hlater]
  show (cache_playback_loop env2.mems (playback_data live.files _).length
    (audio_buffer_clear live.audio_buffer) (playback_data live.files _) 0).contents = _
  rw [hdata]
  exact l2

set_option maxRecDepth 100000 in
/-- Witness for C13: the text `hello` fetched live with three chunks of 100
bytes under `example_cache_config`, then requested again. -/
theorem cache_round_trip_witness :
    (elevenlabs_http_client_start_synthesis example_sha1 (fun _ => NUL) example_env
      example_cache_config
      { (elevenlabs_http_thread example_cache_config (fun _ => none)
          (elevenlabs_http_client_start_synthesis example_sha1 (fun _ => NUL) example_env
            example_cache_config example_session (some "hello".toList)).session
          [List.replicate 100 1, List.replicate 100 2, List.replicate 100 3] CURLE_OK 200) with
        audio_buffer := audio_buffer_clear
          (elevenlabs_http_thread example_cache_config (fun _ => none)
            (elevenlabs_http_client_start_synthesis example_sha1 (fun _ => NUL) example_env
              example_cache_config example_session (some "hello".toList)).session
            [List.replicate 100 1, List.replicate 100 2, List.replicate 100 3] CURLE_OK
            200).audio_buffer }
      (some "hello".toList)).session.audio_buffer.contents
      = deliver_outputs example_cache_config example_session.ulaw
          [List.replicate 100 1, List.replicate 100 2, List.replicate 100 3] :=
  (cache_round_trip example_sha1 (fun _ => NUL) example_env example_env example_cache_config
    example_session "hello".toList (fun _ => none)
    [List.replicate 100 1, List.replicate 100 2, List.replicate 100 3] CURLE_OK 200
    rfl (by decide) (by decide) (by decide) rfl (by decide) rfl (fun _ => rfl)).2.2.2.2

/-! ## The audio buffer: empty writes and the growth policy -/

/-- A write of at least one byte that needs room and gets no block fails. -/
theorem audio_buffer_write_no_memory (b : audio_buffer_t) (data : List uint8_t)
    (hdata : data ≠ []) (hfit : 2 * (b.size + data.length) < APR_SIZE_MODULUS)
    (hgrow : b.capacity < b.size + data.length) :
    audio_buffer_write b data none = (b, false) := by
  have hpos : data.length ≠ 0 := fun h => hdata (List.length_eq_zero.mp h)
  have hmod : (b.size + data.length) % APR_SIZE_MODULUS = b.size + data.length :=
    Nat.mod_eq_of_lt (by omega)
  unfold audio_buffer_write
  simp only [hpos, if_false, hmod, hgrow, if_true, apr_palloc, Option.map_none']

/-- The capacity after a write, in the range without `apr_size_t` wrap. -/
theorem audio_buffer_write_capacity (b : audio_buffer_t) (data : List uint8_t)
    (mem : Option (Nat → uint8_t))
    (hfit : 2 * (b.size + data.length) < APR_SIZE_MODULUS) :
    (b.size + data.length ≤ b.capacity →
      (audio_buffer_write b data mem).1.capacity = b.capacity) ∧
    (b.capacity < b.size + data.length → (audio_buffer_write b data mem).2 = true →
      (audio_buffer_write b data mem).1.capacity
        = if b.capacity * 2 < b.size + data.length then (b.size + data.length) * 2
          else b.capacity * 2) := by
  have hmod : (b.size + data.length) % APR_SIZE_MODULUS = b.size + data.length :=
    Nat.mod_eq_of_lt (by omega)
  have hmod2 : ((b.size + data.length) * 2) % APR_SIZE_MODULUS = (b.size + data.length) * 2 :=
    Nat.mod_eq_of_lt (by omega)
  constructor
  · intro hle
    unfold audio_buffer_write
    by_cases hz : data.length = 0
    · simp [hz]
    · have hng : ¬ (b.size + data.length > b.capacity) := by omega
      simp only [hz, if_false, hmod, hng]
  · intro hgrow hok
    have hcap2 : (b.capacity * 2) % APR_SIZE_MODULUS = b.capacity * 2 :=
      Nat.mod_eq_of_lt (by omega)
    unfold audio_buffer_write at hok ⊢
    by_cases hz : data.length = 0
    · simp [hz] at hok
    · cases mem with
      | none => simp [hz, hmod, hgrow, apr_palloc] at hok
      | some junk =>
        simp only [hz, if_false, hmod, hmod2, hcap2, hgrow, if_true, apr_palloc, Option.map_some']

/-- C23 as stated fails: a write of length 0 (here on a buffer holding 3 of 8
bytes) returns `FALSE`, not success. -/
theorem audio_buffer_write_empty_reports_failure :
    (audio_buffer_write ⟨List.replicate 8 0, 3, 8⟩ [] (some (fun _ => 0))).2 = false := by
  rfl

/-- C23 as amended. A write of length 0 returns `FALSE` and leaves the buffer
(size, capacity, contents) as it was.  A write of at least one byte on a
well-formed buffer returns `FALSE` exactly when it needs to grow and the
allocation fails, and then too the buffer is left as it was.  (Sizes in the
range without `apr_size_t` wrap.) -/
theorem audio_buffer_write_failure_cases (b : audio_buffer_t) (data : List uint8_t)
    (mem : Option (Nat → uint8_t)) (hwf : b.wf)
    (hfit : 2 * (b.size + data.length) < APR_SIZE_MODULUS) :
    audio_buffer_write b [] mem = (b, false) ∧
    (data ≠ [] →
      ((audio_buffer_write b data mem).2 = false ↔
        (b.capacity < b.size + data.length ∧ mem = none))) ∧
    ((audio_buffer_write b data mem).2 = false → (audio_buffer_write b data mem).1 = b) := by
  refine ⟨rfl, ?_, audio_buffer_write_failed b data mem⟩
  intro hdata
  constructor
  · intro hfalse
    by_contra hnot
    have hmem : b.capacity < b.size + data.length → mem.isSome = true := by
      intro hgrow
      cases mem with
      | none => exact absurd ⟨hgrow, rfl⟩ hnot
      | some junk => rfl
    have htrue := (audio_buffer_write_spec b data mem hwf hdata hfit hmem).1
    rw [hfalse] at htrue
    cases htrue
  · intro ⟨hgrow, hnone⟩
    rw [hnone, audio_buffer_write_no_memory b data hdata hfit hgrow]

/-- Witness for C23 as amended: two bytes written to a full buffer of 4 bytes
when no block can be allocated. -/
theorem audio_buffer_write_failure_cases_witness :
    (audio_buffer_write ⟨List.replicate 4 0, 4, 4⟩ [1, 2] none).2 = false ↔
      ((4 : Nat) < 4 + ([1, 2] : List uint8_t).length ∧
        (none : Option (Nat → uint8_t)) = none) :=
  (audio_buffer_write_failure_cases ⟨List.replicate 4 0, 4, 4⟩ [1, 2] none
    (by decide) (by decide)).2.1 (by decide)

/-- C27 as stated fails: a buffer of capacity 4 holding 3 bytes receives 2
bytes; the new capacity is `4 * 2 = 8`, not `max (4 * 2) ((3 + 2) * 2) = 10`. -/
theorem audio_buffer_write_capacity_not_max :
    (audio_buffer_write ⟨List.replicate 4 0, 3, 4⟩ [1, 2] (some (fun _ => 0))).2 = true ∧
    (audio_buffer_write ⟨List.replicate 4 0, 3, 4⟩ [1, 2] (some (fun _ => 0))).1.capacity = 8 ∧
    max (4 * 2) ((3 + ([1, 2] : List uint8_t).length) * 2) = 10 := by
  decide

/-- C27 as amended. When `size + len > capacity`, a successful write sets the
capacity to `capacity * 2` if that is at least `size + len`, and to
`(size + len) * 2` otherwise; when `size + len <= capacity` the capacity is
unchanged.  (Sizes in the range without `apr_size_t` wrap.) -/
theorem audio_buffer_write_growth (b : audio_buffer_t) (data : List uint8_t)
    (mem : Option (Nat → uint8_t))
    (hfit : 2 * (b.size + data.length) < APR_SIZE_MODULUS) :
    (b.capacity < b.size + data.length → (audio_buffer_write b data mem).2 = true →
      (audio_buffer_write b data mem).1.capacity
        = if b.size + data.length ≤ b.capacity * 2 then b.capacity * 2
          else (b.size + data.length) * 2) ∧
    (b.size + data.length ≤ b.capacity →
      (audio_buffer_write b data mem).1.capacity = b.capacity) := by
  obtain ⟨h1, h2⟩ := audio_buffer_write_capacity b data mem hfit
  refine ⟨?_, h1⟩
  intro hgrow hok
  rw [h2 hgrow hok]
  by_cases hlt : b.capacity * 2 < b.size + data.length
  · rw [if_pos hlt, if_neg (by omega)]
  · rw [if_neg hlt, if_pos (by omega)]

/-- Witness for C27 as amended: capacity 4, 3 bytes held, 6 bytes written:
`4 * 2 < 9`, so the new capacity is 18. -/
theorem audio_buffer_write_growth_witness :
    (audio_buffer_write ⟨List.replicate 4 0, 3, 4⟩ [1, 2, 3, 4, 5, 6]
      (some (fun _ => 0))).1.capacity
      = if 3 + ([1, 2, 3, 4, 5, 6] : List uint8_t).length ≤ 4 * 2 then 4 * 2
        else (3 + ([1, 2, 3, 4, 5, 6] : List uint8_t).length) * 2 :=
  (audio_buffer_write_growth ⟨List.replicate 4 0, 3, 4⟩ [1, 2, 3, 4, 5, 6]
    (some (fun _ => 0)) (by decide)).1 (by decide) (by decide)

/-! ## A frame pull that finds less than a frame -/

/-- A read that finds fewer bytes than the frame size copies them to the front
of the frame block and touches nothing behind them. -/
theorem audio_buffer_read_frame_short (b : audio_buffer_t) (frame : List uint8_t)
    (frame_size : Nat) (hpos : 0 < b.size) (hlt : b.size < frame_size) :
    audio_buffer_read_frame b frame frame_size
      = { buffer := { b with size := b.size - b.size },
          frame := b.contents ++ frame.drop b.size,
          bytes_read := b.size } := by
  have hz : frame_size ≠ 0 := by omega
  have hge : ¬ (b.size ≥ frame_size) := by omega
  have hnlt : ¬ (b.size < b.size) := Nat.lt_irrefl _
  unfold audio_buffer_read_frame
  simp only [hz, if_false, hge, hpos, if_true, hnlt, memcpy, List.take_zero, List.nil_append,
    Nat.zero_add, audio_buffer_t.contents]

/-- C24, evaluated on the code: when a pull finds `k` buffered bytes with
`0 < k < frame_size` (fetch terminal or not), the frame handed back holds the
`k` bytes followed by the `frame_size - k` bytes the frame block held before
the call: the rest of the frame is not set to zero.  The frame is flagged as
audio and the keep-alive counter is reset to 0. -/
theorem stream_read_short_frame_keeps_stale_bytes (cs : channel_state) (frame : mpf_frame_t)
    (request : Nat)
    (hr : cs.channel.speak_request = some request) (hs : cs.channel.synthesizing = true)
    (hpos : 0 < cs.session.audio_buffer.size)
    (hlt : cs.session.audio_buffer.size < frame.size) :
    (elevenlabs_synth_stream_read cs frame).frame.buffer
      = cs.session.audio_buffer.contents ++ frame.buffer.drop cs.session.audio_buffer.size ∧
    (elevenlabs_synth_stream_read cs frame).frame.size = frame.size ∧
    (elevenlabs_synth_stream_read cs frame).frame.type
      = frame.type ||| MEDIA_FRAME_TYPE_AUDIO ∧
    (elevenlabs_synth_stream_read cs frame).bytes_read = cs.session.audio_buffer.size ∧
    (elevenlabs_synth_stream_read cs frame).state.channel.progress_counter = 0 := by
  unfold elevenlabs_synth_stream_read
  rw [hr]
  simp only [hs, if_true, audio_buffer_read_frame_short _ frame.buffer frame.size hpos hlt, hpos]
  exact ⟨trivial, trivial, trivial, trivial, trivial⟩

/-- Witness for C24: three buffered bytes pulled into a frame of 50 bytes that
held the byte 7 throughout: bytes 3 to 49 of the frame are still 7, not 0. -/
theorem stream_read_short_frame_keeps_stale_bytes_witness :
    (elevenlabs_synth_stream_read
      (example_speaking
        { example_session with audio_buffer := ⟨[1, 2, 3] ++ List.replicate 5 0, 3, 8⟩ })
      (example_frame 50)).frame.buffer
      = [1, 2, 3] ++ List.replicate 47 7 ∧
    [1, 2, 3] ++ List.replicate 47 (7 : uint8_t) ≠ [1, 2, 3] ++ List.replicate 47 0 :=
  ⟨(stream_read_short_frame_keeps_stale_bytes
      (example_speaking
        { example_session with audio_buffer := ⟨[1, 2, 3] ++ List.replicate 5 0, 3, 8⟩ })
      (example_frame 50) 1 rfl rfl (by decide) (by decide)).1,
   by decide⟩

/-! ## The sink when the transfer must be aborted -/

/-- A sink call that returns 0 on a chunk that is not empty aborts the
transfer: no further chunk is delivered and the result is
`CURLE_WRITE_ERROR`. -/
theorem curl_easy_perform_abort (config : elevenlabs_config_t)
    (mems : Nat → Option (Nat → uint8_t)) (s : session) (chunk : List uint8_t)
    (rest : List (List uint8_t)) (net_res : Nat) (hne : chunk ≠ [])
    (h0 : (write_callback config s chunk (mems 0)).2 = 0) :
    curl_easy_perform config mems s (chunk :: rest) net_res
      = ((write_callback config s chunk (mems 0)).1, CURLE_WRITE_ERROR) := by
  have hlen : (write_callback config s chunk (mems 0)).2 ≠ chunk.length := by
    rw [h0]
    intro h
    exact hne (List.length_eq_zero.mp h.symm)
  unfold curl_easy_perform curl_deliver
  simp only [hlen, ne_eq, not_false_eq_true, if_true]

/-- C28 (sink abort). If `stopped` is set when the sink is invoked, the sink
returns 0 and changes nothing at all (audio buffer, cache file, byte counter).
If `stopped` is clear and the write to the audio buffer fails, the sink returns
0, the cache file, its handle and the byte counter are as before, and so is
the audio buffer.  In both cases, for a chunk that is not empty, the transfer
is aborted (`CURLE_WRITE_ERROR`, no further chunk delivered).  After
`elevenlabs_http_client_stop` has set the flag the sink returns 0. -/
theorem write_callback_abort_no_trace (config : elevenlabs_config_t)
    (mems : Nat → Option (Nat → uint8_t)) (s : session) (contents : List uint8_t)
    (rest : List (List uint8_t)) (net_res : Nat)
    (habort : s.client.stopped = true ∨
      (audio_buffer_write s.audio_buffer (sink_output config s.ulaw contents).1 (mems 0)).2
        = false) :
    (write_callback config s contents (mems 0)).2 = 0 ∧
    (write_callback config s contents (mems 0)).1.files = s.files ∧
    (write_callback config s contents (mems 0)).1.client.cache_fp = s.client.cache_fp ∧
    (write_callback config s contents (mems 0)).1.client.cache_data_bytes
      = s.client.cache_data_bytes ∧
    (write_callback config s contents (mems 0)).1.audio_buffer = s.audio_buffer ∧
    (s.client.stopped = true → (write_callback config s contents (mems 0)).1 = s) ∧
    (contents ≠ [] →
      curl_easy_perform config mems s (contents :: rest) net_res
        = ((write_callback config s contents (mems 0)).1, CURLE_WRITE_ERROR)) ∧
    (write_callback config { s with client := elevenlabs_http_client_stop s.client } contents
      (mems 0)).2 = 0 := by
  have hstop : (write_callback config { s with client := elevenlabs_http_client_stop s.client }
      contents (mems 0)).2 = 0 := by
    rw [write_callback_stopped config _ contents (mems 0) rfl]
  cases hst : s.client.stopped with
  | true =>
    have hwc := write_callback_stopped config s contents (mems 0) hst
    refine ⟨by rw [hwc], by rw [hwc], by rw [hwc], by rw [hwc], by rw [hwc],
      fun _ => by rw [hwc], ?_, hstop⟩
    intro hne
    exact curl_easy_perform_abort config mems s contents rest net_res hne (by rw [hwc])
  | false =>
    have hw : (audio_buffer_write s.audio_buffer (sink_output config s.ulaw contents).1
        (mems 0)).2 = false := by
      rcases habort with h | h
      · rw [hst] at h
        cases h
      · exact h
    have hwc := write_callback_failed config s contents (mems 0) hst hw
    have hbuf := audio_buffer_write_failed _ _ _ hw
    refine ⟨by rw [hwc], by rw [hwc], by rw [hwc], by rw [hwc], ?_,
      fun h => Bool.noConfusion h, ?_, hstop⟩
    · rw [hwc]
      exact hbuf
    · intro hne
      exact curl_easy_perform_abort config mems s contents rest net_res hne (by rw [hwc])

set_option maxRecDepth 100000 in
/-- Witness for C28: a chunk of 600 bytes offered to a full-grown buffer of 512
bytes when no block can be allocated, with a cache file open. -/
theorem write_callback_abort_no_trace_witness :
    (write_callback example_cache_config
      { example_session with
          client := { example_client with
                        cache_fp := some { fname := "t.part".toList, filePtr := 0 } } }
      (List.replicate 600 1) none).2 = 0 ∧
    (write_callback example_cache_config
      { example_session with
          client := { example_client with
                        cache_fp := some { fname := "t.part".toList, filePtr := 0 } } }
      (List.replicate 600 1) none).1.client.cache_data_bytes = 0 :=
  ⟨(write_callback_abort_no_trace example_cache_config (fun _ => none)
      { example_session with
          client := { example_client with
                        cache_fp := some { fname := "t.part".toList, filePtr := 0 } } }
      (List.replicate 600 1) [] CURLE_OK (Or.inr (by decide))).1,
   (write_callback_abort_no_trace example_cache_config (fun _ => none)
      { example_session with
          client := { example_client with
                        cache_fp := some { fname := "t.part".toList, filePtr := 0 } } }
      (List.replicate 600 1) [] CURLE_OK (Or.inr (by decide))).2.2.2.1⟩

/-! ## The sink on a chunk it accepts -/

/-- The conversion test of the sink in terms of the configuration. -/
theorem sink_converts_iff (config : elevenlabs_config_t) :
    sink_converts config = true ↔
      ∃ fmt : c_string, config.output_format = some fmt ∧
        fmt.map Char.toLower = "ulaw_8000".toList ∧ config.fallback_ulaw_to_pcm = true := by
  unfold sink_converts
  cases hf : config.output_format with
  | none => simp
  | some fmt =>
    have hlow : "ulaw_8000".toList.map Char.toLower = "ulaw_8000".toList := by decide
    simp only [strcasecmp_eq, hlow, Bool.and_eq_true, beq_iff_eq, Option.some.injEq]
    constructor
    · intro ⟨h1, h2⟩
      exact ⟨fmt, rfl, h1, h2⟩
    · intro ⟨fmt2, h0, h1, h2⟩
      subst h0
      exact ⟨h1, h2⟩

/-- The bytes the sink hands on: the samples of the decoder as bytes when it
converts, the chunk otherwise. -/
theorem sink_output_bytes (config : elevenlabs_config_t) (u : ulaw_state)
    (contents : List uint8_t) :
    (sink_converts config = true →
      (sink_output config u contents).1
        = pcm_bytes (contents.map (fun b => (ulaw_byte_to_s16 u b).2)) ∧
      (sink_output config u contents).1.length = 2 * contents.length) ∧
    (sink_converts config = false → (sink_output config u contents).1 = contents) := by
  unfold sink_output
  constructor
  · intro h
    rw [if_pos h]
    have hs : (ulaw_to_s16 u contents (List.replicate contents.length 0)).2
        = contents.map (fun b => (ulaw_byte_to_s16 u b).2) := by
      rw [ulaw_to_s16_samples u contents _ (by simp)]
      simp
    simp only [hs]
    exact ⟨trivial, by rw [pcm_bytes_length, List.length_map]⟩
  · intro h
    rw [h, if_neg Bool.false_ne_true]

/-- The audio buffer and the result of a sink call on a client that is not
stopped, whatever the state of the cache handle. -/
theorem write_callback_buffer (config : elevenlabs_config_t) (s : session)
    (contents : List uint8_t) (mem : Option (Nat → uint8_t)) (hst : s.client.stopped = false) :
    (write_callback config s contents mem).1.audio_buffer
      = (audio_buffer_write s.audio_buffer (sink_output config s.ulaw contents).1 mem).1 ∧
    (write_callback config s contents mem).2
      = (if (audio_buffer_write s.audio_buffer (sink_output config s.ulaw contents).1 mem).2
         then contents.length else 0) := by
  cases hw : (audio_buffer_write s.audio_buffer (sink_output config s.ulaw contents).1 mem).2
  · rw [write_callback_failed config s contents mem hst hw]
    exact ⟨rfl, rfl⟩
  · cases hfp : s.client.cache_fp with
    | none =>
      rw [write_callback_plain config s contents mem hst hw hfp]
      exact ⟨rfl, rfl⟩
    | some fp =>
      rw [write_callback_cached config s contents mem fp hst hw hfp]
      exact ⟨rfl, rfl⟩

/-- C22 (the sink). A chunk of `n > 0` bytes handled while `stopped` is clear
(buffer well formed, the allocation succeeds when the buffer has to grow,
sizes without `apr_size_t` wrap): the sink returns `n` and appends `out` to the
audio buffer, where `out` is the chunk itself unless the output format is
`ulaw_8000` (letter case ignored) with `fallback_ulaw_to_pcm` set, in which
case `out` is the `2 * n` bytes of the 16-bit samples, low byte first, that
`ulaw_byte_to_s16` returns for the chunk bytes (the table entries, from the
start state or the ready state of the decoder).  The buffer afterwards is the
same for every state of the cache handle and of the files.  When write-through
is under way, `out` is appended to the cache file and the byte counter grows
by its length. -/
theorem write_callback_appends (config : elevenlabs_config_t) (s : session)
    (contents : List uint8_t) (mem : Option (Nat → uint8_t))
    (hst : s.client.stopped = false) (hne : contents ≠ []) (hwf : s.audio_buffer.wf)
    (hfit : 2 * (s.audio_buffer.size + (sink_output config s.ulaw contents).1.length)
      < APR_SIZE_MODULUS)
    (hmem : s.audio_buffer.capacity
        < s.audio_buffer.size + (sink_output config s.ulaw contents).1.length →
      mem.isSome = true) :
    (write_callback config s contents mem).2 = contents.length ∧
    (write_callback config s contents mem).1.audio_buffer.contents
      = s.audio_buffer.contents ++ (sink_output config s.ulaw contents).1 ∧
    ((∃ fmt : c_string, config.output_format = some fmt ∧
        fmt.map Char.toLower = "ulaw_8000".toList ∧ config.fallback_ulaw_to_pcm = true) →
      (sink_output config s.ulaw contents).1
        = pcm_bytes (contents.map (fun b => (ulaw_byte_to_s16 s.ulaw b).2)) ∧
      (sink_output config s.ulaw contents).1.length = 2 * contents.length ∧
      ((s.ulaw = ulaw_static ∨ s.ulaw = ulaw_ready) →
        (sink_output config s.ulaw contents).1
          = pcm_bytes (contents.map (fun b => ulaw_decode_entry b.val)))) ∧
    ((¬ ∃ fmt : c_string, config.output_format = some fmt ∧
        fmt.map Char.toLower = "ulaw_8000".toList ∧ config.fallback_ulaw_to_pcm = true) →
      (sink_output config s.ulaw contents).1 = contents) ∧
    (∀ s2 : session, s2.audio_buffer = s.audio_buffer → s2.ulaw = s.ulaw →
      s2.client.stopped = false →
      (write_callback config s2 contents mem).1.audio_buffer
        = (write_callback config s contents mem).1.audio_buffer ∧
      (write_callback config s2 contents mem).2 = contents.length) ∧
    (∀ (tmp : c_string) (off : Nat) (payload : List uint8_t),
      cache_writing s tmp off payload →
      payload.length + (sink_output config s.ulaw contents).1.length < APR_SIZE_MODULUS →
      cache_writing (write_callback config s contents mem).1 tmp off
        (payload ++ (sink_output config s.ulaw contents).1) ∧
      (write_callback config s contents mem).1.client.cache_data_bytes
        = s.client.cache_data_bytes + (sink_output config s.ulaw contents).1.length) := by
  have hout : (sink_output config s.ulaw contents).1 ≠ [] :=
    fun h => hne ((sink_output_length config s.ulaw contents).1.mp h)
  obtain ⟨hw, _, _, _⟩ := audio_buffer_write_spec s.audio_buffer _ mem hwf hout hfit hmem
  obtain ⟨b1, b2⟩ := write_callback_buffer config s contents mem hst
  rw [hw, if_pos rfl] at b2
  obtain ⟨_, k2, _, k4⟩ := write_callback_ok_step config s contents mem hst hwf b2 hfit
  obtain ⟨c1, c2⟩ := sink_output_bytes config s.ulaw contents
  refine ⟨b2, k2, ?_, ?_, ?_, ?_⟩
  · intro hconv
    obtain ⟨e1, e2⟩ := c1 ((sink_converts_iff config).mpr hconv)
    refine ⟨e1, e2, ?_⟩
    intro hs
    rw [e1]
    congr 1
    apply List.map_congr_left
    intro b _
    exact ulaw_byte_to_s16_entry s.ulaw hs b
  · intro hnot
    apply c2
    cases hc : sink_converts config with
    | false => rfl
    | true => exact absurd ((sink_converts_iff config).mp hc) hnot
  · intro s2 hb hu hst2
    obtain ⟨d1, d2⟩ := write_callback_buffer config s2 contents mem hst2
    rw [hb, hu] at d1 d2
    rw [hw, if_pos rfl] at d2
    exact ⟨d1.trans b1.symm, d2⟩
  · intro tmp off payload hcw hsum
    have hcw1 := k4 tmp off payload hcw hsum
    refine ⟨hcw1, ?_⟩
    rw [hcw1.2.1, hcw.2.1, List.length_append]

set_option maxRecDepth 100000 in
/-- Witness for C22: the chunk `FF 80` under `ulaw_8000` with the fallback
flag: the sink returns 2 and the buffer receives the four bytes of the samples
132 and 1276. -/
theorem write_callback_appends_witness :
    (write_callback example_ulaw_config example_session [0xFF, 0x80] none).2
      = ([0xFF, 0x80] : List uint8_t).length ∧
    (write_callback example_ulaw_config example_session [0xFF, 0x80] none).1.audio_buffer.contents
      = example_session.audio_buffer.contents
        ++ (sink_output example_ulaw_config example_session.ulaw [0xFF, 0x80]).1 ∧
    (sink_output example_ulaw_config example_session.ulaw [0xFF, 0x80]).1
      = [132, 0, 252, 4] :=
  ⟨(write_callback_appends example_ulaw_config example_session [0xFF, 0x80] none rfl
      (by decide) (by decide) (by decide) (fun h => absurd h (by decide))).1,
   (write_callback_appends example_ulaw_config example_session [0xFF, 0x80] none rfl
      (by decide) (by decide) (by decide) (fun h => absurd h (by decide))).2.1,
   by decide⟩

/-! ## Cache paths -/

/-- The prefix test of the source, in terms of `begins_with_ci`. -/
theorem strncasecmp_eq_begins (family : String) (fmt : c_string) :
    strncasecmp_eq fmt family.toList family.length = true ↔ begins_with_ci family fmt := by
  have hlen : family.length = family.toList.length := by
    cases family
    rfl
  have hfam : family.toList.take family.length = family.toList := by
    rw [hlen, List.take_length]
  unfold strncasecmp_eq
  rw [hfam, beq_iff_eq]
  constructor
  · intro h
    refine ⟨(fmt.drop family.length).map Char.toLower, ?_⟩
    rw [← h, ← List.map_append, List.take_append_drop]
  · intro h
    have := begins_with_ci_take family fmt h family.length (Nat.le_refl _)
    rw [this, hlen, ← List.length_map family.toList Char.toLower, List.take_length]

/-- Two families that differ in their first letter have no format in common. -/
theorem begins_with_ci_first (f1 f2 : String) (fmt : c_string)
    (h1 : begins_with_ci f1 fmt) (h2 : begins_with_ci f2 fmt)
    (hp1 : 1 ≤ f1.length) (hp2 : 1 ≤ f2.length) :
    (f1.toList.map Char.toLower).take 1 = (f2.toList.map Char.toLower).take 1 := by
  rw [← begins_with_ci_take f1 fmt h1 1 hp1, ← begins_with_ci_take f2 fmt h2 1 hp2]

/-- The extension chosen for a format, by family. -/
theorem cache_ext_family (fmt : c_string) :
    ((begins_with_ci "pcm_" fmt ∨ begins_with_ci "ulaw_" fmt ∨ begins_with_ci "alaw_" fmt) →
      cache_ext (some fmt) = ".wav".toList) ∧
    (begins_with_ci "mp3" fmt → cache_ext (some fmt) = ".mp3".toList) ∧
    ((¬ begins_with_ci "pcm_" fmt ∧ ¬ begins_with_ci "ulaw_" fmt ∧ ¬ begins_with_ci "alaw_" fmt ∧
        ¬ begins_with_ci "mp3" fmt) →
      cache_ext (some fmt) = ".bin".toList) := by
  have hp := strncasecmp_eq_begins "pcm_" fmt
  have hm := strncasecmp_eq_begins "mp3" fmt
  have hu := strncasecmp_eq_begins "ulaw_" fmt
  have ha := strncasecmp_eq_begins "alaw_" fmt
  have hl4 : "pcm_".length = 4 := rfl
  have hl3 : "mp3".length = 3 := rfl
  have hl5 : "ulaw_".length = 5 := rfl
  have hl5a : "alaw_".length = 5 := rfl
  rw [hl4] at hp
  rw [hl3] at hm
  rw [hl5] at hu
  rw [hl5a] at ha
  have hext : cache_ext (some fmt)
      = (if strncasecmp_eq fmt "pcm_".toList 4 then ".wav".toList
         else if strncasecmp_eq fmt "mp3".toList 3 then ".mp3".toList
         else if strncasecmp_eq fmt "ulaw_".toList 5 || strncasecmp_eq fmt "alaw_".toList 5 then
           ".wav".toList
         else ".bin".toList) := rfl
  rw [hext]
  refine ⟨?_, ?_, ?_⟩
  · intro h
    rcases h with h | h | h
    · rw [if_pos (hp.mpr h)]
    · have hnm : ¬ strncasecmp_eq fmt "mp3".toList 3 = true := by
        intro hmp
        have := begins_with_ci_first "ulaw_" "mp3" fmt h (hm.mp hmp) (by decide) (by decide)
        exact absurd this (by decide)
      by_cases hpc : strncasecmp_eq fmt "pcm_".toList 4 = true
      · rw [if_pos hpc]
      · rw [if_neg hpc, if_neg hnm, hu.mpr h]
        rfl
    · have hnm : ¬ strncasecmp_eq fmt "mp3".toList 3 = true := by
        intro hmp
        have := begins_with_ci_first "alaw_" "mp3" fmt h (hm.mp hmp) (by decide) (by decide)
        exact absurd this (by decide)
      by_cases hpc : strncasecmp_eq fmt "pcm_".toList 4 = true
      · rw [if_pos hpc]
      · rw [if_neg hpc, if_neg hnm, ha.mpr h, Bool.or_true]
        rfl
  · intro h
    have hnp : ¬ strncasecmp_eq fmt "pcm_".toList 4 = true := by
      intro hpc
      have := begins_with_ci_first "pcm_" "mp3" fmt (hp.mp hpc) h (by decide) (by decide)
      exact absurd this (by decide)
    rw [if_neg hnp, if_pos (hm.mpr h)]
  · intro ⟨h1, h2, h3, h4⟩
    have e1 : ¬ strncasecmp_eq fmt "pcm_".toList 4 = true := fun h => h1 (hp.mp h)
    have e2 : ¬ strncasecmp_eq fmt "mp3".toList 3 = true := fun h => h4 (hm.mp h)
    have e3 : strncasecmp_eq fmt "ulaw_".toList 5 = false := by
      cases h : strncasecmp_eq fmt "ulaw_".toList 5 with
      | false => rfl
      | true => exact absurd (hu.mp h) h2
    have e4 : strncasecmp_eq fmt "alaw_".toList 5 = false := by
      cases h : strncasecmp_eq fmt "alaw_".toList 5 with
      | false => rfl
      | true => exact absurd (ha.mp h) h3
    rw [if_neg e1, if_neg e2, e3, e4]
    rfl

/-- The key and the paths a start stores are those of lines 313-330, on the
hit path and on the miss path alike. -/
theorem start_synthesis_paths (sha1 : c_string → sha1_digest) (hexstr_mem : Nat → Char)
    (env : start_env) (config : elevenlabs_config_t) (s : session) (text : c_string) :
    (elevenlabs_http_client_start_synthesis sha1 hexstr_mem env config s
      (some text)).session.client.cache_key
      = (start_cache_paths config (start_reset s.client)
          (start_cache_key sha1 hexstr_mem config s.client text)).cache_key ∧
    (elevenlabs_http_client_start_synthesis sha1 hexstr_mem env config s
      (some text)).session.client.cache_path_final
      = (start_cache_paths config (start_reset s.client)
          (start_cache_key sha1 hexstr_mem config s.client text)).cache_path_final ∧
    (elevenlabs_http_client_start_synthesis sha1 hexstr_mem env config s
      (some text)).session.client.cache_path_tmp
      = (start_cache_paths config (start_reset s.client)
          (start_cache_key sha1 hexstr_mem config s.client text)).cache_path_tmp := by
  unfold elevenlabs_http_client_start_synthesis
  simp only [start_cache_key_reset]
  cases start_playback env s.files
      (start_cache_paths config (start_reset s.client)
        (start_cache_key sha1 hexstr_mem config s.client text)) with
  | some final => exact ⟨rfl, rfl, rfl⟩
  | none =>
    simp only []
    cases env.thread_ok <;> exact ⟨rfl, rfl, rfl⟩

/-- C21 (cache paths). With caching enabled, a cache directory `dir`, model
`m`, output format `fmt` and effective voice `v` (the voice of the request
when there is one, the configured voice otherwise), a start stores the
fingerprint `key` of `(v, m, fmt, text)`, the final path
`dir/key` followed by the extension, and the temporary path, which is the final
path followed by `.part`.  The extension is `.wav` when the format begins with
`pcm_`, `ulaw_` or `alaw_`, `.mp3` when it begins with `mp3`, and `.bin` for
every other format (letter case ignored). -/
theorem cache_paths_layout (sha1 : c_string → sha1_digest) (hexstr_mem : Nat → Char)
    (env : start_env) (config : elevenlabs_config_t) (s : session)
    (text dir v m fmt : c_string)
    (hen : config.cache_enabled = true) (hdir : config.cache_dir = some dir)
    (hm : config.model_id = some m) (hfmt : config.output_format = some fmt)
    (hv : s.client.request_voice_id = some v ∨
      (s.client.request_voice_id = none ∧ config.voice_id = some v)) :
    ∃ key : c_string,
      cache_fingerprint sha1 hexstr_mem v m fmt text = some key ∧
      (elevenlabs_http_client_start_synthesis sha1 hexstr_mem env config s
        (some text)).session.client.cache_key = some key ∧
      (elevenlabs_http_client_start_synthesis sha1 hexstr_mem env config s
        (some text)).session.client.cache_path_final
        = some (dir ++ "/".toList ++ key ++ cache_ext (some fmt)) ∧
      (elevenlabs_http_client_start_synthesis sha1 hexstr_mem env config s
        (some text)).session.client.cache_path_tmp
        = some ((dir ++ "/".toList ++ key ++ cache_ext (some fmt)) ++ ".part".toList) ∧
      ((begins_with_ci "pcm_" fmt ∨ begins_with_ci "ulaw_" fmt ∨ begins_with_ci "alaw_" fmt) →
        cache_ext (some fmt) = ".wav".toList) ∧
      (begins_with_ci "mp3" fmt → cache_ext (some fmt) = ".mp3".toList) ∧
      ((¬ begins_with_ci "pcm_" fmt ∧ ¬ begins_with_ci "ulaw_" fmt ∧
          ¬ begins_with_ci "alaw_" fmt ∧ ¬ begins_with_ci "mp3" fmt) →
        cache_ext (some fmt) = ".bin".toList) := by
  have hvoice : start_voice_id config s.client = some v := by
    unfold start_voice_id
    rcases hv with h | ⟨h1, h2⟩
    · rw [h]
    · rw [h1, h2]
  have hkey : start_cache_key sha1 hexstr_mem config s.client text
      = cache_fingerprint sha1 hexstr_mem v m fmt text := by
    unfold start_cache_key cache_fingerprint
    rw [hen, hdir, hvoice, hm, hfmt]
    rfl
  have hsome := elevenlabs_cache_compute_key_some sha1 hexstr_mem v m fmt text
  obtain ⟨p1, p2, p3⟩ := start_synthesis_paths sha1 hexstr_mem env config s text
  obtain ⟨e1, e2, e3⟩ := cache_ext_family fmt
  refine ⟨_, hsome, ?_, ?_, ?_, e1, e2, e3⟩
  · rw [p1, hkey]
    unfold cache_fingerprint
    rw [hsome]
    rfl
  · rw [p2, hkey]
    unfold cache_fingerprint
    rw [hsome]
    show some (cache_path_final_of config _) = _
    unfold cache_path_final_of fmt_s
    rw [hdir, hfmt]
    rfl
  · rw [p3, hkey]
    unfold cache_fingerprint
    rw [hsome]
    show some (cache_path_tmp_of config _) = _
    unfold cache_path_tmp_of fmt_s
    rw [hdir, hfmt]
    rfl

/-- Witness for C21: the text `hello` under `example_cache_config` with the
per-request voice `Bella`. -/
theorem cache_paths_layout_witness :
    ∃ key : c_string,
      cache_fingerprint example_sha1 (fun _ => NUL) "Bella".toList "eleven_v2".toList
        "pcm_16000".toList "hello".toList = some key ∧
      (elevenlabs_http_client_start_synthesis example_sha1 (fun _ => NUL) example_env
        example_cache_config
        { example_session with
            client := { example_client with request_voice_id := some "Bella".toList } }
        (some "hello".toList)).session.client.cache_path_tmp
        = some (("/var/cache/tts".toList ++ "/".toList ++ key
            ++ cache_ext (some "pcm_16000".toList)) ++ ".part".toList) := by
  obtain ⟨key, h1, _, _, h4, _⟩ :=
    cache_paths_layout example_sha1 (fun _ => NUL) example_env example_cache_config
      { example_session with
          client := { example_client with request_voice_id := some "Bella".toList } }
      "hello".toList "/var/cache/tts".toList "Bella".toList "eleven_v2".toList
      "pcm_16000".toList rfl rfl rfl rfl (Or.inl rfl)
  exact ⟨key, h1, h4⟩

/-! ## The header test on the path -/

/-- The test `strstr(haystack, needle) != NULL` finds `needle` exactly when it
is a contiguous part of `haystack`. -/
theorem strstr_found_iff (haystack needle : c_string) :
    strstr_found haystack needle = true ↔ needle <:+: haystack := by
  unfold strstr_found
  rw [List.any_eq_true, List.infix_iff_prefix_suffix]
  constructor
  · intro ⟨t, ht, hp⟩
    exact ⟨t, List.isPrefixOf_iff_prefix.mp hp, (List.mem_tails _ _).mp ht⟩
  · intro ⟨t, hp, ht⟩
    exact ⟨t, (List.mem_tails _ _).mpr ht, List.isPrefixOf_iff_prefix.mpr hp⟩

/-- A final path contains `.wav` whenever the name of the cache directory
does, whatever the extension. -/
theorem cache_path_final_dir_wav (config : elevenlabs_config_t) (dir key : c_string)
    (hdir : config.cache_dir = some dir) (hwav : strstr_found dir ".wav".toList = true) :
    strstr_found (cache_path_final_of config key) ".wav".toList = true := by
  rw [strstr_found_iff] at hwav ⊢
  unfold cache_path_final_of fmt_s
  rw [hdir]
  show ".wav".toList <:+: dir ++ "/".toList ++ key ++ cache_ext config.output_format
  rw [List.append_assoc, List.append_assoc]
  exact hwav.trans (List.prefix_append _ _).isInfix

/-- C29, evaluated on the code: the header is handled according to the final
path, not the format.  When the name of the cache directory contains `.wav`,
then for every output format (also of the mp3 family, extension `.mp3`) the
temporary file is opened with its offset at 44, a committed entry holds the
44-byte header in front of the payload, and playback skips 44 bytes. -/
theorem wav_header_decided_by_path (sha1 : c_string → sha1_digest) (hexstr_mem : Nat → Char)
    (env : start_env) (config : elevenlabs_config_t) (s : session) (text dir : c_string)
    (mems : Nat → Option (Nat → uint8_t)) (chunks : List (List uint8_t))
    (hdir : config.cache_dir = some dir) (hwav : strstr_found dir ".wav".toList = true)
    (hfp : (elevenlabs_http_client_start_synthesis sha1 hexstr_mem env config s
      (some text)).session.client.cache_fp.isSome = true)
    (hwf : s.audio_buffer.wf)
    (hfit : 2 * (s.audio_buffer.size + (deliver_outputs config s.ulaw chunks).length)
      < APR_SIZE_MODULUS)
    (hres : (curl_easy_perform config mems
      (elevenlabs_http_client_start_synthesis sha1 hexstr_mem env config s (some text)).session
      chunks CURLE_OK).2 = CURLE_OK)
    (hbytes : chunks.flatten ≠ []) :
    ∃ key : c_string,
      (elevenlabs_http_client_start_synthesis sha1 hexstr_mem env config s
        (some text)).session.client.cache_path_final
        = some (dir ++ "/".toList ++ key ++ cache_ext config.output_format) ∧
      (elevenlabs_http_client_start_synthesis sha1 hexstr_mem env config s
        (some text)).session.client.cache_fp
        = some { fname := cache_path_tmp_of config key, filePtr := 44 } ∧
      (elevenlabs_http_thread config mems
        (elevenlabs_http_client_start_synthesis sha1 hexstr_mem env config s (some text)).session
        chunks CURLE_OK 200).files (cache_path_final_of config key)
        = some (wav_header config.output_format config.fallback_ulaw_to_pcm
                  (deliver_outputs config s.ulaw chunks).length
                ++ deliver_outputs config s.ulaw chunks) ∧
      playback_data
        (elevenlabs_http_thread config mems
          (elevenlabs_http_client_start_synthesis sha1 hexstr_mem env config s
            (some text)).session
          chunks CURLE_OK 200).files (cache_path_final_of config key)
        = deliver_outputs config s.ulaw chunks := by
  have hfp1 : (elevenlabs_http_client_start_synthesis sha1 hexstr_mem env config s
      (some text)).session.client.cache_fp ≠ none := by
    intro h
    rw [h] at hfp
    cases hfp
  obtain ⟨key, _, k2, k3, k4, _, k6, k7, k8, _, _, _⟩ :=
    start_synthesis_miss sha1 hexstr_mem env config s text hfp1
  have hpath := cache_path_final_dir_wav config dir key hdir hwav
  have htf : cache_path_tmp_of config key ≠ cache_path_final_of config key :=
    cache_path_tmp_ne_final config key
  obtain ⟨_, _, _, t4, _⟩ := thread_files config mems _ chunks CURLE_OK 200
    _ _ k4 k3 k2 htf k8 (by rw [k6]; exact hwf) (by rw [k6, k7]; exact hfit)
  rw [k7] at t4
  have hne : deliver_outputs config s.ulaw chunks ≠ [] :=
    fun h => hbytes ((deliver_outputs_eq_nil config s.ulaw chunks).mp h)
  have hfile := t4 hres rfl hne
  rw [hpath, if_pos rfl] at hfile
  have hfinal : cache_path_final_of config key
      = dir ++ "/".toList ++ key ++ cache_ext config.output_format := by
    unfold cache_path_final_of fmt_s
    rw [hdir]
    rfl
  refine ⟨key, by rw [k2, hfinal], ?_, hfile, ?_⟩
  · have h := k4.1
    rw [hpath, if_pos rfl] at h
    exact h
  · unfold playback_data
    rw [hfile, Option.getD_some, hpath, if_pos rfl]
    have := List.drop_left (wav_header config.output_format config.fallback_ulaw_to_pcm
      (deliver_outputs config s.ulaw chunks).length) (deliver_outputs config s.ulaw chunks)
    rwa [wav_header_length] at this

set_option maxRecDepth 100000 in
/-- Witness for C29: cache directory `/srv/audio.wav.cache`, format
`mp3_44100_128`: the extension is `.mp3`, yet the temporary file is opened at
offset 44. -/
theorem wav_header_decided_by_path_witness :
    cache_ext example_wav_dir_config.output_format = ".mp3".toList ∧
    ∃ key : c_string,
      (elevenlabs_http_client_start_synthesis example_sha1 (fun _ => NUL) example_env
        example_wav_dir_config example_session (some "hello".toList)).session.client.cache_fp
        = some { fname := cache_path_tmp_of example_wav_dir_config key, filePtr := 44 } := by
  refine ⟨by decide, ?_⟩
  obtain ⟨key, _, h2, _, _⟩ :=
    wav_header_decided_by_path example_sha1 (fun _ => NUL) example_env example_wav_dir_config
      example_session "hello".toList "/srv/audio.wav.cache".toList (fun _ => none)
      [[1, 2, 3]] rfl (by decide) rfl (by decide) (by decide) (by decide) (by decide)
  exact ⟨key, h2⟩

/-! ## Header and stored payload -/

/-- C30, evaluated on the code: for a format of the A-law family with
`fallback_ulaw_to_pcm` set, the sink stores the received bytes unchanged (it
converts under `ulaw_8000` only), yet the header written at commit carries tag
1 with 16 bits per sample: it describes 16-bit PCM although raw A-law bytes
were stored. -/
theorem wav_header_pcm_over_raw_alaw (config : elevenlabs_config_t) (fmt : c_string)
    (u : ulaw_state) (contents : List uint8_t) (n : Nat)
    (hfmt : config.output_format = some fmt) (hfb : config.fallback_ulaw_to_pcm = true)
    (hfam : begins_with_ci "alaw_" fmt) :
    (sink_output config u contents).1 = contents ∧
    u16_value (((wav_header config.output_format config.fallback_ulaw_to_pcm n).drop 20).take 2)
      = 1 ∧
    u16_value (((wav_header config.output_format config.fallback_ulaw_to_pcm n).drop 34).take 2)
      = 16 := by
  have hconv : sink_converts config = false := by
    cases hc : sink_converts config with
    | false => rfl
    | true =>
      obtain ⟨fmt2, h0, h1, _⟩ := (sink_converts_iff config).mp hc
      rw [hfmt] at h0
      have h01 : fmt = fmt2 := Option.some.inj h0
      subst h01
      have hul : begins_with_ci "ulaw_" fmt := ⟨"8000".toList, by rw [h1]; rfl⟩
      have := begins_with_ci_first "alaw_" "ulaw_" fmt hfam hul (by decide) (by decide)
      exact absurd this (by decide)
  obtain ⟨hp, _, _⟩ := wav_header_format_flags fmt config.fallback_ulaw_to_pcm
  have hal : strncasecmp_eq fmt "alaw_".toList 5 = true :=
    (strncasecmp_eq_begins "alaw_" fmt).mpr hfam
  have hpcm : (wav_header_format (some fmt) config.fallback_ulaw_to_pcm).is_pcm = true := by
    rw [hp, hal, hfb]
    simp
  obtain ⟨htag, hbits⟩ := wav_header_tag_bits (some fmt) config.fallback_ulaw_to_pcm n
  rw [hfmt, htag, hbits]
  simp only [wav_audio_format, wav_sample_bytes, hpcm, if_true]
  exact ⟨(sink_output_bytes config u contents).2 hconv, u16_value_bytes 1 (by decide),
    u16_value_bytes 16 (by decide)⟩

/-- Witness for C30: `alaw_8000` with the fallback flag set; the A-law byte
`D5` is stored as it is and the header says PCM. -/
theorem wav_header_pcm_over_raw_alaw_witness :
    (sink_output example_alaw_config ulaw_static [0xD5]).1 = [0xD5] ∧
    u16_value (((wav_header example_alaw_config.output_format
      example_alaw_config.fallback_ulaw_to_pcm 1).drop 20).take 2) = 1 ∧
    u16_value (((wav_header example_alaw_config.output_format
      example_alaw_config.fallback_ulaw_to_pcm 1).drop 34).take 2) = 16 :=
  wav_header_pcm_over_raw_alaw example_alaw_config "alaw_8000".toList ulaw_static [0xD5] 1
    rfl rfl ⟨"8000".toList, by decide⟩

/-! ## The request: JSON body and URL -/

theorem json_ws_cons (c : Char) (rest : c_string) (h : json_is_ws c = false) :
    json_ws (c :: rest) = c :: rest := by
  unfold json_ws
  rw [List.dropWhile_cons, h]
  rfl

/-- A string of plain characters is read back as it is. -/
theorem json_string_chars_plain (text tail : c_string) (fuel : Nat)
    (h : ∀ c ∈ text, json_plain c) (hf : text.length < fuel) :
    json_string_chars fuel (text ++ '"' :: tail) = some (text, tail) := by
  induction text generalizing fuel with
  | nil =>
    cases fuel with
    | zero => exact absurd hf (Nat.lt_irrefl _)
    | succ k => simp [json_string_chars]
  | cons c cs ih =>
    cases fuel with
    | zero => exact absurd hf (Nat.not_lt_zero _)
    | succ k =>
      obtain ⟨h1, h2, h3⟩ := h c (List.mem_cons_self _ _)
      have hcs : ∀ x ∈ cs, json_plain x := fun x hx => h x (List.mem_cons_of_mem _ hx)
      have hlt : ¬ c.toNat < 32 := by omega
      have hih := ih k hcs (by rw [List.length_cons] at hf; omega)
      simp only [List.cons_append, json_string_chars, if_neg h1, if_neg h2, if_neg hlt]
      show Option.map (fun r => (c :: r.1, r.2)) (json_string_chars k (cs ++ '"' :: tail)) = _
      rw [hih]
      rfl

theorem json_quoted_plain (text tail : c_string) (h : ∀ c ∈ text, json_plain c) :
    json_quoted ('"' :: (text ++ '"' :: tail)) = some (text, tail) := by
  unfold json_quoted
  rw [json_ws_cons _ _ (by decide)]
  simp only [if_true]
  apply json_string_chars_plain text tail _ h
  rw [List.length_append]
  omega

/-- One member followed by a comma. -/
theorem json_members_step (fuel : Nat) (name value rest : c_string)
    (hn : ∀ c ∈ name, json_plain c) (hv : ∀ c ∈ value, json_plain c) :
    json_members (fuel + 1)
        ('"' :: (name ++ '"' :: ':' :: '"' :: (value ++ '"' :: ',' :: rest)))
      = (json_members fuel rest).map (fun ms => (name, value) :: ms) := by
  rw [json_members, json_quoted_plain name _ hn]
  simp only []
  rw [json_ws_cons _ _ (by decide)]
  simp only [if_true]
  rw [json_quoted_plain value _ hv]
  simp only []
  rw [json_ws_cons _ _ (by decide)]
  simp only [if_true]

/-- The last member, followed by the closing brace at the end of the input. -/
theorem json_members_last (fuel : Nat) (name value : c_string)
    (hn : ∀ c ∈ name, json_plain c) (hv : ∀ c ∈ value, json_plain c) :
    json_members (fuel + 1) ('"' :: (name ++ '"' :: ':' :: '"' :: (value ++ ['"', '\x7d'])))
      = some [(name, value)] := by
  rw [json_members, json_quoted_plain name _ hn]
  simp only []
  rw [json_ws_cons _ _ (by decide)]
  simp only [if_true]
  have hv2 : value ++ ['"', '\x7d'] = value ++ '"' :: ['\x7d'] := rfl
  rw [hv2, json_quoted_plain value _ hv]
  simp only []
  rw [json_ws_cons _ _ (by decide)]
  have hne : ('\x7d' : Char) ≠ ',' := by decide
  simp only [if_neg hne, if_true]
  rfl

/-- The body of the request as a list of characters. -/
theorem request_post_data_chars (config : elevenlabs_config_t) (text : c_string) :
    request_post_data config text
      = '\x7b' :: '"' :: ("text".toList ++ '"' :: ':' :: '"' ::
          (text ++ '"' :: ',' :: '"' :: ("model_id".toList ++ '"' :: ':' :: '"' ::
            (fmt_s config.model_id ++ ['"', '\x7d'])))) := by
  unfold request_post_data
  have h1 : "\x7b\"text\":\"".toList = '\x7b' :: '"' :: ("text".toList ++ ['"', ':', '"']) := by
    decide
  have h2 : "\",\"model_id\":\"".toList
      = '"' :: ',' :: '"' :: ("model_id".toList ++ ['"', ':', '"']) := by decide
  have h3 : "\"\x7d".toList = ['"', '\x7d'] := by decide
  rw [h1, h2, h3]
  simp only [List.cons_append, List.append_assoc, List.nil_append]

/-- The body is read back as the two members when text and model are plain. -/
theorem request_post_data_members (config : elevenlabs_config_t) (text : c_string)
    (ht : ∀ c ∈ text, json_plain c) (hm : ∀ c ∈ fmt_s config.model_id, json_plain c) :
    json_object_string_members (request_post_data config text)
      = some [("text".toList, text), ("model_id".toList, fmt_s config.model_id)] := by
  have hk1 : ∀ c ∈ "text".toList, json_plain c := by
    unfold json_plain
    decide
  have hk2 : ∀ c ∈ "model_id".toList, json_plain c := by
    unfold json_plain
    decide
  rw [request_post_data_chars]
  unfold json_object_string_members
  rw [json_ws_cons _ _ (by decide)]
  simp only [if_true]
  rw [json_ws_cons _ _ (by decide)]
  have hne : ('"' : Char) ≠ '\x7d' := by decide
  simp only [if_neg hne]
  generalize hf : ('"' :: ("text".toList ++ '"' :: ':' :: '"' ::
      (text ++ '"' :: ',' :: '"' :: ("model_id".toList ++ '"' :: ':' :: '"' ::
        (fmt_s config.model_id ++ ['"', '\x7d']))))).length = fuel
  have hfuel : 2 ≤ fuel := by
    rw [← hf]
    simp only [List.length_cons, List.length_append]
    omega
  obtain ⟨k, rfl⟩ : ∃ k, fuel = k + 1 + 1 := ⟨fuel - 2, by omega⟩
  rw [json_members_step (k + 1) "text".toList text _ hk1 ht,
    json_members_last k "model_id".toList (fmt_s config.model_id) hk2 hm]
  rfl

/-- A start that launches the worker has stored the URL and the body of the
request. -/
theorem start_synthesis_request (sha1 : c_string → sha1_digest) (hexstr_mem : Nat → Char)
    (env : start_env) (config : elevenlabs_config_t) (s : session) (text : c_string)
    (hl : (elevenlabs_http_client_start_synthesis sha1 hexstr_mem env config s
      (some text)).launched = true) :
    (elevenlabs_http_client_start_synthesis sha1 hexstr_mem env config s
      (some text)).session.client.url
      = some (request_url config (start_voice_id config s.client)) ∧
    (elevenlabs_http_client_start_synthesis sha1 hexstr_mem env config s
      (some text)).session.client.post_data = some (request_post_data config text) := by
  have hvoice : start_voice_id config
      (start_cache_paths config (start_reset s.client)
        (start_cache_key sha1 hexstr_mem config s.client text))
      = start_voice_id config s.client := by
    cases start_cache_key sha1 hexstr_mem config s.client text <;> rfl
  unfold elevenlabs_http_client_start_synthesis at hl ⊢
  simp only [start_cache_key_reset] at hl ⊢
  cases hp : start_playback env s.files
      (start_cache_paths config (start_reset s.client)
        (start_cache_key sha1 hexstr_mem config s.client text)) with
  | some final =>
    rw [hp] at hl
    cases hl
  | none =>
    rw [hp] at hl
    simp only [] at hl ⊢
    cases ht : env.thread_ok with
    | false =>
      rw [ht] at hl
      cases hl
    | true =>
      simp only [if_true, hvoice]
      exact ⟨trivial, trivial⟩

set_option maxRecDepth 100000 in
/-- C26 as stated fails: the text is copied into the body without escaping.
For the text `say "hi"` the body is not a JSON object at all, and for the text
`a","voice":"b` it is an object with three members, `text` having the value
`a`. -/
theorem request_post_data_not_escaped :
    request_post_data example_config "say \"hi\"".toList
      = "\x7b\"text\":\"say \"hi\"\",\"model_id\":\"eleven_v2\"\x7d".toList ∧
    json_object_string_members (request_post_data example_config "say \"hi\"".toList) = none ∧
    json_object_string_members (request_post_data example_config "a\",\"voice\":\"b".toList)
      = some [("text".toList, "a".toList), ("voice".toList, "b".toList),
              ("model_id".toList, "eleven_v2".toList)] := by
  decide

/-- C26 as amended. When a start launches the worker, the body it stores is
the text and the model id copied, without escaping, between the fixed parts
of an object with the members `text` and `model_id`; it reads back as a JSON
object with exactly these two string members, with the text and the model id
as values, when neither contains a double quote, a backslash or a control
character.  The URL is the base URL, `/`, the effective voice,
`/stream?output_format=`, the format, `&optimize_streaming_latency=` and the
level in decimal. -/
theorem request_body_and_url (sha1 : c_string → sha1_digest) (hexstr_mem : Nat → Char)
    (env : start_env) (config : elevenlabs_config_t) (s : session)
    (text b v fmt m : c_string)
    (hl : (elevenlabs_http_client_start_synthesis sha1 hexstr_mem env config s
      (some text)).launched = true)
    (hbase : config.base_url = some b) (hfmt : config.output_format = some fmt)
    (hm : config.model_id = some m)
    (hv : s.client.request_voice_id = some v ∨
      (s.client.request_voice_id = none ∧ config.voice_id = some v)) :
    (elevenlabs_http_client_start_synthesis sha1 hexstr_mem env config s
      (some text)).session.client.post_data
      = some ("\x7b\"text\":\"".toList ++ text ++ "\",\"model_id\":\"".toList ++ m
          ++ "\"\x7d".toList) ∧
    (elevenlabs_http_client_start_synthesis sha1 hexstr_mem env config s
      (some text)).session.client.url
      = some (b ++ "/".toList ++ v ++ "/stream?output_format=".toList ++ fmt
          ++ "&optimize_streaming_latency=".toList
          ++ (toString config.optimize_streaming_latency).toList) ∧
    ((∀ c ∈ text, json_plain c) → (∀ c ∈ m, json_plain c) →
      json_object_string_members
        ("\x7b\"text\":\"".toList ++ text ++ "\",\"model_id\":\"".toList ++ m
          ++ "\"\x7d".toList)
        = some [("text".toList, text), ("model_id".toList, m)]) := by
  obtain ⟨h1, h2⟩ := start_synthesis_request sha1 hexstr_mem env config s text hl
  have hvoice : start_voice_id config s.client = some v := by
    unfold start_voice_id
    rcases hv with h | ⟨ha, hb⟩
    · rw [h]
    · rw [ha, hb]
  have hbody : request_post_data config text
      = "\x7b\"text\":\"".toList ++ text ++ "\",\"model_id\":\"".toList ++ m
          ++ "\"\x7d".toList := by
    unfold request_post_data fmt_s
    rw [hm]
    rfl
  refine ⟨by rw [h2, hbody], ?_, ?_⟩
  · rw [h1, hvoice]
    unfold request_url fmt_s fmt_d
    rw [hbase, hfmt]
    rfl
  · intro ht hmp
    rw [← hbody]
    have := request_post_data_members config text ht (by
      unfold fmt_s
      rw [hm]
      exact hmp)
    rw [this]
    unfold fmt_s
    rw [hm]
    rfl

/-- Witness for C26 as amended: the text `hello` under `example_config`. -/
theorem request_body_and_url_witness :
    (elevenlabs_http_client_start_synthesis example_sha1 (fun _ => NUL) example_env
      example_config
      { example_session with
          client := { example_client with request_voice_id := some "Bella".toList } }
      (some "hello".toList)).session.client.url
      = some ("https://api.elevenlabs.io/v1/text-to-speech".toList ++ "/".toList
          ++ "Bella".toList ++ "/stream?output_format=".toList ++ "pcm_16000".toList
          ++ "&optimize_streaming_latency=".toList
          ++ (toString example_config.optimize_streaming_latency).toList) :=
  (request_body_and_url example_sha1 (fun _ => NUL) example_env example_config
    { example_session with
        client := { example_client with request_voice_id := some "Bella".toList } }
    "hello".toList "https://api.elevenlabs.io/v1/text-to-speech".toList "Bella".toList
    "pcm_16000".toList "eleven_v2".toList rfl rfl rfl rfl (Or.inl rfl)).2.1

/-! ## The configuration file -/

/-- C25, evaluated on the code: when `conf/mrcpengine.xml` cannot be opened,
`elevenlabs_config_parse` returns `TRUE` with the defaults, in which `api_key`
and `voice_id` are `NULL`, and the engine is created with them.  On every path
on which the file is opened, `TRUE` is returned only with both set. -/
theorem elevenlabs_config_parse_without_file (env : config_file_env) :
    elevenlabs_config_parse { env with open_ok := false }
      = (true, elevenlabs_config_set_defaults) ∧
    elevenlabs_config_set_defaults.api_key = none ∧
    elevenlabs_config_set_defaults.voice_id = none ∧
    mrcp_plugin_create { env with open_ok := false } = some elevenlabs_config_set_defaults ∧
    ((elevenlabs_config_parse { env with open_ok := true }).1 = true →
      (elevenlabs_config_parse { env with open_ok := true }).2.api_key.isSome = true ∧
      (elevenlabs_config_parse { env with open_ok := true }).2.voice_id.isSome = true) := by
  refine ⟨rfl, rfl, rfl, rfl, ?_⟩
  unfold elevenlabs_config_parse
  simp only [Bool.not_true, Bool.false_eq_true, if_false]
  cases env.info_ok <;> cases env.alloc_ok <;> cases env.read_ok <;>
    simp only [Bool.not_true, Bool.not_false, Bool.false_eq_true, if_false, if_true,
      false_implies]
  cases env.doc_root with
  | none => simp
  | some root =>
    simp only []
    cases ha : (config_walk elevenlabs_config_set_defaults root).api_key with
    | none => simp
    | some k =>
      cases hv : (config_walk elevenlabs_config_set_defaults root).voice_id with
      | none => simp
      | some v => simp [ha, hv]

/-- Witness for C25: with the file opened and `example_document` parsed, the
result is `TRUE` and both parameters are set. -/
theorem elevenlabs_config_parse_without_file_witness :
    (elevenlabs_config_parse
      { open_ok := true, info_ok := true, alloc_ok := true, read_ok := true,
        doc_root := some example_document }).2.api_key.isSome = true ∧
    (elevenlabs_config_parse
      { open_ok := true, info_ok := true, alloc_ok := true, read_ok := true,
        doc_root := some example_document }).2.voice_id.isSome = true :=
  (elevenlabs_config_parse_without_file
    { open_ok := true, info_ok := true, alloc_ok := true, read_ok := true,
      doc_root := some example_document }).2.2.2.2 (by decide)

/-! ## The two halves of a frame pull -/

/-- The two halves of `elevenlabs_synth_stream_read`, run one after the other
on the same state, are the whole call. -/
theorem stream_read_split (cs : channel_state) (frame : mpf_frame_t) :
    (if (stream_read_begin cs frame).2
      then stream_read_end (stream_read_begin cs frame).1.state
        (stream_read_begin cs frame).1.frame
      else (stream_read_begin cs frame).1)
      = elevenlabs_synth_stream_read cs frame := by
  unfold stream_read_begin stream_read_end elevenlabs_synth_stream_read
  cases hr : cs.channel.speak_request with
  | none => simp
  | some request =>
    cases hs : cs.channel.synthesizing with
    | false => simp
    | true =>
      by_cases hb : (audio_buffer_read_frame cs.session.audio_buffer frame.buffer
          frame.size).bytes_read > 0
      · simp [hb]
      · have hz : (audio_buffer_read_frame cs.session.audio_buffer frame.buffer
            frame.size).bytes_read = 0 := by omega
        simp [hb, hr, hz]

/-- A whole pull is its first half followed at once by its second half. -/
theorem session_step_pull_split (config : elevenlabs_config_t)
    (mems : Nat → Option (Nat → uint8_t)) (net_res http_code : Nat) (run : session_run)
    (frame : mpf_frame_t) (hp : run.pending = none) :
    session_step config mems net_res http_code
        (session_step config mems net_res http_code run (session_event.pull_read frame))
        session_event.pull_check
      = session_step config mems net_res http_code run (session_event.pull frame) := by
  have h := stream_read_split run.cs frame
  cases hb : (stream_read_begin run.cs frame).2 with
  | true =>
    rw [hb, if_pos rfl] at h
    simp only [session_step, hp, hb, if_true, h]
  | false =>
    rw [hb, if_neg Bool.false_ne_true] at h
    simp only [session_step, hp, hb, Bool.false_eq_true, if_false, h]

/-- A pull changes nothing of the session but the audio buffer. -/
theorem stream_read_session (cs : channel_state) (frame : mpf_frame_t) :
    (elevenlabs_synth_stream_read cs frame).state.session.client = cs.session.client ∧
    (elevenlabs_synth_stream_read cs frame).state.session.ulaw = cs.session.ulaw ∧
    (elevenlabs_synth_stream_read cs frame).state.session.files = cs.session.files := by
  unfold elevenlabs_synth_stream_read elevenlabs_send_speak_complete
  cases hr : cs.channel.speak_request with
  | none => exact ⟨rfl, rfl, rfl⟩
  | some request =>
    simp only []
    split_ifs <;> exact ⟨rfl, rfl, rfl⟩

/-! ## Runs of a session: the invariant -/

theorem pulled_bytes_append (pulls : List stream_read_result) (r : stream_read_result) :
    pulled_bytes (pulls ++ [r]) = pulled_bytes pulls ++ r.frame.buffer.take r.bytes_read := by
  unfold pulled_bytes
  rw [List.flatMap_append]
  simp

/-- What one whole pull of a frame of `f > 0` bytes does to a channel whose
utterance is active or has been completed: it hands out at most `f` bytes, the
front of the buffer; it completes the utterance only on an empty buffer and a
terminal fetch; otherwise it sends at most a keep-alive response. -/
theorem stream_read_pull_effect (cs : channel_state) (frame : mpf_frame_t) (request : Nat)
    (sent0 : List mrcp_message_t)
    (hf : 0 < frame.size) (hwf : cs.session.audio_buffer.wf)
    (hact : ∃ k : Nat,
      (cs.channel.speak_request = some request ∧ cs.channel.synthesizing = true ∧
        cs.sent = sent0 ++ List.replicate k
          (mrcp_message_t.response request mrcp_request_state_e.INPROGRESS false)) ∨
      (cs.channel.speak_request = none ∧ cs.channel.synthesizing = false ∧
        cs.session.audio_buffer.size = 0 ∧
        cs.session.client.stopped = true ∧
        cs.sent = sent0 ++ List.replicate k
            (mrcp_message_t.response request mrcp_request_state_e.INPROGRESS false)
          ++ [mrcp_message_t.speak_complete request mrcp_synth_completion_cause_e.NORMAL])) :
    (elevenlabs_synth_stream_read cs frame).state.session.audio_buffer.wf ∧
    (elevenlabs_synth_stream_read cs frame).bytes_read ≤ frame.size ∧
    (elevenlabs_synth_stream_read cs frame).frame.buffer.take
        (elevenlabs_synth_stream_read cs frame).bytes_read
      ++ (elevenlabs_synth_stream_read cs frame).state.session.audio_buffer.contents
      = cs.session.audio_buffer.contents ∧
    (∃ k : Nat,
      ((elevenlabs_synth_stream_read cs frame).state.channel.speak_request = some request ∧
        (elevenlabs_synth_stream_read cs frame).state.channel.synthesizing = true ∧
        (elevenlabs_synth_stream_read cs frame).state.sent = sent0 ++ List.replicate k
          (mrcp_message_t.response request mrcp_request_state_e.INPROGRESS false)) ∨
      ((elevenlabs_synth_stream_read cs frame).state.channel.speak_request = none ∧
        (elevenlabs_synth_stream_read cs frame).state.channel.synthesizing = false ∧
        (elevenlabs_synth_stream_read cs frame).state.session.audio_buffer.size = 0 ∧
        (elevenlabs_synth_stream_read cs frame).state.session.client.stopped = true ∧
        (elevenlabs_synth_stream_read cs frame).state.sent = sent0 ++ List.replicate k
            (mrcp_message_t.response request mrcp_request_state_e.INPROGRESS false)
          ++ [mrcp_message_t.speak_complete request mrcp_synth_completion_cause_e.NORMAL])) := by
  obtain ⟨k, hk⟩ := hact
  rcases hk with ⟨hr, hs, hsent⟩ | ⟨hr, hs, hb, hst, hsent⟩
  · by_cases hb : 0 < cs.session.audio_buffer.size
    · obtain ⟨a1, a2, _, a4, a5, _, a7, a8⟩ := stream_read_audio cs frame request hr hs hwf hb hf
      refine ⟨a5, by rw [a1]; exact Nat.min_le_left _ _, ?_, k, Or.inl ⟨?_, ?_, ?_⟩⟩
      · rw [a2, a4, List.take_append_drop]
      · rw [a8]; exact hr
      · rw [a8]; exact hs
      · rw [a7]; exact hsent
    · have hz : cs.session.audio_buffer.size = 0 := by omega
      have hc0 : cs.session.audio_buffer.contents = [] := by
        apply List.eq_nil_of_length_eq_zero
        rw [audio_buffer_t.contents_length _ hwf, hz]
      cases hst : cs.session.client.stopped with
      | false =>
        obtain ⟨_, s2, s3⟩ := stream_read_silence cs frame request hr hs hz hst
        rw [s2, s3]
        by_cases hcnt : cs.channel.progress_counter + 1 ≥ 25
        · rw [if_pos hcnt]
          refine ⟨hwf, Nat.zero_le _, ?_, k + 1, Or.inl ⟨hr, hs, ?_⟩⟩
          · simp [hc0]
          · show cs.sent ++ _ = _
            rw [hsent, List.append_assoc, List.replicate_succ']
        · rw [if_neg hcnt]
          refine ⟨hwf, Nat.zero_le _, ?_, k, Or.inl ⟨hr, hs, hsent⟩⟩
          simp [hc0]
      | true =>
        rw [stream_read_complete cs frame request hr hs hz hst]
        refine ⟨hwf, Nat.zero_le _, ?_, k, Or.inr ⟨rfl, rfl, hz, hst, ?_⟩⟩
        · simp [hc0]
        · show cs.sent ++ _ = _
          rw [hsent]
  · rw [stream_read_idle cs frame (Or.inl hr)]
    have hc0 : cs.session.audio_buffer.contents = [] := by
      apply List.eq_nil_of_length_eq_zero
      rw [audio_buffer_t.contents_length _ hwf, hb]
    refine ⟨hwf, Nat.zero_le _, ?_, k, Or.inr ⟨hr, hs, hb, hst, hsent⟩⟩
    simp [hc0]

/-- A whole pull keeps the invariant of a run. -/
theorem session_inv_pull (config : elevenlabs_config_t) (mems : Nat → Option (Nat → uint8_t))
    (net_res http_code : Nat) (T : List uint8_t) (sent0 : List mrcp_message_t)
    (f request : Nat) (run : session_run) (frame : mpf_frame_t)
    (hf : 0 < f) (hsize : frame.size = f)
    (h : session_inv config T sent0 f request run) :
    session_inv config T sent0 f request
      (session_step config mems net_res http_code run (session_event.pull frame)) := by
  obtain ⟨i1, i2, i3, i4, i5, i6, i7⟩ := h
  obtain ⟨p1, p2, p3, p4⟩ := stream_read_pull_effect run.cs frame request sent0
    (by rw [hsize]; exact hf) i2 i5
  obtain ⟨q1, q2, _⟩ := stream_read_session run.cs frame
  have hstep : session_step config mems net_res http_code run (session_event.pull frame)
      = { run with cs := (elevenlabs_synth_stream_read run.cs frame).state,
                   pulls := run.pulls ++ [elevenlabs_synth_stream_read run.cs frame] } := by
    simp only [session_step, i1]
  rw [hstep]
  have hbytes : pulled_bytes (run.pulls ++ [elevenlabs_synth_stream_read run.cs frame])
      ++ (elevenlabs_synth_stream_read run.cs frame).state.session.audio_buffer.contents
      = pulled_bytes run.pulls ++ run.cs.session.audio_buffer.contents := by
    rw [pulled_bytes_append, List.append_assoc, p3]
  refine ⟨i1, p1, ?_, ?_, p4, ?_, ?_⟩
  · show (elevenlabs_synth_stream_read run.cs frame).state.session.client.cache_fp = none
    rw [q1]; exact i3
  · intro r hr
    rcases List.mem_append.mp hr with hr | hr
    · exact i4 r hr
    · rw [List.mem_singleton.mp hr, ← hsize]; exact p2
  · intro w hw
    obtain ⟨w1, w2, w3⟩ := i6 w hw
    refine ⟨w1, ?_, ?_⟩
    · show (elevenlabs_synth_stream_read run.cs frame).state.session.client.stopped = false
      rw [q1]; exact w2
    · intro ha
      show pulled_bytes (run.pulls ++ [elevenlabs_synth_stream_read run.cs frame])
        ++ (elevenlabs_synth_stream_read run.cs frame).state.session.audio_buffer.contents
        ++ deliver_outputs config (elevenlabs_synth_stream_read run.cs frame).state.session.ulaw
            w.chunks = T
      rw [hbytes, q2]
      exact w3 ha
  · intro hw
    obtain ⟨w1, res, w2, w3⟩ := i7 hw
    refine ⟨?_, res, w2, ?_⟩
    · show (elevenlabs_synth_stream_read run.cs frame).state.session.client.stopped = true
      rw [q1]; exact w1
    · intro hres
      show pulled_bytes (run.pulls ++ [elevenlabs_synth_stream_read run.cs frame])
        ++ (elevenlabs_synth_stream_read run.cs frame).state.session.audio_buffer.contents = T
      rw [hbytes]
      exact w3 hres
/-- The finalization of a session without open cache file changes nothing. -/
theorem cache_finalize_plain (config : elevenlabs_config_t) (s : session)
    (res http_code : Nat) (hfp : s.client.cache_fp = none) :
    cache_finalize config s res http_code = s := by
  unfold cache_finalize
  rw [hfp]

/-- A step of the worker keeps the invariant of a run (sizes stay below
`2 ^ 63`). -/
theorem session_inv_worker (config : elevenlabs_config_t)
    (mems : Nat → Option (Nat → uint8_t))
    (net_res http_code : Nat) (T : List uint8_t) (sent0 : List mrcp_message_t)
    (f request : Nat) (run : session_run)
    (hfit : 2 * T.length < APR_SIZE_MODULUS)
    (h : session_inv config T sent0 f request run) :
    session_inv config T sent0 f request
      (session_step config mems net_res http_code run session_event.worker) := by
  cases hw : run.worker with
  | none =>
    have hstep : session_step config mems net_res http_code run session_event.worker = run := by
      simp only [session_step, hw]
    rw [hstep]
    exact h
  | some w =>
    obtain ⟨i1, i2, i3, i4, i5, i6, _⟩ := h
    obtain ⟨w1, w2, w3⟩ := i6 w hw
    have hact : ∃ k : Nat,
        run.cs.channel.speak_request = some request ∧ run.cs.channel.synthesizing = true ∧
        run.cs.sent = sent0 ++ List.replicate k
          (mrcp_message_t.response request mrcp_request_state_e.INPROGRESS false) := by
      obtain ⟨k, hk⟩ := i5
      rcases hk with hk | ⟨_, _, _, hst, _⟩
      · exact ⟨k, hk⟩
      · rw [w2] at hst
        exact absurd hst (by decide)
    obtain ⟨k, a1, a2, a3⟩ := hact
    have hfinal : ∀ aborted : Bool, (aborted = false → w.aborted = false ∧ w.chunks = []) →
        session_inv config T sent0 f request
          { run with
              cs := { run.cs with
                        session :=
                          { (cache_finalize config run.cs.session
                              (if aborted then CURLE_WRITE_ERROR else net_res) http_code) with
                            client :=
                              { (cache_finalize config run.cs.session
                                  (if aborted then CURLE_WRITE_ERROR else net_res)
                                  http_code).client with stopped := true } } },
              worker := none,
              result := some (if aborted then CURLE_WRITE_ERROR else net_res) } := by
      intro aborted hab
      rw [cache_finalize_plain config run.cs.session _ http_code i3]
      refine ⟨i1, i2, i3, i4, ⟨k, Or.inl ⟨a1, a2, a3⟩⟩, ?_, ?_⟩
      · intro w0 hw0
        exact absurd hw0 (by simp)
      · intro _
        refine ⟨rfl, _, rfl, ?_⟩
        intro hres
        cases aborted with
        | true =>
          have hres2 : CURLE_WRITE_ERROR = CURLE_OK := hres
          exact absurd hres2 (by decide)
        | false =>
          obtain ⟨b1, b2⟩ := hab rfl
          have := w3 b1
          rw [b2] at this
          simpa [deliver_outputs] using this
    cases ha : w.aborted with
    | true =>
      have hstep : session_step config mems net_res http_code run session_event.worker
          = { run with
              cs := { run.cs with
                        session :=
                          { (cache_finalize config run.cs.session
                              (if true then CURLE_WRITE_ERROR else net_res) http_code) with
                            client :=
                              { (cache_finalize config run.cs.session
                                  (if true then CURLE_WRITE_ERROR else net_res)
                                  http_code).client with stopped := true } } },
              worker := none,
              result := some (if true then CURLE_WRITE_ERROR else net_res) } := by
        simp only [session_step, hw, worker_step, ha]
      rw [hstep]
      exact hfinal true (fun hh => absurd hh (by decide))
    | false =>
      cases hc : w.chunks with
      | nil =>
        have hstep : session_step config mems net_res http_code run session_event.worker
            = { run with
                cs := { run.cs with
                          session :=
                            { (cache_finalize config run.cs.session
                                (if false then CURLE_WRITE_ERROR else net_res) http_code) with
                              client :=
                                { (cache_finalize config run.cs.session
                                    (if false then CURLE_WRITE_ERROR else net_res)
                                    http_code).client with stopped := true } } },
                worker := none,
                result := some (if false then CURLE_WRITE_ERROR else net_res) } := by
          simp only [session_step, hw, worker_step, ha, hc]
        rw [hstep]
        exact hfinal false (fun _ => ⟨ha, hc⟩)
      | cons chunk rest =>
        have hstep : session_step config mems net_res http_code run session_event.worker
            = { run with
                cs := { run.cs with
                          session := (write_callback config run.cs.session chunk
                            (mems w.index)).1 },
                worker := some
                  { chunks := rest, index := w.index + 1,
                    aborted := decide ((write_callback config run.cs.session chunk
                      (mems w.index)).2 ≠ chunk.length) },
                result := none } := by
          simp only [session_step, hw, worker_step, ha, hc]
        rw [hstep]
        obtain ⟨_, _, _, f4, f5, _⟩ := write_callback_frame config run.cs.session chunk
          (mems w.index)
        obtain ⟨g1, g2⟩ := write_callback_buffer config run.cs.session chunk (mems w.index) w2
        have hcontent := w3 ha
        rw [hc] at hcontent
        have hlen : (pulled_bytes run.pulls).length + run.cs.session.audio_buffer.size
            + (sink_output config run.cs.session.ulaw chunk).1.length
            + (deliver_outputs config (sink_output config run.cs.session.ulaw chunk).2
                rest).length = T.length := by
          rw [← hcontent, ← audio_buffer_t.contents_length _ i2]
          simp [deliver_outputs]
          omega
        have hwf : (write_callback config run.cs.session chunk
            (mems w.index)).1.audio_buffer.wf := by
          by_cases hret : (write_callback config run.cs.session chunk (mems w.index)).2
              = chunk.length
          · exact (write_callback_ok_step config run.cs.session chunk (mems w.index) w2 i2 hret
              (by omega)).1
          · cases hwr : (audio_buffer_write run.cs.session.audio_buffer
                (sink_output config run.cs.session.ulaw chunk).1 (mems w.index)).2 with
            | true =>
              rw [hwr, if_pos rfl] at g2
              exact absurd g2 hret
            | false =>
              rw [g1, audio_buffer_write_failed _ _ _ hwr]
              exact i2
        refine ⟨i1, hwf, (f5 i3).1, i4, ⟨k, Or.inl ⟨a1, a2, a3⟩⟩, ?_, ?_⟩
        · intro w0 hw0
          have hw0eq : w0 = worker_state.mk rest (w.index + 1)
              (decide ((write_callback config run.cs.session chunk
                (mems w.index)).2 ≠ chunk.length)) := (Option.some.inj hw0).symm
          refine ⟨rfl, ?_, ?_⟩
          · show (write_callback config run.cs.session chunk (mems w.index)).1.client.stopped
              = false
            rw [f4]; exact w2
          · intro hab
            rw [hw0eq] at hab
            have hret : (write_callback config run.cs.session chunk (mems w.index)).2
                = chunk.length := by
              by_contra hne
              have : decide ((write_callback config run.cs.session chunk (mems w.index)).2
                  ≠ chunk.length) = true := decide_eq_true hne
              have hab2 : decide ((write_callback config run.cs.session chunk (mems w.index)).2
                  ≠ chunk.length) = false := hab
              rw [this] at hab2
              exact absurd hab2 (by decide)
            obtain ⟨_, o2, o3, _⟩ := write_callback_ok_step config run.cs.session chunk
              (mems w.index) w2 i2 hret (by omega)
            show pulled_bytes run.pulls
              ++ (write_callback config run.cs.session chunk (mems w.index)).1.audio_buffer.contents
              ++ deliver_outputs config
                  (write_callback config run.cs.session chunk (mems w.index)).1.ulaw w0.chunks
              = T
            rw [o2, o3, hw0eq, ← hcontent]
            simp [deliver_outputs]
        · intro hnone
          exact absurd hnone (by simp)
/-- The invariant holds at the return of a SPEAK handler that has launched the
worker with caching disabled. -/
theorem session_inv_start (sha1 : c_string → sha1_digest) (hexstr_mem : Nat → Char)
    (env : start_env) (config : elevenlabs_config_t) (cs : channel_state) (request : Nat)
    (voice_name : Option c_string) (text : c_string) (chunks : List (List uint8_t)) (f : Nat)
    (hc : config.cache_enabled = false) (ht : text ≠ []) (hth : env.thread_ok = true)
    (hwf : cs.session.audio_buffer.wf) :
    session_inv config (deliver_outputs config cs.session.ulaw chunks)
      (cs.sent ++ [mrcp_message_t.response request mrcp_request_state_e.INPROGRESS false])
      f request
      (session_start sha1 hexstr_mem env config cs request voice_name (some text) chunks) ∧
    (session_start sha1 hexstr_mem env config cs request voice_name (some text) chunks).worker
      = some { chunks := chunks, index := 0, aborted := false } ∧
    (session_start sha1 hexstr_mem env config cs request voice_name (some text) chunks).pulls
      = [] ∧
    (session_start sha1 hexstr_mem env config cs request voice_name (some text)
      chunks).cs.channel.speak_request = some request := by
  obtain ⟨s1, s2, s3, s4, _, s6, s7⟩ :=
    start_synthesis_no_cache sha1 hexstr_mem env config (speak_session config cs voice_name)
      text hc
  rw [hth] at s1 s2
  have hspeak := channel_speak_started sha1 hexstr_mem env config cs request voice_name text ht s2
  have hwf0 : (elevenlabs_http_client_start_synthesis sha1 hexstr_mem env config
      (speak_session config cs voice_name) (some text)).session.audio_buffer.wf := by
    rw [s3]
    exact ⟨hwf.1, hwf.2.1, Nat.zero_le _⟩
  have hsz0 : (elevenlabs_http_client_start_synthesis sha1 hexstr_mem env config
      (speak_session config cs voice_name) (some text)).session.audio_buffer.size = 0 := by
    rw [s3]; rfl
  have hu0 : (elevenlabs_http_client_start_synthesis sha1 hexstr_mem env config
      (speak_session config cs voice_name) (some text)).session.ulaw = cs.session.ulaw := s4
  have hc0 : (elevenlabs_http_client_start_synthesis sha1 hexstr_mem env config
      (speak_session config cs voice_name) (some text)).session.audio_buffer.contents = [] := by
    apply List.eq_nil_of_length_eq_zero
    rw [audio_buffer_t.contents_length _ hwf0, hsz0]
  have hstart : session_start sha1 hexstr_mem env config cs request voice_name (some text)
      chunks
      = { cs :=
            { channel :=
                { cs.channel with
                    speak_request := some request, stop_response := none,
                    progress_counter := 0, synthesizing := true },
              session := (elevenlabs_http_client_start_synthesis sha1 hexstr_mem env config
                (speak_session config cs voice_name) (some text)).session,
              sent := cs.sent ++
                [mrcp_message_t.response request mrcp_request_state_e.INPROGRESS false] },
          worker := some { chunks := chunks, index := 0, aborted := false },
          result := none, pending := none, pulls := [] } := by
    unfold session_start
    simp only [hspeak, s1, if_true]
  rw [hstart]
  refine ⟨⟨rfl, hwf0, s7, ?_, ⟨0, Or.inl ⟨rfl, rfl, ?_⟩⟩, ?_, ?_⟩, rfl, rfl, rfl⟩
  · intro r hr
    exact absurd hr (List.not_mem_nil r)
  · simp
  · intro w hw
    have hw0 : w = worker_state.mk chunks 0 false := (Option.some.inj hw).symm
    refine ⟨rfl, s6, ?_⟩
    intro _
    show pulled_bytes [] ++ (elevenlabs_http_client_start_synthesis sha1 hexstr_mem env config
        (speak_session config cs voice_name) (some text)).session.audio_buffer.contents
      ++ deliver_outputs config (elevenlabs_http_client_start_synthesis sha1 hexstr_mem env
          config (speak_session config cs voice_name) (some text)).session.ulaw w.chunks = _
    rw [hc0, hu0, hw0]
    rfl
  · intro hnone
    exact absurd hnone (by simp)

/-- Every run of worker steps and whole pulls of frames of `f > 0` bytes keeps
the invariant. -/
theorem session_inv_events (config : elevenlabs_config_t)
    (mems : Nat → Option (Nat → uint8_t))
    (net_res http_code : Nat) (T : List uint8_t) (sent0 : List mrcp_message_t)
    (f request : Nat) (hf : 0 < f) (hfit : 2 * T.length < APR_SIZE_MODULUS)
    (evs : List session_event) :
    ∀ run : session_run,
      (∀ e ∈ evs, e.atomic = true) →
      (∀ frame : mpf_frame_t, session_event.pull frame ∈ evs → frame.size = f) →
      session_inv config T sent0 f request run →
      session_inv config T sent0 f request
        (session_run_events config mems net_res http_code run evs) := by
  induction evs with
  | nil => intro run _ _ h; exact h
  | cons e rest ih =>
    intro run hat hsz h
    show session_inv config T sent0 f request
      (session_run_events config mems net_res http_code
        (session_step config mems net_res http_code run e) rest)
    apply ih
    · intro e2 he2; exact hat e2 (List.mem_cons_of_mem _ he2)
    · intro frame hfr; exact hsz frame (List.mem_cons_of_mem _ hfr)
    · cases e with
      | worker => exact session_inv_worker config mems net_res http_code T sent0 f request run hfit h
      | pull frame =>
        exact session_inv_pull config mems net_res http_code T sent0 f request run frame hf
          (hsz frame (List.mem_cons_self _ _)) h
      | pull_read frame =>
        exact absurd (hat _ (List.mem_cons_self _ _)) (by simp [session_event.atomic])
      | pull_check =>
        exact absurd (hat _ (List.mem_cons_self _ _)) (by simp [session_event.atomic])

/-- Worker steps leave the channel, the messages and the pulls as they are. -/
theorem session_run_workers (config : elevenlabs_config_t)
    (mems : Nat → Option (Nat → uint8_t)) (net_res http_code : Nat)
    (evs : List session_event) :
    ∀ run : session_run, (∀ e ∈ evs, e = session_event.worker) →
      (session_run_events config mems net_res http_code run evs).pulls = run.pulls ∧
      (session_run_events config mems net_res http_code run evs).pending = run.pending ∧
      (session_run_events config mems net_res http_code run evs).cs.channel = run.cs.channel ∧
      (session_run_events config mems net_res http_code run evs).cs.sent = run.cs.sent := by
  induction evs with
  | nil => intro run _; exact ⟨rfl, rfl, rfl, rfl⟩
  | cons e rest ih =>
    intro run hall
    have he : e = session_event.worker := hall e (List.mem_cons_self _ _)
    obtain ⟨h1, h2, h3, h4⟩ := ih (session_step config mems net_res http_code run e)
      (fun e2 he2 => hall e2 (List.mem_cons_of_mem _ he2))
    have hstep : (session_step config mems net_res http_code run e).pulls = run.pulls ∧
        (session_step config mems net_res http_code run e).pending = run.pending ∧
        (session_step config mems net_res http_code run e).cs.channel = run.cs.channel ∧
        (session_step config mems net_res http_code run e).cs.sent = run.cs.sent := by
      rw [he]
      cases hw : run.worker with
      | none => simp [session_step, hw]
      | some w => simp [session_step, hw]
    show (session_run_events config mems net_res http_code
        (session_step config mems net_res http_code run e) rest).pulls = run.pulls ∧ _
    exact ⟨h1.trans hstep.1, h2.trans hstep.2.1, h3.trans hstep.2.2.1, h4.trans hstep.2.2.2⟩

/-- Frames of `f` bytes, `ceil(b / f)` of them, cover `b` bytes. -/
theorem le_mul_ceil_div (b f : Nat) (hf : 0 < f) : b ≤ f * ((b + f - 1) / f) := by
  have hq := Nat.div_add_mod (b + f - 1) f
  have hm := Nat.mod_lt (b + f - 1) hf
  omega

/-- What `n` frames of `f` bytes cover takes at most `n` frames. -/
theorem ceil_div_le_of_le_mul (m n f : Nat) (hf : 0 < f) (h : m ≤ f * n) :
    (m + f - 1) / f ≤ n := by
  apply Nat.le_of_lt_succ
  rw [Nat.div_lt_iff_lt_mul hf, Nat.succ_mul, Nat.mul_comm n f]
  omega

/-- Calls that hand out at most `f` bytes each need at least `n / f` calls
that hand out bytes for `n` bytes. -/
theorem pulled_bytes_length_le (f : Nat) (pulls : List stream_read_result)
    (h : ∀ r ∈ pulls, r.bytes_read ≤ f) :
    (pulled_bytes pulls).length
      ≤ f * (pulls.filter (fun r => decide (0 < r.bytes_read))).length := by
  induction pulls with
  | nil => simp [pulled_bytes]
  | cons r rest ih =>
    have ih2 := ih (fun r2 hr2 => h r2 (List.mem_cons_of_mem _ hr2))
    have hr := h r (List.mem_cons_self _ _)
    have hcons : pulled_bytes (r :: rest)
        = r.frame.buffer.take r.bytes_read ++ pulled_bytes rest := by
      simp [pulled_bytes]
    rw [hcons, List.length_append]
    have htake : (r.frame.buffer.take r.bytes_read).length ≤ r.bytes_read :=
      List.length_take_le _ _
    by_cases hz : 0 < r.bytes_read
    · rw [List.filter_cons_of_pos (by simpa using hz), List.length_cons, Nat.mul_succ]
      omega
    · rw [List.filter_cons_of_neg (by simpa using hz)]
      omega
/-- Worker events after the worker has exited do nothing. -/
theorem session_run_worker_exited (config : elevenlabs_config_t)
    (mems : Nat → Option (Nat → uint8_t)) (net_res http_code : Nat) (k : Nat) :
    ∀ run : session_run, run.worker = none →
      session_run_events config mems net_res http_code run
        (List.replicate k session_event.worker) = run := by
  induction k with
  | zero => intro run _; rfl
  | succ k ih =>
    intro run hw
    have hstep : session_step config mems net_res http_code run session_event.worker = run := by
      simp only [session_step, hw]
    show session_run_events config mems net_res http_code
      (session_step config mems net_res http_code run session_event.worker)
      (List.replicate k session_event.worker) = run
    rw [hstep]
    exact ih run hw

/-- The last step of the worker followed by any number of worker events. -/
theorem session_run_worker_last (config : elevenlabs_config_t)
    (mems : Nat → Option (Nat → uint8_t)) (net_res http_code : Nat) (k : Nat)
    (run : session_run) (w : worker_state) (hw : run.worker = some w)
    (hlast : w.aborted = true ∨ w.chunks = []) :
    session_run_events config mems net_res http_code run
        (List.replicate (k + 1) session_event.worker)
      = { run with
            cs := { run.cs with
                      session :=
                        { (cache_finalize config run.cs.session
                            (if w.aborted then CURLE_WRITE_ERROR else net_res) http_code) with
                          client :=
                            { (cache_finalize config run.cs.session
                                (if w.aborted then CURLE_WRITE_ERROR else net_res)
                                http_code).client with stopped := true } } },
            worker := none,
            result := some (if w.aborted then CURLE_WRITE_ERROR else net_res) } := by
  have hstep : session_step config mems net_res http_code run session_event.worker
      = { run with
            cs := { run.cs with
                      session :=
                        { (cache_finalize config run.cs.session
                            (if w.aborted then CURLE_WRITE_ERROR else net_res) http_code) with
                          client :=
                            { (cache_finalize config run.cs.session
                                (if w.aborted then CURLE_WRITE_ERROR else net_res)
                                http_code).client with stopped := true } } },
            worker := none,
            result := some (if w.aborted then CURLE_WRITE_ERROR else net_res) } := by
    cases ha : w.aborted with
    | true => simp only [session_step, hw, worker_step, ha]
    | false =>
      rcases hlast with hl | hl
      · rw [ha] at hl; exact absurd hl (by decide)
      · simp only [session_step, hw, worker_step, ha, hl]
  show session_run_events config mems net_res http_code
    (session_step config mems net_res http_code run session_event.worker)
    (List.replicate k session_event.worker) = _
  rw [hstep]
  exact session_run_worker_exited config mems net_res http_code k _ rfl

/-- A run in which only the worker moves, for at least one step more than
there are chunks: the session ends as `curl_deliver`, the finalization and
`stopped = TRUE` leave it, and the worker has exited with the result of
`curl_easy_perform`. -/
theorem session_run_worker_only (config : elevenlabs_config_t)
    (mems : Nat → Option (Nat → uint8_t)) (net_res http_code : Nat)
    (chunks : List (List uint8_t)) :
    ∀ (run : session_run) (i k : Nat),
      run.worker = some { chunks := chunks, index := i, aborted := false } →
      (session_run_events config mems net_res http_code run
          (List.replicate (chunks.length + 1 + k) session_event.worker)).cs.session
        = { (cache_finalize config (curl_deliver config mems run.cs.session chunks i).1
              (if (curl_deliver config mems run.cs.session chunks i).2 then CURLE_WRITE_ERROR
               else net_res) http_code) with
            client :=
              { (cache_finalize config (curl_deliver config mems run.cs.session chunks i).1
                  (if (curl_deliver config mems run.cs.session chunks i).2
                   then CURLE_WRITE_ERROR else net_res) http_code).client with
                stopped := true } } ∧
      (session_run_events config mems net_res http_code run
          (List.replicate (chunks.length + 1 + k) session_event.worker)).worker = none ∧
      (session_run_events config mems net_res http_code run
          (List.replicate (chunks.length + 1 + k) session_event.worker)).result
        = some (if (curl_deliver config mems run.cs.session chunks i).2 then CURLE_WRITE_ERROR
                else net_res) := by
  induction chunks with
  | nil =>
    intro run i k hw
    have hk : ([] : List (List uint8_t)).length + 1 + k = k + 1 := by
      simp only [List.length_nil]; omega
    rw [hk, session_run_worker_last config mems net_res http_code k run _ hw (Or.inr rfl)]
    exact ⟨rfl, rfl, rfl⟩
  | cons chunk rest ih =>
    intro run i k hw
    have hk : (chunk :: rest).length + 1 + k = (rest.length + 1 + k) + 1 := by
      simp only [List.length_cons]; omega
    rw [hk]
    have hstep : session_step config mems net_res http_code run session_event.worker
        = { run with
            cs := { run.cs with
                      session := (write_callback config run.cs.session chunk (mems i)).1 },
            worker := some
              (worker_state.mk rest (i + 1)
                (decide ((write_callback config run.cs.session chunk (mems i)).2
                  ≠ chunk.length))),
            result := none } := by
      simp only [session_step, hw, worker_step]
    have hunfold : session_run_events config mems net_res http_code run
        (List.replicate ((rest.length + 1 + k) + 1) session_event.worker)
        = session_run_events config mems net_res http_code
            (session_step config mems net_res http_code run session_event.worker)
            (List.replicate (rest.length + 1 + k) session_event.worker) := rfl
    rw [hunfold, hstep]
    by_cases hret : (write_callback config run.cs.session chunk (mems i)).2 = chunk.length
    · have hd : decide ((write_callback config run.cs.session chunk (mems i)).2
          ≠ chunk.length) = false := by simp [hret]
      have hcd : curl_deliver config mems run.cs.session (chunk :: rest) i
          = curl_deliver config mems (write_callback config run.cs.session chunk (mems i)).1
              rest (i + 1) := by
        simp only [curl_deliver]
        rw [if_neg (not_not.mpr hret)]
      rw [hd, hcd]
      exact ih _ (i + 1) k rfl
    · have hd : decide ((write_callback config run.cs.session chunk (mems i)).2
          ≠ chunk.length) = true := by simp [hret]
      have hcd : curl_deliver config mems run.cs.session (chunk :: rest) i
          = ((write_callback config run.cs.session chunk (mems i)).1, true) := by
        simp only [curl_deliver]
        rw [if_pos hret]
      have hk2 : rest.length + 1 + k = (rest.length + k) + 1 := by omega
      rw [hd, hcd, hk2, session_run_worker_last config mems net_res http_code (rest.length + k) _
        (worker_state.mk rest (i + 1) true) rfl (Or.inl rfl)]
      exact ⟨rfl, rfl, rfl⟩

/-- The run in which the worker ends before the first pull leaves the session
as `elevenlabs_http_thread`, run from start to end, leaves it. -/
theorem session_run_worker_thread (config : elevenlabs_config_t)
    (mems : Nat → Option (Nat → uint8_t)) (net_res http_code : Nat)
    (chunks : List (List uint8_t)) (run : session_run) (k : Nat)
    (hw : run.worker = some { chunks := chunks, index := 0, aborted := false }) :
    (session_run_events config mems net_res http_code run
        (List.replicate (chunks.length + 1 + k) session_event.worker)).cs.session
      = elevenlabs_http_thread config mems run.cs.session chunks net_res http_code ∧
    (session_run_events config mems net_res http_code run
        (List.replicate (chunks.length + 1 + k) session_event.worker)).result
      = some (curl_easy_perform config mems run.cs.session chunks net_res).2 := by
  obtain ⟨h1, _, h3⟩ := session_run_worker_only config mems net_res http_code chunks run 0 k hw
  exact ⟨h1, h3⟩
/-! ## The session lifecycle: the claim -/

set_option maxRecDepth 100000 in
/-- A pull whose read finds the buffer empty, followed by the last chunk and
the end of the worker before the pull tests `stopped`: the completion is sent
while the 100 bytes of the chunk are in the buffer, and they are never handed
out. -/
theorem stream_read_completion_race :
    (example_run [List.replicate 100 5]
      [session_event.pull_read (example_frame 50), session_event.worker, session_event.worker,
       session_event.pull_check, session_event.pull (example_frame 50)]).cs.sent
      = [mrcp_message_t.response 1 mrcp_request_state_e.INPROGRESS false,
         mrcp_message_t.speak_complete 1 mrcp_synth_completion_cause_e.NORMAL] ∧
    (example_run [List.replicate 100 5]
      [session_event.pull_read (example_frame 50), session_event.worker, session_event.worker,
       session_event.pull_check, session_event.pull (example_frame 50)]).cs.session.audio_buffer.size
      = 100 ∧
    (example_run [List.replicate 100 5]
      [session_event.pull_read (example_frame 50), session_event.worker, session_event.worker,
       session_event.pull_check, session_event.pull (example_frame 50)]).pulls.map
        (fun r => r.bytes_read) = [0, 0] := by
  decide

set_option maxRecDepth 100000 in
/-- C14 as stated fails: the fetch delivers a chunk of 30 bytes and a chunk of
270 bytes and reports success, so `M = 300` and `ceil(M / 50) = 6`; a frame of
50 bytes is pulled after the first chunk and the other frames after the worker
has ended.  Seven calls hand out bytes (30, then five times 50, then 20), the
first of them fewer than 50, before the eighth call reports the completion. -/
theorem session_frames_exceed_ceil :
    (example_run [List.replicate 30 5, List.replicate 270 6]
      (session_event.worker :: session_event.pull (example_frame 50) :: session_event.worker
        :: session_event.worker
        :: List.replicate 7 (session_event.pull (example_frame 50)))).result = some CURLE_OK ∧
    (deliver_outputs example_config example_idle_channel.session.ulaw
      [List.replicate 30 5, List.replicate 270 6]).length = 300 ∧
    (example_run [List.replicate 30 5, List.replicate 270 6]
      (session_event.worker :: session_event.pull (example_frame 50) :: session_event.worker
        :: session_event.worker
        :: List.replicate 7 (session_event.pull (example_frame 50)))).pulls.map
        (fun r => r.bytes_read) = [30, 50, 50, 50, 50, 50, 20, 0] ∧
    (example_run [List.replicate 30 5, List.replicate 270 6]
      (session_event.worker :: session_event.pull (example_frame 50) :: session_event.worker
        :: session_event.worker
        :: List.replicate 7 (session_event.pull (example_frame 50)))).cs.sent
      = [mrcp_message_t.response 1 mrcp_request_state_e.INPROGRESS false,
         mrcp_message_t.speak_complete 1 mrcp_synth_completion_cause_e.NORMAL] ∧
    ((example_run [List.replicate 30 5, List.replicate 270 6]
      (session_event.worker :: session_event.pull (example_frame 50) :: session_event.worker
        :: session_event.worker
        :: List.replicate 7 (session_event.pull (example_frame 50)))).pulls.filter
        (fun r => decide (0 < r.bytes_read))).length = 7 ∧
    (300 + 50 - 1) / 50 = 6 := by
  decide

/-- C14 as amended (session lifecycle). A SPEAK request with caching disabled
launches the worker, which is to receive `chunks`; `T` are the bytes the sink
hands on for them (the chunks themselves when the sink does not convert).
Take any run `evs` of worker steps and whole calls of `stream_read` with
frames of `f > 0` bytes (no worker step falls between a call's read from the
buffer and its test of `stopped`) in which the worker exits with `CURLE_OK`.
Then no call has handed out more than `f` bytes; the bytes handed out, in
order, followed by the bytes in the buffer are `T`, so that at least
`ceil(T.length / f)` calls hand out bytes by the time the buffer is drained;
the messages sent since the SPEAK request are its IN-PROGRESS response,
keep-alive responses and, once the utterance has ended, one SPEAK-COMPLETE
with cause NORMAL at the end.  If the
utterance has ended, the buffer is empty and later calls read and send
nothing.  If it is still active, the next `ceil(B / f)` calls, `B` the bytes
in the buffer, hand out `f` bytes each and `B % f` in one more call when that
is not zero, which are the bytes of the buffer in order, and send nothing; the
call after them reads nothing and sends SPEAK-COMPLETE with cause NORMAL; later
calls read and send nothing.  When the worker has exited before the first call
(only worker steps in `evs`), the utterance is active and the buffer holds
`T`, so exactly `ceil(T.length / f)` calls hand out bytes.  (Buffer sizes stay
below `2 ^ 63`.) -/
theorem session_lifecycle (sha1 : c_string → sha1_digest) (hexstr_mem : Nat → Char)
    (env : start_env) (config : elevenlabs_config_t) (cs : channel_state) (request : Nat)
    (voice_name : Option c_string) (text : c_string) (mems : Nat → Option (Nat → uint8_t))
    (chunks : List (List uint8_t)) (net_res http_code : Nat) (evs : List session_event)
    (f : Nat) (frames : List mpf_frame_t) (frame : mpf_frame_t) (later : List mpf_frame_t)
    (hc : config.cache_enabled = false) (ht : text ≠ []) (hth : env.thread_ok = true)
    (hwf : cs.session.audio_buffer.wf)
    (hfit : 2 * (deliver_outputs config cs.session.ulaw chunks).length < APR_SIZE_MODULUS)
    (hf : 0 < f)
    (hatomic : ∀ e ∈ evs, e.atomic = true)
    (hpull : ∀ fr : mpf_frame_t, session_event.pull fr ∈ evs → fr.size = f)
    (hres : (session_run_events config mems net_res http_code
      (session_start sha1 hexstr_mem env config cs request voice_name (some text) chunks)
      evs).result = some CURLE_OK)
    (hsize : ∀ fr ∈ frames, fr.size = f)
    (hcount : frames.length
      = ((session_run_events config mems net_res http_code
          (session_start sha1 hexstr_mem env config cs request voice_name (some text) chunks)
          evs).cs.session.audio_buffer.size + f - 1) / f) :
    let run := session_run_events config mems net_res http_code
      (session_start sha1 hexstr_mem env config cs request voice_name (some text) chunks) evs
    let T := deliver_outputs config cs.session.ulaw chunks
    let B := run.cs.session.audio_buffer
    let done := elevenlabs_synth_stream_read (stream_read_state run.cs frames) frame
    (sink_converts config = false → T = chunks.flatten) ∧
    (∀ r ∈ run.pulls, r.bytes_read ≤ f) ∧
    pulled_bytes run.pulls ++ B.contents = T ∧
    T.length ≤ f * (run.pulls.filter (fun r => decide (0 < r.bytes_read))).length + B.size ∧
    (T.length + f - 1) / f
      ≤ (run.pulls.filter (fun r => decide (0 < r.bytes_read))).length + frames.length ∧
    (∃ k : Nat, run.cs.sent
      = cs.sent ++ [mrcp_message_t.response request mrcp_request_state_e.INPROGRESS false]
        ++ List.replicate k
            (mrcp_message_t.response request mrcp_request_state_e.INPROGRESS false)
        ++ (if run.cs.channel.speak_request = none
            then [mrcp_message_t.speak_complete request mrcp_synth_completion_cause_e.NORMAL]
            else [])) ∧
    (run.cs.channel.speak_request = none ∨ run.cs.channel.speak_request = some request) ∧
    (run.cs.channel.speak_request = none →
      B.size = 0 ∧
      stream_read_all run.cs later
        = later.map (fun fr => { state := run.cs, frame := fr, bytes_read := 0 }) ∧
      (stream_read_state run.cs later).sent = run.cs.sent) ∧
    (run.cs.channel.speak_request = some request →
      (stream_read_all run.cs frames).map (fun r => r.bytes_read)
        = List.replicate (B.size / f) f ++ (if B.size % f = 0 then [] else [B.size % f]) ∧
      pulled_bytes (stream_read_all run.cs frames) = B.contents ∧
      (stream_read_state run.cs frames).sent = run.cs.sent ∧
      done.bytes_read = 0 ∧ done.frame = frame ∧
      done.state.sent = run.cs.sent
        ++ [mrcp_message_t.speak_complete request mrcp_synth_completion_cause_e.NORMAL] ∧
      stream_read_all done.state later
        = later.map (fun fr => { state := done.state, frame := fr, bytes_read := 0 }) ∧
      (stream_read_state done.state later).sent = done.state.sent) ∧
    ((∀ e ∈ evs, e = session_event.worker) →
      run.pulls = [] ∧ run.cs.channel.speak_request = some request ∧ B.contents = T ∧
      B.size = T.length) := by
  intro run T B done
  obtain ⟨hinv0, _, hpulls0, hreq0⟩ := session_inv_start sha1 hexstr_mem env config cs request
    voice_name text chunks f hc ht hth hwf
  have hinv : session_inv config T
      (cs.sent ++ [mrcp_message_t.response request mrcp_request_state_e.INPROGRESS false])
      f request run :=
    session_inv_events config mems net_res http_code T _ f request hf hfit evs _ hatomic hpull
      hinv0
  obtain ⟨_, i2, _, i4, i5, i6, i7⟩ := hinv
  have hres2 : run.result = some CURLE_OK := hres
  have hwnone : run.worker = none := by
    cases hw : run.worker with
    | none => rfl
    | some w =>
      have := (i6 w hw).1
      rw [hres2] at this
      exact absurd this (by simp)
  obtain ⟨hst, res, hr1, hr2⟩ := i7 hwnone
  have hresok : res = CURLE_OK := by
    rw [hres2] at hr1
    exact (Option.some.inj hr1).symm
  have hcontent : pulled_bytes run.pulls ++ B.contents = T := hr2 hresok
  have hlen : T.length
      ≤ f * (run.pulls.filter (fun r => decide (0 < r.bytes_read))).length + B.size := by
    have h1 := pulled_bytes_length_le f run.pulls i4
    have h2 : T.length = (pulled_bytes run.pulls).length + B.size := by
      rw [← hcontent, List.length_append, audio_buffer_t.contents_length _ i2]
    omega
  have hceil : (T.length + f - 1) / f
      ≤ (run.pulls.filter (fun r => decide (0 < r.bytes_read))).length + frames.length := by
    apply ceil_div_le_of_le_mul _ _ _ hf
    have hd : B.size ≤ f * frames.length := by
      rw [hcount]
      exact le_mul_ceil_div B.size f hf
    rw [Nat.mul_add]
    omega
  obtain ⟨k, hk⟩ := i5
  refine ⟨deliver_outputs_plain config _ chunks, i4, hcontent, hlen, hceil, ⟨k, ?_⟩, ?_, ?_, ?_,
    ?_⟩
  · rcases hk with ⟨a1, _, a3⟩ | ⟨a1, _, _, _, a5⟩
    · rw [a3, a1, if_neg (by simp), List.append_nil]
    · rw [a5, a1, if_pos rfl]
  · rcases hk with ⟨a1, _, _⟩ | ⟨a1, _, _, _, _⟩
    · exact Or.inr a1
    · exact Or.inl a1
  · intro hnone
    rcases hk with ⟨a1, _, _⟩ | ⟨_, _, a3, _, _⟩
    · rw [a1] at hnone
      exact absurd hnone (by simp)
    · obtain ⟨r1, r2⟩ := stream_read_all_idle later run.cs (Or.inl hnone)
      exact ⟨a3, r1, by rw [r2]⟩
  · intro hsome
    rcases hk with ⟨a1, a2, _⟩ | ⟨a1, _, _, _, _⟩
    · obtain ⟨q1, q2, _, q4, q5, q6, q7, q8⟩ :=
        stream_read_drain f hf frames run.cs request a1 a2 i2 hsize hcount
      have hdone : done =
          { state :=
              { (stream_read_state run.cs frames) with
                  channel := { (stream_read_state run.cs frames).channel with
                                 speak_request := none, synthesizing := false },
                  sent := (stream_read_state run.cs frames).sent ++
                    [mrcp_message_t.speak_complete request
                      mrcp_synth_completion_cause_e.NORMAL] },
            frame := frame, bytes_read := 0 } :=
        stream_read_complete _ frame request q7 q8 q4 (by rw [q5]; exact hst)
      obtain ⟨r1, r2⟩ := stream_read_all_idle later done.state (Or.inl (by rw [hdone]))
      refine ⟨q1, q2, q6, by rw [hdone], by rw [hdone], ?_, r1, by rw [r2]⟩
      rw [hdone]
      show (stream_read_state run.cs frames).sent ++ _ = _
      rw [q6]
    · rw [a1] at hsome
      exact absurd hsome (by simp)
  · intro hall
    obtain ⟨w1, _, w3, _⟩ := session_run_workers config mems net_res http_code evs
      (session_start sha1 hexstr_mem env config cs request voice_name (some text) chunks) hall
    have hp : run.pulls = [] := w1.trans hpulls0
    have hreq : run.cs.channel.speak_request = some request := by
      show (session_run_events config mems net_res http_code
        (session_start sha1 hexstr_mem env config cs request voice_name (some text) chunks)
        evs).cs.channel.speak_request = some request
      rw [w3]; exact hreq0
    have hB : B.contents = T := by
      have := hcontent
      rw [hp] at this
      simpa [pulled_bytes] using this
    refine ⟨hp, hreq, hB, ?_⟩
    rw [← hB, audio_buffer_t.contents_length _ i2]

set_option maxRecDepth 100000 in
/-- Witness for C14 as amended: three chunks of 100 bytes received without
conversion, the worker exits before the first pull; frames of 50 bytes give
six calls of 50 bytes each, then SPEAK-COMPLETE with cause NORMAL on the
seventh call. -/
theorem session_lifecycle_witness :
    (stream_read_all
        (example_run [List.replicate 100 1, List.replicate 100 2, List.replicate 100 3]
          (List.replicate 4 session_event.worker)).cs
        (List.replicate 6 (example_frame 50))).map (fun r => r.bytes_read)
      = List.replicate (300 / 50) 50 ++ (if 300 % 50 = 0 then [] else [300 % 50]) ∧
    (elevenlabs_synth_stream_read
        (stream_read_state
          (example_run [List.replicate 100 1, List.replicate 100 2, List.replicate 100 3]
            (List.replicate 4 session_event.worker)).cs
          (List.replicate 6 (example_frame 50)))
        (example_frame 50)).state.sent
      = [mrcp_message_t.response 1 mrcp_request_state_e.INPROGRESS false,
         mrcp_message_t.speak_complete 1 mrcp_synth_completion_cause_e.NORMAL] := by
  have h := session_lifecycle example_sha1 (fun _ => NUL) example_env example_config
    example_idle_channel 1 none "hello".toList example_env.mems
    [List.replicate 100 1, List.replicate 100 2, List.replicate 100 3] CURLE_OK 200
    (List.replicate 4 session_event.worker)
    50 (List.replicate 6 (example_frame 50)) (example_frame 50) []
    rfl (by decide) rfl (by decide) (by decide) (by decide)
    (by intro e he; rw [List.eq_of_mem_replicate he]; rfl)
    (by intro fr hfr; have := List.eq_of_mem_replicate hfr; exact absurd this (by simp))
    (by decide)
    (by intro fr hfr; rw [List.eq_of_mem_replicate hfr]; rfl) (by decide)
  have hall : ∀ e ∈ List.replicate 4 session_event.worker, e = session_event.worker :=
    fun e he => List.eq_of_mem_replicate he
  obtain ⟨_, _, _, _, _, _, _, _, hact, hfirst⟩ := h
  obtain ⟨_, hreq, _, hsz⟩ := hfirst hall
  obtain ⟨b1, _, _, _, _, b6, _, _⟩ := hact hreq
  have hsent : (example_run [List.replicate 100 1, List.replicate 100 2, List.replicate 100 3]
      (List.replicate 4 session_event.worker)).cs.sent
      = [mrcp_message_t.response 1 mrcp_request_state_e.INPROGRESS false] := by decide
  have hsize : (example_run [List.replicate 100 1, List.replicate 100 2, List.replicate 100 3]
      (List.replicate 4 session_event.worker)).cs.session.audio_buffer.size = 300 := by decide
  refine ⟨?_, ?_⟩
  · have := b1
    rw [show (session_run_events example_config example_env.mems CURLE_OK 200
        (session_start example_sha1 (fun _ => NUL) example_env example_config
          example_idle_channel 1 none (some "hello".toList)
          [List.replicate 100 1, List.replicate 100 2, List.replicate 100 3])
        (List.replicate 4 session_event.worker)).cs.session.audio_buffer.size = 300
      from hsize] at this
    exact this
  · have := b6
    rw [show (session_run_events example_config example_env.mems CURLE_OK 200
        (session_start example_sha1 (fun _ => NUL) example_env example_config
          example_idle_channel 1 none (some "hello".toList)
          [List.replicate 100 1, List.replicate 100 2, List.replicate 100 3])
        (List.replicate 4 session_event.worker)).cs.sent
        = [mrcp_message_t.response 1 mrcp_request_state_e.INPROGRESS false]
      from hsent] at this
    exact this

end ElevenLabs
